import Mathlib

/-!
# Editor plugin layer of mc: spell backend binding, state cache, module loaders

Shallow embedding of
* `src/editor-plugins/spell/spell.c` (backend binder, language switch, state cache),
* `lib/panel-plugin-loader.c` (panel and editor module loaders).

Conventions of the embedding.
* C pointers are `Option` values, `none` being `NULL`; module handles, resolved addresses
  and speller handles are natural numbers.
* File-scope variables of a translation unit are the fields of one state record; every
  function takes the state and returns the new one.
* Everything outside the program (GLib, the dynamic linker, libaspell, the clock, the
  configuration file) is a field of a `World` record passed to each call, so that two
  consecutive calls may see different worlds.
* Calls that leave the program are recorded, in order, in the `trace` field of the state.
* A call through a `NULL` function pointer or a dereference of a `NULL` record has no
  defined behaviour; functions that can reach one return `Option`, `none` being the fault.
* `spell_debug_log` only appends a line to a log file and is left out.
-/

namespace Mc

/-! ## spell.c: data model -/

/-- The libaspell entry points held in the `mc_` function pointer table
(one constructor per `static ... (*mc_...)` declaration). -/
inductive AspellFn
  | new_aspell_config
  | aspell_config_replace
  | new_aspell_speller
  | aspell_error_number
  | aspell_speller_error_message
  | aspell_speller_error
  | to_aspell_speller
  | aspell_speller_check
  | aspell_speller_suggest
  | aspell_word_list_elements
  | aspell_config_retrieve
  | delete_aspell_speller
  | delete_aspell_config
  | delete_aspell_can_have_error
  | aspell_error_message
  | delete_aspell_string_enumeration
  | aspell_dict_info_list_elements
  | get_aspell_dict_info_list
  | aspell_dict_info_enumeration_next
  | aspell_string_enumeration_next
  | delete_aspell_dict_info_enumeration
  | aspell_word_list_size
  | aspell_error
  | aspell_speller_add_to_personal
  | aspell_speller_save_all_word_lists
  deriving DecidableEq, Repr

/-- The symbol name looked up for a table entry: the stringised argument `#f` of
`ASPELL_FUNCTION_AVAILABLE (f)`. -/
def AspellFn.symbol : AspellFn → String
  | .new_aspell_config => "new_aspell_config"
  | .aspell_config_replace => "aspell_config_replace"
  | .new_aspell_speller => "new_aspell_speller"
  | .aspell_error_number => "aspell_error_number"
  | .aspell_speller_error_message => "aspell_speller_error_message"
  | .aspell_speller_error => "aspell_speller_error"
  | .to_aspell_speller => "to_aspell_speller"
  | .aspell_speller_check => "aspell_speller_check"
  | .aspell_speller_suggest => "aspell_speller_suggest"
  | .aspell_word_list_elements => "aspell_word_list_elements"
  | .aspell_config_retrieve => "aspell_config_retrieve"
  | .delete_aspell_speller => "delete_aspell_speller"
  | .delete_aspell_config => "delete_aspell_config"
  | .delete_aspell_can_have_error => "delete_aspell_can_have_error"
  | .aspell_error_message => "aspell_error_message"
  | .delete_aspell_string_enumeration => "delete_aspell_string_enumeration"
  | .aspell_dict_info_list_elements => "aspell_dict_info_list_elements"
  | .get_aspell_dict_info_list => "get_aspell_dict_info_list"
  | .aspell_dict_info_enumeration_next => "aspell_dict_info_enumeration_next"
  | .aspell_string_enumeration_next => "aspell_string_enumeration_next"
  | .delete_aspell_dict_info_enumeration => "delete_aspell_dict_info_enumeration"
  | .aspell_word_list_size => "aspell_word_list_size"
  | .aspell_error => "aspell_error"
  | .aspell_speller_add_to_personal => "aspell_speller_add_to_personal"
  | .aspell_speller_save_all_word_lists => "aspell_speller_save_all_word_lists"

/-- The required symbols in the order in which the `&&` chain of `spell_available`
tries them. -/
def aspell_manifest : List AspellFn :=
  [ .new_aspell_config, .aspell_dict_info_list_elements, .aspell_dict_info_enumeration_next,
    .new_aspell_speller, .aspell_error_number, .aspell_speller_error_message,
    .aspell_speller_error, .aspell_error, .to_aspell_speller, .aspell_speller_check,
    .aspell_speller_suggest, .aspell_word_list_elements, .aspell_string_enumeration_next,
    .aspell_config_replace, .aspell_error_message, .delete_aspell_speller,
    .delete_aspell_config, .delete_aspell_string_enumeration, .get_aspell_dict_info_list,
    .delete_aspell_can_have_error, .delete_aspell_dict_info_enumeration,
    .aspell_config_retrieve, .aspell_word_list_size, .aspell_speller_add_to_personal,
    .aspell_speller_save_all_word_lists ]

/-- An `AspellConfig` object, seen through the keys the program replaces and retrieves. -/
abbrev AspellConfig := List (String × String)

/-- The record `spell_t`: a configuration object and a speller handle, either of which
may be `NULL`. -/
structure spell_t where
  config : Option AspellConfig
  speller : Option Nat
  deriving DecidableEq, Repr

/-- The record `hunspell_t`. -/
structure hunspell_t where
  speller : Option Nat
  dict_aff : Option String
  dict_dic : Option String
  deriving DecidableEq, Repr

/-- The enumeration `spell_backend_t`. -/
inductive spell_backend_t
  | SPELL_BACKEND_NONE
  | SPELL_BACKEND_ASPELL
  | SPELL_BACKEND_HUNSPELL
  deriving DecidableEq, Repr

/-- The enumeration `mc_ep_result_t` of `lib/editor-plugin.h`. -/
inductive mc_ep_result_t
  | MC_EPR_OK
  | MC_EPR_FAILED
  | MC_EPR_NOT_SUPPORTED
  deriving DecidableEq, Repr

/-- The record `mc_ep_state_t` of `lib/editor-plugin.h`. -/
structure mc_ep_state_t where
  available : Bool
  enabled : Bool
  reason : Option String
  deriving DecidableEq, Repr

/-- Calls of spell.c that leave the program, as recorded in the trace. -/
inductive SpellEvent
  | g_module_open (name : String)
  | g_module_symbol (module : Nat) (symbol : String)
  | g_module_close (module : Nat)
  | mc_config_set_string (key : String) (value : Option String)
  | new_aspell_config
  | aspell_config_replace (key : String) (value : String)
  | new_aspell_speller (config : AspellConfig)
  | delete_aspell_speller (speller : Nat)
  | delete_aspell_config
  | delete_aspell_can_have_error
  | Hunspell_destroy (speller : Nat)
  deriving DecidableEq, Repr

/-- What spell.c sees of its surroundings during one call. -/
structure SpellWorld where
  /-- Result of `g_module_open (name, G_MODULE_BIND_LAZY)`: a handle, or `NULL`. -/
  g_module_open : String → Option Nat
  /-- Address `g_module_symbol (module, name, &p)` resolves, `none` when it returns FALSE. -/
  g_module_symbol : Nat → String → Option Nat
  /-- Value of `g_get_monotonic_time ()`, a `gint64` count of microseconds. Clock values
  and the differences the program forms of them stay far inside the 64-bit range, so
  they are integers here. -/
  g_get_monotonic_time : Int
  /-- Result of `mc_config_get_string` for the language key of the spell section. -/
  mc_config_get_string : Option String
  /-- The field `mc_global.source_codepage`. -/
  source_codepage : Int
  /-- The function `get_codepage_id`. -/
  get_codepage_id : Int → String
  /-- Result of `str_detect_termencoding ()`. -/
  str_detect_termencoding : String
  /-- Result of `new_aspell_config ()`: whether a configuration object is returned. -/
  new_aspell_config : Bool
  /-- Result of `new_aspell_speller (config)`: the speller the returned object converts
  to, or `none` when the object carries an error. -/
  new_aspell_speller : AspellConfig → Option Nat
  /-- Message translation `_ (...)`. -/
  gettext : String → String
  /-- Whether `g_try_malloc (sizeof (spell_t))` returns a block. -/
  g_try_malloc : Bool

/-- The file-scope variables of spell.c. -/
structure SpellState where
  spell_module : Option Nat
  hunspell_module : Option Nat
  global_speller : Option spell_t
  global_hunspell : Option hunspell_t
  spell_check_cache : Option (List (String × Bool))
  spell_config_loaded : Bool
  plugin_spell_engine : Option String
  plugin_spell_language : Option String
  spell_state_cache_valid : Bool
  spell_state_cache_enabled : Bool
  spell_state_cache_available : Bool
  spell_state_cache_reason : String
  spell_state_cache_ts_us : Int
  spell_backend : spell_backend_t
  /-- The table of `mc_` function pointers into libaspell. -/
  mc : AspellFn → Option Nat
  /-- The pointer `mc_Hunspell_destroy`. -/
  mc_Hunspell_destroy : Option Nat
  trace : List SpellEvent

/-- The values the file-scope variables have when the program starts. -/
def SpellState.initial : SpellState where
  spell_module := none
  hunspell_module := none
  global_speller := none
  global_hunspell := none
  spell_check_cache := none
  spell_config_loaded := false
  plugin_spell_engine := none
  plugin_spell_language := none
  spell_state_cache_valid := false
  spell_state_cache_enabled := false
  spell_state_cache_available := false
  spell_state_cache_reason := ""
  spell_state_cache_ts_us := 0
  spell_backend := .SPELL_BACKEND_NONE
  mc := fun _ => none
  mc_Hunspell_destroy := none
  trace := []

/-! ## spell.c: functions -/

/-- The GLib constant `G_USEC_PER_SEC`. -/
def G_USEC_PER_SEC : Int := 1000000

/-- The macro `SPELL_STATE_CACHE_TTL_US`. -/
def SPELL_STATE_CACHE_TTL_US : Int := 250 * G_USEC_PER_SEC / 1000

/-- The constant `BUF_MEDIUM` of `lib/global.h`, the size of the reason buffers. -/
def BUF_MEDIUM : Nat := 256

def SPELL_PLUGIN_ENGINE_KEY : String := "engine"

def SPELL_PLUGIN_LANGUAGE_KEY : String := "language"

def SPELL_ENGINE_ASPELL : String := "aspell"

/-- Append one event to the trace. -/
def SpellState.log (s : SpellState) (e : SpellEvent) : SpellState :=
  { s with trace := s.trace ++ [e] }

/-- Copy into a buffer of `size` bytes as `g_strlcpy` and `g_snprintf` do: at most
`size - 1` characters are kept. -/
def g_strlcpy (src : String) (size : Nat) : String :=
  String.mk (src.toList.take (size - 1))

/-- What `aspell_config_replace (cfg, key, value)` does to the configuration. -/
def config_replace (key value : String) (cfg : AspellConfig) : AspellConfig :=
  (key, value) :: cfg.filter (fun kv => kv.1 != key)

def spell_check_cache_reset (s : SpellState) : SpellState :=
  match s.spell_check_cache with
  | some _ => { s with spell_check_cache := some [] }
  | none => s

def spell_state_cache_invalidate (s : SpellState) : SpellState :=
  { s with
    spell_state_cache_valid := false
    spell_state_cache_enabled := false
    spell_state_cache_available := false
    spell_state_cache_reason := ""
    spell_state_cache_ts_us := 0 }

def spell_config_load (w : SpellWorld) (s : SpellState) : SpellState :=
  if s.spell_config_loaded then s
  else
    let lang : String :=
      match w.mc_config_get_string with
      | none => "en"
      | some l => if l = "" then "en" else l
    { s with
      plugin_spell_engine := some SPELL_ENGINE_ASPELL
      plugin_spell_language := some lang
      spell_config_loaded := true }

def spell_config_save (s : SpellState) : SpellState :=
  if !s.spell_config_loaded then s
  else
    let s := { s with plugin_spell_engine := some SPELL_ENGINE_ASPELL }
    let s := s.log (.mc_config_set_string SPELL_PLUGIN_ENGINE_KEY s.plugin_spell_engine)
    let s := s.log (.mc_config_set_string SPELL_PLUGIN_LANGUAGE_KEY s.plugin_spell_language)
    spell_check_cache_reset (spell_state_cache_invalidate s)

/-- The macro `ASPELL_FUNCTION_AVAILABLE (f)`, that is
`g_module_symbol (spell_module, #f, (void *) &mc_##f)`: the pointer `mc_f` receives the
resolved address, or `NULL` when the symbol does not resolve; with a `NULL` module the
call fails its argument check and writes nothing. -/
def ASPELL_FUNCTION_AVAILABLE (w : SpellWorld) (f : AspellFn) (s : SpellState) :
    Bool × SpellState :=
  match s.spell_module with
  | none => (false, s)
  | some h =>
    let r := w.g_module_symbol h f.symbol
    (r.isSome, { s with mc := Function.update s.mc f r,
                        trace := s.trace ++ [.g_module_symbol h f.symbol] })

/-- A chain `ASPELL_FUNCTION_AVAILABLE (f1) && ASPELL_FUNCTION_AVAILABLE (f2) && ...`:
evaluation stops at the first lookup that fails. -/
def aspell_functions_available (w : SpellWorld) : List AspellFn → SpellState → Bool × SpellState
  | [], s => (true, s)
  | f :: fs, s =>
    let r := ASPELL_FUNCTION_AVAILABLE w f s
    if r.1 then aspell_functions_available w fs r.2 else (false, r.2)

def spell_available (w : SpellWorld) (s : SpellState) : Bool × SpellState :=
  if s.spell_module.isSome then (true, s)
  else
    let r := w.g_module_open "libaspell"
    let s := { s with spell_module := r, trace := s.trace ++ [.g_module_open "libaspell"] }
    match r with
    | none => (false, s)
    | some h =>
      let b := aspell_functions_available w aspell_manifest s
      if b.1 then (true, b.2)
      else (false, { b.2 with spell_module := none,
                              trace := b.2.trace ++ [.g_module_close h] })

/-- The call `mc_aspell_config_replace (global_speller->config, key, value)`. -/
def mc_aspell_config_replace (key value : String) (s : SpellState) : Option SpellState := do
  let g ← s.global_speller
  let _ ← s.mc .aspell_config_replace
  let cfg ← g.config
  some { s with global_speller := some { g with config := some (config_replace key value cfg) },
                trace := s.trace ++ [.aspell_config_replace key value] }

/-- The statement
`if (global_speller->speller != NULL) mc_delete_aspell_speller (global_speller->speller);`. -/
def delete_current_speller (s : SpellState) : Option SpellState := do
  let g ← s.global_speller
  match g.speller with
  | some sp => do
    let _ ← s.mc .delete_aspell_speller
    some (s.log (.delete_aspell_speller sp))
  | none => some s

def aspell_set_lang (w : SpellWorld) (lang : Option String) (s : SpellState) :
    Option (Bool × SpellState) :=
  match lang with
  | none => some (true, s)
  | some l => do
    let s := { s with plugin_spell_language := some l }
    let s := spell_config_save s
    let spell_codeset :=
      if w.source_codepage > 0 then w.get_codepage_id w.source_codepage
      else w.str_detect_termencoding
    let s ← mc_aspell_config_replace "lang" l s
    let s ← mc_aspell_config_replace "encoding" spell_codeset s
    let s ← delete_current_speller s
    let g ← s.global_speller
    let s := { s with global_speller := some { g with speller := none } }
    let _ ← s.mc .new_aspell_speller
    let cfg ← g.config
    let error := w.new_aspell_speller cfg
    let s := s.log (.new_aspell_speller cfg)
    let _ ← s.mc .aspell_error
    match error with
    | none => do
      let _ ← s.mc .delete_aspell_can_have_error
      some (false, s.log .delete_aspell_can_have_error)
    | some sp => do
      let _ ← s.mc .to_aspell_speller
      some (true, { s with global_speller := some { config := g.config, speller := some sp } })

def spell_set_lang (w : SpellWorld) (lang : Option String) (s : SpellState) :
    Option (Bool × SpellState) :=
  match lang with
  | none => some (false, s)
  | some l =>
    if l = "" then some (false, s)
    else
      let s := spell_config_load w s
      let s := { s with plugin_spell_language := some l }
      let s := spell_config_save s
      if s.spell_backend = .SPELL_BACKEND_ASPELL then aspell_set_lang w (some l) s
      else some (true, s)

/-- The text `spell_backend_reason` prints into a buffer of `bufsize` bytes. -/
def spell_backend_reason (bufsize : Nat) : String :=
  g_strlcpy
    ("Aspell is not installed.\n"
      ++ "Ubuntu/Debian: sudo apt install aspell aspell-<lang>\n"
      ++ "RHEL/Fedora: sudo dnf install aspell aspell-<lang>")
    bufsize

def spell_backend_selected_available (w : SpellWorld) (s : SpellState) :
    Option (Bool × SpellState) := do
  let l ← s.plugin_spell_language
  if l = "NONE" then some (false, s) else some (spell_available w s)

def spell_runtime_shutdown (s : SpellState) : Option SpellState := do
  let s := { s with spell_backend := .SPELL_BACKEND_NONE }
  let s := spell_state_cache_invalidate s
  let s ← match s.global_speller with
    | some g => do
      let s ← delete_current_speller s
      let s ← match g.config with
        | some _ => do
          let _ ← s.mc .delete_aspell_config
          some (s.log .delete_aspell_config)
        | none => some s
      some { s with global_speller := none }
    | none => some s
  let s ← match s.global_hunspell with
    | some g => do
      let s ← match g.speller with
        | some sp => do
          let _ ← s.mc_Hunspell_destroy
          some (s.log (.Hunspell_destroy sp))
        | none => some s
      some { s with global_hunspell := none }
    | none => some s
  let s := { s with spell_check_cache := none }
  let s := match s.spell_module with
    | some h => { s with spell_module := none, trace := s.trace ++ [SpellEvent.g_module_close h] }
    | none => s
  let s := match s.hunspell_module with
    | some h => { s with hunspell_module := none, trace := s.trace ++ [SpellEvent.g_module_close h] }
    | none => s
  some s

def spell_runtime_init (w : SpellWorld) (s : SpellState) : Option SpellState := do
  let s := spell_config_load w s
  let l ← s.plugin_spell_language
  if l = "NONE" then some (spell_state_cache_invalidate s)
  else if s.spell_backend ≠ .SPELL_BACKEND_NONE then some s
  else if !w.g_try_malloc then some { s with global_speller := none }
  else
    let s := { s with global_speller := some { config := none, speller := none } }
    let r := spell_available w s
    if !r.1 then some { r.2 with global_speller := none }
    else do
      let s := r.2
      let _ ← s.mc .new_aspell_config
      let cfg : Option AspellConfig := if w.new_aspell_config then some [] else none
      let s := { s with global_speller := some { config := cfg, speller := none },
                        trace := s.trace ++ [SpellEvent.new_aspell_config] }
      let s ← match s.plugin_spell_language with
        | some l => mc_aspell_config_replace "lang" l s
        | none => some s
      let g ← s.global_speller
      let _ ← s.mc .new_aspell_speller
      let c ← g.config
      let error := w.new_aspell_speller c
      let s := s.log (.new_aspell_speller c)
      let _ ← s.mc .aspell_error_number
      match error with
      | some sp => do
        let _ ← s.mc .to_aspell_speller
        some (spell_state_cache_invalidate
          { s with global_speller := some { config := g.config, speller := some sp },
                   spell_backend := .SPELL_BACKEND_ASPELL })
      | none => do
        let _ ← s.mc .aspell_error_message
        let _ ← s.mc .delete_aspell_can_have_error
        spell_runtime_shutdown (s.log .delete_aspell_can_have_error)

/-- The expression `spell_state_cache_reason[0] != 0 ? spell_state_cache_reason : NULL`. -/
def reason_or_null (reason : String) : Option String :=
  if reason = "" then none else some reason

/-- The function `spell_query_state`; `state` is the record the argument points to
(`none` for a `NULL` argument) and the second component of the result is that record
after the call. -/
def spell_query_state (w : SpellWorld) (state : Option mc_ep_state_t) (s : SpellState) :
    Option (mc_ep_result_t × Option mc_ep_state_t × SpellState) :=
  let s := spell_config_load w s
  match state with
  | none => some (.MC_EPR_FAILED, none, s)
  | some _ =>
    let now_us := w.g_get_monotonic_time
    if s.spell_state_cache_valid
        && decide (now_us - s.spell_state_cache_ts_us < SPELL_STATE_CACHE_TTL_US) then
      some (.MC_EPR_OK,
        some { enabled := s.spell_state_cache_enabled
               available := s.spell_state_cache_available
               reason := reason_or_null s.spell_state_cache_reason }, s)
    else do
      let l ← s.plugin_spell_language
      let enabled := l != "NONE"
      let r ← if enabled then spell_backend_selected_available w s else some (false, s)
      let available := r.1
      let s := r.2
      let reason : String :=
        if !enabled then
          g_strlcpy (w.gettext "Spell plugin is disabled (language is set to NONE).") BUF_MEDIUM
        else if !available then spell_backend_reason BUF_MEDIUM
        else ""
      let s := { s with
        spell_state_cache_valid := true
        spell_state_cache_ts_us := now_us
        spell_state_cache_enabled := enabled
        spell_state_cache_available := available
        spell_state_cache_reason := if reason ≠ "" then g_strlcpy reason BUF_MEDIUM else "" }
      some (.MC_EPR_OK,
        some { enabled := enabled
               available := available
               reason := reason_or_null s.spell_state_cache_reason }, s)

/-! ## spell.c: consistency of the variables between calls -/

/-- Consistency of the file-scope variables between calls: once the configuration is
loaded the language is set; with the aspell backend selected the speller record exists;
whenever the record exists it has a configuration object and every function pointer of
the table is bound; the unused hunspell record is `NULL`. -/
def SpellState.consistent (s : SpellState) : Bool :=
  (!s.spell_config_loaded || s.plugin_spell_language.isSome)
  && (s.spell_backend != .SPELL_BACKEND_ASPELL || s.global_speller.isSome)
  && (match s.global_speller with
      | none => true
      | some g => g.config.isSome && aspell_manifest.all (fun f => (s.mc f).isSome))
  && s.global_hunspell.isNone

/-! ## panel-plugin-loader.c

The descriptor type `P` a module's entry function returns and the registry `R` behind
`mc_panel_plugin_add` / `mc_editor_plugin_add` belong to other translation units
(`lib/panel-plugin.c`, `lib/editor-plugin.c`); the loader only passes the descriptor
pointer on, so both are parameters. The diagnostics written to `stderr` are left out. -/

/-- Calls of the loader that leave the program, as recorded in the trace. -/
inductive LoaderEvent
  | g_dir_open (path : String)
  | g_dir_close
  | g_module_open (path : String)
  | g_module_symbol (module : Nat) (symbol : String)
  | g_module_close (module : Nat)
  | g_module_make_resident (module : Nat)
  /-- Call of the entry function found at `address` in `module`. -/
  | register_fn (module : Nat) (address : Nat)
  deriving DecidableEq, Repr

/-- What the loader sees of its surroundings during one call. -/
structure LoaderWorld (P : Type) where
  /-- Result of `g_dir_open`: the names `g_dir_read_name` then yields, in order, or
  `none` when the directory cannot be opened. -/
  g_dir_open : String → Option (List String)
  /-- Result of `g_module_open (path, G_MODULE_BIND_LAZY)`. -/
  g_module_open : String → Option Nat
  /-- Address `g_module_symbol (module, name, &fn)` resolves, `none` when it fails. -/
  g_module_symbol : Nat → String → Option Nat
  /-- Descriptor returned by the entry function at the given address, `none` for `NULL`. -/
  register_fn : Nat → Option P

/-- The file-scope variables of panel-plugin-loader.c, together with the two registries
the loaders feed. -/
structure LoaderState (RP RE : Type) where
  panel_plugin_modules : Option (List Nat)
  editor_plugins_loaded : Bool
  editor_plugin_modules : Option (List Nat)
  /-- The registry behind `mc_panel_plugin_add`. -/
  panel_registry : RP
  /-- The registry behind `mc_editor_plugin_add`. -/
  editor_registry : RE
  trace : List LoaderEvent

/-- The macro `MC_EDITOR_PLUGIN_ENTRY` of `lib/editor-plugin.h`. -/
def MC_EDITOR_PLUGIN_ENTRY : String := "mc_editor_plugin_register"

/-- The default of the macro `MC_EDITOR_PLUGINS_DIR` of `lib/editor-plugin.h`. -/
def MC_EDITOR_PLUGINS_DIR : String := "/usr/lib/mc/editor-plugins"

/-- The GLib function `g_str_has_suffix`. -/
def g_str_has_suffix (str suffix : String) : Bool :=
  suffix.toList.isSuffixOf str.toList

/-- The GLib function `g_build_filename` on path elements that carry no separator at
their ends: the elements joined by the directory separator. -/
def g_build_filename (elements : List String) : String :=
  "/".intercalate elements

def module_filename_has_native_suffix (filename : Option String) : Bool :=
  match filename with
  | none => false
  | some filename =>
    g_str_has_suffix filename ".so" || g_str_has_suffix filename ".dylib"
      || g_str_has_suffix filename ".bundle" || g_str_has_suffix filename ".dll"

/-- The variables a directory scan works on: the module array, the registry, the trace. -/
structure ScanState (R : Type) where
  modules : List Nat
  registry : R
  trace : List LoaderEvent

/-- One iteration of the `while ((filename = g_dir_read_name (dir)) != NULL)` loop. The
loops of `mc_panel_plugins_load` and `mc_editor_plugins_load` are the same text up to the
entry symbol, the registry function and the module array, which are the parameters
`entry`, `add` and the `modules` field. -/
def plugins_load_entry {P R : Type} (w : LoaderWorld P) (add : P → R → Bool × R)
    (plugins_dir entry : String) (filename : String) (st : ScanState R) : ScanState R :=
  if !module_filename_has_native_suffix (some filename) then st
  else
    let path := g_build_filename [plugins_dir, filename]
    let st := { st with trace := st.trace ++ [LoaderEvent.g_module_open path] }
    match w.g_module_open path with
    | none => st
    | some module =>
      let st := { st with trace := st.trace ++ [LoaderEvent.g_module_symbol module entry] }
      match w.g_module_symbol module entry with
      | none => { st with trace := st.trace ++ [LoaderEvent.g_module_close module] }
      | some register_fn =>
        let st := { st with trace := st.trace ++ [LoaderEvent.register_fn module register_fn] }
        match w.register_fn register_fn with
        | none => { st with trace := st.trace ++ [LoaderEvent.g_module_close module] }
        | some plugin =>
          let r := add plugin st.registry
          let st := { st with registry := r.2 }
          if !r.1 then { st with trace := st.trace ++ [LoaderEvent.g_module_close module] }
          else
            { st with trace := st.trace ++ [LoaderEvent.g_module_make_resident module],
                      modules := st.modules ++ [module] }

/-- The whole `while` loop over the names the directory yields. -/
def plugins_load_loop {P R : Type} (w : LoaderWorld P) (add : P → R → Bool × R)
    (plugins_dir entry : String) : List String → ScanState R → ScanState R
  | [], st => st
  | filename :: rest, st =>
    plugins_load_loop w add plugins_dir entry rest
      (plugins_load_entry w add plugins_dir entry filename st)

/-- The function `mc_panel_plugins_load`; the macros `MC_PANEL_PLUGINS_DIR` and
`MC_PANEL_PLUGIN_ENTRY` and the function `mc_panel_plugin_add` of `lib/panel-plugin.h`
are parameters. -/
def mc_panel_plugins_load {P RP RE : Type} (w : LoaderWorld P)
    (MC_PANEL_PLUGINS_DIR MC_PANEL_PLUGIN_ENTRY : String)
    (mc_panel_plugin_add : P → RP → Bool × RP) (s : LoaderState RP RE) : LoaderState RP RE :=
  let plugins_dir := g_build_filename [MC_PANEL_PLUGINS_DIR]
  let s := { s with trace := s.trace ++ [LoaderEvent.g_dir_open plugins_dir] }
  match w.g_dir_open plugins_dir with
  | none => s
  | some entries =>
    let s := { s with panel_plugin_modules := some [] }
    let r := plugins_load_loop w mc_panel_plugin_add plugins_dir MC_PANEL_PLUGIN_ENTRY entries
      { modules := [], registry := s.panel_registry, trace := s.trace }
    { s with panel_plugin_modules := some r.modules, panel_registry := r.registry,
             trace := r.trace ++ [LoaderEvent.g_dir_close] }

/-- The function `mc_editor_plugins_load`; the function `mc_editor_plugin_add` is a
parameter. -/
def mc_editor_plugins_load {P RP RE : Type} (w : LoaderWorld P)
    (mc_editor_plugin_add : P → RE → Bool × RE) (s : LoaderState RP RE) : LoaderState RP RE :=
  if s.editor_plugins_loaded then s
  else
    let s := { s with editor_plugins_loaded := true }
    let plugins_dir := g_build_filename [MC_EDITOR_PLUGINS_DIR]
    let s := { s with trace := s.trace ++ [LoaderEvent.g_dir_open plugins_dir] }
    match w.g_dir_open plugins_dir with
    | none => s
    | some entries =>
      let s := { s with editor_plugin_modules := some [] }
      let r := plugins_load_loop w mc_editor_plugin_add plugins_dir MC_EDITOR_PLUGIN_ENTRY
        entries { modules := [], registry := s.editor_registry, trace := s.trace }
      { s with editor_plugin_modules := some r.modules, editor_registry := r.registry,
               trace := r.trace ++ [LoaderEvent.g_dir_close] }

/-! ## builtin-plugins.c: data model

The handlers reach the editor through functions whose bodies work on the edit buffer and
on dialogs (`edit_mail_dialog`, `edit_block_process_cmd`, `edit_get_match_keyword_cmd`,
and the spell operations `edit_spellcheck_file`, `edit_suggest_current_word`,
`edit_set_spell_lang`, `edit_spell_plugin_settings`). A call of one of them is recorded
as an event; for the spell operations, which also work on the variables of spell.c, the
state of those variables at the end of the run is given by a parameter. -/

/-- The command codes of `lib/keybind.h` that the built-in plugins use. The header is
not among the sources, so the values are parameters. -/
structure Keybind where
  CK_IgnoreKey : Int
  CK_Find : Int
  CK_Save : Int
  CK_SpellCheck : Int
  CK_SpellCheckCurrentWord : Int
  CK_SpellCheckSelectLang : Int
  /-- The macro `CK_PipeBlock (i)`. -/
  CK_PipeBlock : Int → Int

/-- The record `mc_editor_host_t`; the callbacks are function pointers. -/
structure mc_editor_host_t where
  refresh : Option Nat
  message : Option Nat
  host_data : Option Nat
  deriving DecidableEq, Repr

/-- The record `spell_keybind_t`. -/
structure spell_keybind_t where
  command : Int
  key : Int
  deriving DecidableEq, Repr

/-- The record `editor_builtin_plugin_data_t`: the host the instance was opened with and
the keymap array of the spell plugin. -/
structure editor_builtin_plugin_data_t where
  host : Option mc_editor_host_t
  spell_keymap : Option (List spell_keybind_t)
  deriving DecidableEq, Repr

/-- Calls the handlers make out of builtin-plugins.c, as recorded in the trace; an edit
widget is identified by its address. -/
inductive PluginEvent
  /-- The call `data->host->refresh (data->host)` through the given callback. -/
  | refresh (callback : Nat)
  | edit_mail_dialog (edit : Nat)
  | edit_block_process_cmd (edit : Nat) (macro_number : Int)
  | edit_get_match_keyword_cmd (edit : Nat)
  /-- The call `message (D_ERROR, title, "%s", text)`. -/
  | message (title : String) (text : String)
  | edit_spellcheck_file (edit : Nat)
  | edit_suggest_current_word (edit : Nat)
  | edit_set_spell_lang
  | edit_spell_plugin_settings
  deriving DecidableEq, Repr

/-- The spell operations of spell.c the handlers start, each as the map from the
variables of spell.c at its start to those at its end. -/
structure SpellUi where
  edit_spellcheck_file : Nat → SpellState → SpellState
  edit_suggest_current_word : Nat → SpellState → SpellState
  edit_set_spell_lang : SpellState → SpellState
  edit_spell_plugin_settings : SpellState → SpellState

/-- What the handlers work on: the file-scope variable of builtin-plugins.c, the
variables of spell.c, and the trace of the calls made. -/
structure PluginState where
  editor_builtin_plugins_registered : Bool
  spell : SpellState
  trace : List PluginEvent

/-! ## builtin-plugins.c: handlers -/

/-- Append one event to the trace. -/
def PluginState.log (s : PluginState) (e : PluginEvent) : PluginState :=
  { s with trace := s.trace ++ [e] }

/-- The statement
`if (data != NULL && data->host != NULL && data->host->refresh != NULL)
data->host->refresh (data->host);` that ends every successful handler. -/
def host_refresh (data : Option editor_builtin_plugin_data_t) (s : PluginState) :
    PluginState :=
  match data with
  | none => s
  | some d =>
    match d.host with
    | none => s
    | some host =>
      match host.refresh with
      | none => s
      | some callback => s.log (.refresh callback)

/-- The conversion `(int) x` of a `long` value: reduction into the 32-bit signed range. -/
def int_of_long (x : Int) : Int := Int.bmod x (2 ^ 32)

def mail_plugin_activate (plugin_data : Option editor_builtin_plugin_data_t)
    (edit : Option Nat) (s : PluginState) : mc_ep_result_t × PluginState :=
  match edit with
  | none => (.MC_EPR_FAILED, s)
  | some e =>
    let s := s.log (.edit_mail_dialog e)
    (.MC_EPR_OK, host_refresh plugin_data s)

/-- The function `scripts_plugin_handle_action`; `command / CK_PipeBlock (0)` is the
division of C, which truncates toward zero. -/
def scripts_plugin_handle_action (kb : Keybind)
    (plugin_data : Option editor_builtin_plugin_data_t) (command : Int) (edit : Option Nat)
    (s : PluginState) : mc_ep_result_t × PluginState :=
  match edit with
  | none => (.MC_EPR_NOT_SUPPORTED, s)
  | some e =>
    if command.tdiv (kb.CK_PipeBlock 0) ≠ 1 then (.MC_EPR_NOT_SUPPORTED, s)
    else
      let macro_number := int_of_long (command - kb.CK_PipeBlock 0)
      let s := s.log (.edit_block_process_cmd e macro_number)
      (.MC_EPR_OK, host_refresh plugin_data s)

def etags_plugin_handle_action (kb : Keybind)
    (plugin_data : Option editor_builtin_plugin_data_t) (command : Int) (edit : Option Nat)
    (s : PluginState) : mc_ep_result_t × PluginState :=
  match edit with
  | none => (.MC_EPR_NOT_SUPPORTED, s)
  | some e =>
    if command ≠ kb.CK_Find then (.MC_EPR_NOT_SUPPORTED, s)
    else
      let s := s.log (.edit_get_match_keyword_cmd e)
      (.MC_EPR_OK, host_refresh plugin_data s)

def spell_plugin_activate (ui : SpellUi) (plugin_data : Option editor_builtin_plugin_data_t)
    (edit : Option Nat) (s : PluginState) : mc_ep_result_t × PluginState :=
  match edit with
  | none => (.MC_EPR_NOT_SUPPORTED, s)
  | some e =>
    let s := { s with spell := ui.edit_spellcheck_file e s.spell,
                      trace := s.trace ++ [PluginEvent.edit_spellcheck_file e] }
    (.MC_EPR_OK, host_refresh plugin_data s)

def spell_plugin_configure (ui : SpellUi) (plugin_data : Option editor_builtin_plugin_data_t)
    (_edit : Option Nat) (s : PluginState) : mc_ep_result_t × PluginState :=
  let s := { s with spell := ui.edit_spell_plugin_settings s.spell,
                    trace := s.trace ++ [PluginEvent.edit_spell_plugin_settings] }
  (.MC_EPR_OK, host_refresh plugin_data s)

def spell_plugin_query_state (w : SpellWorld)
    (_plugin_data : Option editor_builtin_plugin_data_t) (_edit : Option Nat)
    (state : Option mc_ep_state_t) (s : PluginState) :
    Option (mc_ep_result_t × Option mc_ep_state_t × PluginState) :=
  (spell_query_state w state s.spell).map fun r => (r.1, r.2.1, { s with spell := r.2.2 })

/-- The opening of `spell_plugin_handle_action` and of the state check in
`spell_plugin_handle_key`: `state` starts as `{ TRUE, TRUE, NULL }`, `spell_query_state`
fills it, and the result is whether
`spell_query_state (&state) != MC_EPR_OK || !state.available || !state.enabled` holds,
together with `state`. -/
def spell_state_check (w : SpellWorld) (s : PluginState) :
    Option (Bool × mc_ep_state_t × PluginState) := do
  let state : mc_ep_state_t := { available := true, enabled := true, reason := none }
  let r ← spell_query_state w (some state) s.spell
  let state := r.2.1.getD state
  let s := { s with spell := r.2.2 }
  some (r.1 != .MC_EPR_OK || !state.available || !state.enabled, state, s)

/-- The call
`message (D_ERROR, _ ("Spell"), "%s",
state.reason != NULL ? state.reason : _ ("Spell backend is unavailable."))`. -/
def spell_unavailable_message (w : SpellWorld) (state : mc_ep_state_t) (s : PluginState) :
    PluginState :=
  s.log (.message (w.gettext "Spell")
    (match state.reason with
     | some reason => reason
     | none => w.gettext "Spell backend is unavailable."))

def spell_plugin_handle_action (kb : Keybind) (w : SpellWorld) (ui : SpellUi)
    (plugin_data : Option editor_builtin_plugin_data_t) (command : Int) (edit : Option Nat)
    (s : PluginState) : Option (mc_ep_result_t × PluginState) := do
  let c ← spell_state_check w s
  let s := c.2.2
  if c.1 then some (.MC_EPR_NOT_SUPPORTED, spell_unavailable_message w c.2.1 s)
  else if edit.isNone && command != kb.CK_SpellCheckSelectLang then
    some (.MC_EPR_NOT_SUPPORTED, s)
  else if command = kb.CK_SpellCheck then
    match edit with
    | none => none
    | some e =>
      let s := { s with spell := ui.edit_spellcheck_file e s.spell,
                        trace := s.trace ++ [PluginEvent.edit_spellcheck_file e] }
      some (.MC_EPR_OK, host_refresh plugin_data s)
  else if command = kb.CK_SpellCheckSelectLang then
    let s := { s with spell := ui.edit_set_spell_lang s.spell,
                      trace := s.trace ++ [PluginEvent.edit_set_spell_lang] }
    some (.MC_EPR_OK, host_refresh plugin_data s)
  else some (.MC_EPR_NOT_SUPPORTED, s)

/-- The loop `for (i = 0; i < keymap->len; i++)` of `spell_keymap_lookup_command`, from
the binding at the head of the list on. -/
def spell_keymap_lookup_loop (kb : Keybind) (key : Int) : List spell_keybind_t → Int
  | [] => kb.CK_IgnoreKey
  | bind :: rest =>
    if bind.key = key then bind.command else spell_keymap_lookup_loop kb key rest

def spell_keymap_lookup_command (kb : Keybind) (keymap : Option (List spell_keybind_t))
    (key : Int) : Int :=
  match keymap with
  | none => kb.CK_IgnoreKey
  | some binds => spell_keymap_lookup_loop kb key binds

def spell_plugin_handle_key (kb : Keybind) (w : SpellWorld) (ui : SpellUi)
    (plugin_data : Option editor_builtin_plugin_data_t) (key : Int) (edit : Option Nat)
    (s : PluginState) : Option (mc_ep_result_t × PluginState) :=
  match edit, plugin_data with
  | none, _ => some (.MC_EPR_NOT_SUPPORTED, s)
  | _, none => some (.MC_EPR_NOT_SUPPORTED, s)
  | some e, some data =>
    let command := spell_keymap_lookup_command kb data.spell_keymap key
    if command = kb.CK_IgnoreKey then some (.MC_EPR_NOT_SUPPORTED, s)
    else do
      let c ← spell_state_check w s
      let s := c.2.2
      if c.1 then some (.MC_EPR_NOT_SUPPORTED, spell_unavailable_message w c.2.1 s)
      else if command = kb.CK_SpellCheck then
        let s := { s with spell := ui.edit_spellcheck_file e s.spell,
                          trace := s.trace ++ [PluginEvent.edit_spellcheck_file e] }
        some (.MC_EPR_OK, host_refresh plugin_data s)
      else if command = kb.CK_SpellCheckCurrentWord then
        let s := { s with spell := ui.edit_suggest_current_word e s.spell,
                          trace := s.trace ++ [PluginEvent.edit_suggest_current_word e] }
        some (.MC_EPR_OK, host_refresh plugin_data s)
      else if command = kb.CK_SpellCheckSelectLang then
        let s := { s with spell := ui.edit_set_spell_lang s.spell,
                          trace := s.trace ++ [PluginEvent.edit_set_spell_lang] }
        some (.MC_EPR_OK, host_refresh plugin_data s)
      else some (.MC_EPR_NOT_SUPPORTED, s)

/-! ## builtin-plugins.c: the spell keymap files

A C string is the list of its characters, the terminating NUL left out. -/

/-- What the keymap loader sees of its surroundings. -/
structure KeymapWorld where
  /-- The field `mc_global.share_data_dir`. -/
  share_data_dir : Option String
  /-- The field `mc_global.sysconfig_dir`. -/
  sysconfig_dir : Option String
  /-- The function `mc_config_get_full_path`. -/
  mc_config_get_full_path : String → Option String
  /-- The function `exist_file`. -/
  exist_file : String → Bool
  /-- The buffer `g_file_get_contents` returns for a file, `none` when it fails. -/
  g_file_get_contents : String → Option (List Char)
  /-- The key code `tty_keyname_to_keycode` gives for a key name, as stored in the `int`
  field `key`; 0 when the name is not known. -/
  tty_keyname_to_keycode : List Char → Int

def SPELL_KEYMAP_FILE : String := "spell.keymap"

/-- The GLib function `g_ascii_isspace`: space (32), horizontal tab (9), line feed (10),
form feed (12) and carriage return (13); the vertical tab (11) is not white space for
GLib. -/
def g_ascii_isspace (c : Char) : Bool :=
  c.toNat = 32 || c.toNat = 9 || c.toNat = 10 || c.toNat = 12 || c.toNat = 13

/-- The GLib function `g_strchug`: leading white space removed. -/
def g_strchug (string : List Char) : List Char :=
  string.dropWhile g_ascii_isspace

/-- The GLib function `g_strchomp`: trailing white space removed. -/
def g_strchomp (string : List Char) : List Char :=
  string.rdropWhile g_ascii_isspace

/-- The GLib macro `g_strstrip`. -/
def g_strstrip (string : List Char) : List Char :=
  g_strchomp (g_strchug string)

/-- The GLib function `g_strsplit (string, delimiter, -1)` for a delimiter of one
character: the pieces between the delimiters, none at all for the empty string. -/
def g_strsplit (string : List Char) (delimiter : Char) : List (List Char) :=
  if string = [] then [] else string.splitOn delimiter

/-- A buffer read as a C string: the characters before the first NUL. -/
def c_string (buffer : List Char) : List Char :=
  buffer.takeWhile fun c => c.toNat != 0

def spell_keymap_action_from_name (kb : Keybind) (name : List Char) : Int :=
  if name = "SpellCheck".toList then kb.CK_SpellCheck
  else if name = "SpellCheckCurrentWord".toList then kb.CK_SpellCheckCurrentWord
  else if name = "SpellCheckSelectLang".toList then kb.CK_SpellCheckSelectLang
  else kb.CK_IgnoreKey

def spell_keymap_add_binding (kb : Keybind) (w : KeymapWorld)
    (keymap : Option (List spell_keybind_t)) (command : Int) (keybind : Option (List Char)) :
    Option (List spell_keybind_t) :=
  match keymap, keybind with
  | none, _ => none
  | some binds, none => some binds
  | some binds, some name =>
    if command = kb.CK_IgnoreKey || name.isEmpty then some binds
    else
      let key := w.tty_keyname_to_keycode name
      if key = 0 then some binds
      else some (binds ++ [{ command := command, key := key }])

/-- The loop `for (it = values; it != NULL && *it != NULL; it++)` of
`spell_keymap_parse_line`. -/
def spell_keymap_parse_values (kb : Keybind) (w : KeymapWorld) (action : Int) :
    List (List Char) → Option (List spell_keybind_t) → Option (List spell_keybind_t)
  | [], keymap => keymap
  | it :: rest, keymap =>
    let keybind := g_strstrip it
    let keymap :=
      if !keybind.isEmpty then spell_keymap_add_binding kb w keymap action (some keybind)
      else keymap
    spell_keymap_parse_values kb w action rest keymap

/-- The function `spell_keymap_parse_line`; `strchr (line, 61)` finds the first equals
sign, the name is what stands before it and the value what stands after it. -/
def spell_keymap_parse_line (kb : Keybind) (w : KeymapWorld)
    (keymap : Option (List spell_keybind_t)) (line : Option (List Char)) :
    Option (List spell_keybind_t) :=
  match keymap, line with
  | none, _ => none
  | some binds, none => some binds
  | some binds, some line =>
    let line := g_strstrip line
    match line with
    | [] => some binds
    | c :: _ =>
      if c = Char.ofNat 35 || c = Char.ofNat 59 || c = Char.ofNat 91 then some binds
      else
        match line.dropWhile (fun c => c != Char.ofNat 61) with
        | [] => some binds
        | _ :: after =>
          let name := g_strstrip (line.takeWhile (fun c => c != Char.ofNat 61))
          let value := g_strstrip after
          let action := spell_keymap_action_from_name kb name
          if action = kb.CK_IgnoreKey || value.isEmpty then some binds
          else
            spell_keymap_parse_values kb w action (g_strsplit value (Char.ofNat 59))
              (some binds)

/-- The loop `for (it = lines; it != NULL && *it != NULL; it++)` of
`spell_keymap_load_file`. -/
def spell_keymap_parse_lines (kb : Keybind) (w : KeymapWorld) :
    List (List Char) → Option (List spell_keybind_t) → Option (List spell_keybind_t)
  | [], keymap => keymap
  | it :: rest, keymap =>
    spell_keymap_parse_lines kb w rest (spell_keymap_parse_line kb w keymap (some it))

def spell_keymap_load_file (kb : Keybind) (w : KeymapWorld)
    (keymap : Option (List spell_keybind_t)) (fname : Option String) :
    Option (List spell_keybind_t) :=
  match keymap, fname with
  | none, _ => none
  | some binds, none => some binds
  | some binds, some fname =>
    if !w.exist_file fname then some binds
    else
      match w.g_file_get_contents fname with
      | none => some binds
      | some contents =>
        spell_keymap_parse_lines kb w (g_strsplit (c_string contents) (Char.ofNat 10))
          (some binds)

def spell_keymap_load (kb : Keybind) (w : KeymapWorld) : Option (List spell_keybind_t) :=
  let keymap : Option (List spell_keybind_t) := some []
  let keymap :=
    match w.share_data_dir with
    | some dir =>
      spell_keymap_load_file kb w keymap (some (g_build_filename [dir, SPELL_KEYMAP_FILE]))
    | none => keymap
  let keymap :=
    match w.sysconfig_dir with
    | some dir =>
      spell_keymap_load_file kb w keymap (some (g_build_filename [dir, SPELL_KEYMAP_FILE]))
    | none => keymap
  spell_keymap_load_file kb w keymap (w.mc_config_get_full_path SPELL_KEYMAP_FILE)

/-! ## editor-plugin.h and the built-in descriptors of builtin-plugins.c -/

/-- The macro `MC_EDITOR_PLUGIN_API_VERSION` of `lib/editor-plugin.h`. -/
def MC_EDITOR_PLUGIN_API_VERSION : Int := 2

/-- The enumeration `mc_ep_flags_t` of `lib/editor-plugin.h`. -/
inductive mc_ep_flags_t
  | MC_EPF_NONE
  | MC_EPF_HAS_MENU
  deriving DecidableEq, Repr

/-- The functions of builtin-plugins.c that the built-in descriptors point to. -/
inductive builtin_fn
  | editor_builtin_plugin_open
  | editor_builtin_plugin_close
  | spell_plugin_open
  | spell_plugin_close
  | mail_plugin_activate
  | scripts_plugin_handle_action
  | etags_plugin_handle_action
  | spell_plugin_activate
  | spell_plugin_configure
  | spell_plugin_query_state
  | spell_plugin_handle_action
  | spell_plugin_handle_key
  deriving DecidableEq, Repr

/-- The record `mc_editor_plugin_t` of `lib/editor-plugin.h`; a slot is the function it
points to, or `none` for `NULL`. -/
structure mc_editor_plugin_t where
  api_version : Int
  name : String
  display_name : String
  flags : mc_ep_flags_t
  «open» : Option builtin_fn
  close : Option builtin_fn
  activate : Option builtin_fn
  configure : Option builtin_fn
  handle_action : Option builtin_fn
  query_state : Option builtin_fn
  handle_key : Option builtin_fn
  handle_event : Option builtin_fn
  on_file_open : Option builtin_fn
  on_file_close : Option builtin_fn
  deriving DecidableEq, Repr

def edit_builtin_mail_plugin : mc_editor_plugin_t where
  api_version := MC_EDITOR_PLUGIN_API_VERSION
  name := "mail"
  display_name := "&Mail..."
  flags := .MC_EPF_HAS_MENU
  «open» := some .editor_builtin_plugin_open
  close := some .editor_builtin_plugin_close
  activate := some .mail_plugin_activate
  configure := none
  handle_action := none
  query_state := none
  handle_key := none
  handle_event := none
  on_file_open := none
  on_file_close := none

def edit_builtin_scripts_plugin : mc_editor_plugin_t where
  api_version := MC_EDITOR_PLUGIN_API_VERSION
  name := "scripts"
  display_name := "Scripts"
  flags := .MC_EPF_NONE
  «open» := some .editor_builtin_plugin_open
  close := some .editor_builtin_plugin_close
  activate := none
  configure := none
  handle_action := some .scripts_plugin_handle_action
  query_state := none
  handle_key := none
  handle_event := none
  on_file_open := none
  on_file_close := none

def edit_builtin_etags_plugin : mc_editor_plugin_t where
  api_version := MC_EDITOR_PLUGIN_API_VERSION
  name := "etags"
  display_name := "Etags"
  flags := .MC_EPF_NONE
  «open» := some .editor_builtin_plugin_open
  close := some .editor_builtin_plugin_close
  activate := none
  configure := none
  handle_action := some .etags_plugin_handle_action
  query_state := none
  handle_key := none
  handle_event := none
  on_file_open := none
  on_file_close := none

def edit_builtin_spell_plugin : mc_editor_plugin_t where
  api_version := MC_EDITOR_PLUGIN_API_VERSION
  name := "spell"
  display_name := "Spell"
  flags := .MC_EPF_HAS_MENU
  «open» := some .spell_plugin_open
  close := some .spell_plugin_close
  activate := some .spell_plugin_activate
  configure := some .spell_plugin_configure
  handle_action := some .spell_plugin_handle_action
  query_state := some .spell_plugin_query_state
  handle_key := some .spell_plugin_handle_key
  handle_event := none
  on_file_open := none
  on_file_close := none

/-- The function `editor_plugins_register_all`; the registry `R` behind
`mc_editor_plugin_add` belongs to `lib/editor-plugin.c`, so `add` is a parameter and the
registry is passed along. The results of the four calls are discarded, as in the
source. -/
def editor_plugins_register_all {R : Type} (add : mc_editor_plugin_t → R → Bool × R)
    (s : PluginState) (registry : R) : PluginState × R :=
  if s.editor_builtin_plugins_registered then (s, registry)
  else
    let s := { s with editor_builtin_plugins_registered := true }
    let registry := (add edit_builtin_mail_plugin registry).2
    let registry := (add edit_builtin_scripts_plugin registry).2
    let registry := (add edit_builtin_etags_plugin registry).2
    let registry := (add edit_builtin_spell_plugin registry).2
    (s, registry)

/-! ## builtin-plugins.c: opening and closing a plugin instance; spell.c: `spell_check` -/

/-- The function `editor_builtin_plugin_open`: a fresh record for the instance
(`g_new0` does not return `NULL`); the `editor_dialog` argument is not used. -/
def editor_builtin_plugin_open (host : Option mc_editor_host_t) :
    Option editor_builtin_plugin_data_t :=
  some { host := host, spell_keymap := none }

/-- The function `editor_builtin_plugin_close`: it frees the keymap array and the
record of the instance and touches no variable. -/
def editor_builtin_plugin_close (_plugin_data : Option editor_builtin_plugin_data_t)
    (s : PluginState) : PluginState :=
  s

def spell_plugin_open (kb : Keybind) (w : SpellWorld) (kw : KeymapWorld)
    (host : Option mc_editor_host_t) (s : PluginState) :
    Option (Option editor_builtin_plugin_data_t × PluginState) := do
  let spell ← spell_runtime_init w s.spell
  let s := { s with spell := spell }
  match editor_builtin_plugin_open host with
  | some data => some (some { data with spell_keymap := spell_keymap_load kb kw }, s)
  | none => some (none, s)

def spell_plugin_close (plugin_data : Option editor_builtin_plugin_data_t)
    (s : PluginState) : Option PluginState := do
  let s := editor_builtin_plugin_close plugin_data s
  let spell ← spell_runtime_shutdown s.spell
  some { s with spell := spell }

/-- The function `aspell_check`; `aspell_speller_check` is the answer of libaspell for
the speller, the word and its size. -/
def aspell_check (aspell_speller_check : Nat → String → Int → Int) (word : Option String)
    (word_size : Int) (s : SpellState) : Option Bool :=
  match word, s.global_speller with
  | some wd, some g =>
    match g.speller with
    | some speller => do
      let _ ← s.mc .aspell_speller_check
      some (aspell_speller_check speller wd word_size == 1)
    | none => some ((0 : Int) == 1)
  | _, _ => some ((0 : Int) == 1)

def spell_check (aspell_speller_check : Nat → String → Int → Int) (word : Option String)
    (word_size : Int) (s : SpellState) : Option Bool :=
  if s.spell_backend = .SPELL_BACKEND_ASPELL then
    aspell_check aspell_speller_check word word_size s
  else some true

/-! ## spell.c: the list of languages offered for selection -/

/-- What `aspell_get_lang_list` gets from the dictionary enumeration of libaspell. -/
structure DictInfoWorld where
  /-- Whether `get_aspell_dict_info_list (cfg)` returns a list rather than `NULL`. -/
  get_aspell_dict_info_list : Bool
  /-- Result of `aspell_dict_info_list_elements (dlist)`: `none` for `NULL`, else the
  `name` fields (`none` for a `NULL` name) of the entries that
  `aspell_dict_info_enumeration_next` returns before it returns `NULL`. -/
  aspell_dict_info_list_elements : Option (List (Option String))

/-- The loop `while ((entry = mc_aspell_dict_info_enumeration_next (elem)) != NULL)` of
`aspell_get_lang_list`, over the entries still to come, with the table `seen`, the array
`lang_list` and the counter `i` (an `unsigned int`). -/
def aspell_get_lang_list_loop :
    List (Option String) → List String → List String → Nat → List String × List String × Nat
  | [], seen, lang_list, i => (seen, lang_list, i)
  | none :: rest, seen, lang_list, i => aspell_get_lang_list_loop rest seen lang_list i
  | some name :: rest, seen, lang_list, i =>
    if name ∈ seen then aspell_get_lang_list_loop rest seen lang_list i
    else
      aspell_get_lang_list_loop rest (seen ++ [name]) (lang_list ++ [name])
        ((i + 1) % 2 ^ 32)

/-- The statements after the label `cleanup` of `aspell_get_lang_list`, as far as they
leave the function: `if (temporary_cfg && cfg != NULL) mc_delete_aspell_config (cfg);`. -/
def aspell_get_lang_list_cleanup (temporary_cfg : Bool) (s : SpellState) :
    Option SpellState :=
  if temporary_cfg then do
    let _ ← s.mc .delete_aspell_config
    some (s.log .delete_aspell_config)
  else some s

/-- The function `aspell_get_lang_list`; the result is the count returned, the array
after the call, and the variables of spell.c. Its comment in the source asks for an
array that "must be cleared before use": the table `seen` starts empty whatever the
array holds. -/
def aspell_get_lang_list (w : SpellWorld) (d : DictInfoWorld)
    (lang_list : Option (List String)) (s : SpellState) :
    Option (Nat × Option (List String) × SpellState) :=
  match lang_list with
  | none => some (0, none, s)
  | some list =>
    let r := spell_available w s
    let s := r.2
    if !r.1 then some (0, some list, s)
    else do
      let own : Option AspellConfig :=
        match s.global_speller with
        | some g => g.config
        | none => none
      let c ← match own with
        | some _ => some (true, false, s)
        | none => do
          let _ ← s.mc .new_aspell_config
          some (w.new_aspell_config, true, s.log .new_aspell_config)
      let s := c.2.2
      if !c.1 then some (0, some list, s)
      else do
        let _ ← s.mc .get_aspell_dict_info_list
        if !d.get_aspell_dict_info_list then do
          let s ← aspell_get_lang_list_cleanup c.2.1 s
          some (0, some list, s)
        else do
          let _ ← s.mc .aspell_dict_info_list_elements
          match d.aspell_dict_info_list_elements with
          | none => do
            let s ← aspell_get_lang_list_cleanup c.2.1 s
            some (0, some list, s)
          | some entries => do
            let _ ← s.mc .aspell_dict_info_enumeration_next
            let l := aspell_get_lang_list_loop entries [] list 0
            let _ ← s.mc .delete_aspell_dict_info_enumeration
            let s ← aspell_get_lang_list_cleanup c.2.1 s
            some (l.2.2, some l.2.1, s)

/-- The function `spell_dialog_lang_list_show`: `listbox_run` is the answer of the list
box for the items shown, negative when nothing was chosen; an index past the end of the
array is a fault. -/
def spell_dialog_lang_list_show (listbox_run : List String → Int) (languages : List String) :
    Option (Option String) :=
  let res := listbox_run languages
  if res ≥ 0 then (languages.get? res.toNat).map some else some none

def edit_set_spell_lang (w : SpellWorld) (d : DictInfoWorld) (listbox_run : List String → Int)
    (s : SpellState) : Option SpellState := do
  let s := spell_config_load w s
  let lang_list : Option (List String) := some ["NONE"]
  let r ← aspell_get_lang_list w d lang_list s
  let list ← r.2.1
  let s := r.2.2
  if r.1 ≠ 0 ∨ list.length > 0 then do
    let lang ← spell_dialog_lang_list_show listbox_run list
    match lang with
    | some l => (spell_set_lang w (some l) s).map fun q => q.2
    | none => some s
  else some s

/-- The function `spell_pick_lang_button_cb`; `lang_input_found` tells whether the
button, its owner and the language input of the settings dialog were found, and the
first component of the result is the text assigned to that input, if any. -/
def spell_pick_lang_button_cb (w : SpellWorld) (d : DictInfoWorld)
    (listbox_run : List String → Int) (lang_input_found : Bool) (s : SpellState) :
    Option (Option String × SpellState) :=
  if !lang_input_found then some (none, s)
  else do
    let lang_list : Option (List String) := some ["NONE"]
    let r ← aspell_get_lang_list w d lang_list s
    let list ← r.2.1
    let lang ← spell_dialog_lang_list_show listbox_run list
    some (lang, r.2.2)

/-! ## The retained list as the specification words it -/

/-- The handle under which a directory entry is retained when it is reached with the
registry in state `registry`: the name has a native suffix, the file opens, the module
exports the entry symbol, the entry function returns a descriptor, and the registry
function accepts the descriptor; `none` when any of these fails. -/
def accepted_module {P R : Type} (w : LoaderWorld P) (add : P → R → Bool × R)
    (plugins_dir entry : String) (filename : String) (registry : R) : Option Nat :=
  if module_filename_has_native_suffix (some filename) then
    (w.g_module_open (g_build_filename [plugins_dir, filename])).bind fun module =>
      (w.g_module_symbol module entry).bind fun register_fn =>
        (w.register_fn register_fn).bind fun plugin =>
          if (add plugin registry).1 then some module else none
  else none

/-- Entry number `i` of the directory listing, judged by `accepted_module` against the
registry as the scan of the entries before it leaves it. -/
def retained_entry {P R : Type} (w : LoaderWorld P) (add : P → R → Bool × R)
    (plugins_dir entry : String) (entries : List String) (registry : R) (i : Nat) :
    Option Nat :=
  (entries[i]?).bind fun filename =>
    accepted_module w add plugins_dir entry filename
      (plugins_load_loop w add plugins_dir entry (entries.take i)
        { modules := [], registry := registry, trace := [] }).registry

/-- The number of `host.refresh` calls in a trace. -/
def refresh_calls (trace : List PluginEvent) : Nat :=
  trace.countP fun e =>
    match e with
    | .refresh _ => true
    | _ => false

/-- The bindings a value (the text after the equals sign) stands for under an action:
one binding, with the command of the action, for each non-empty trimmed piece between
semicolons whose key code is not 0, in the order written. -/
def key_bindings (w : KeymapWorld) (action : Int) (value : List Char) :
    List spell_keybind_t :=
  (((g_strsplit value (Char.ofNat 59)).map g_strstrip).filter fun k => !k.isEmpty).filterMap
    fun k =>
      if w.tty_keyname_to_keycode k = 0 then none
      else some { command := action, key := w.tty_keyname_to_keycode k }

/-- The encoding `aspell_set_lang` passes to the backend: that of the source codepage
when one is set, else the detected terminal encoding. -/
def spell_codeset (w : SpellWorld) : String :=
  if w.source_codepage > 0 then w.get_codepage_id w.source_codepage
  else w.str_detect_termencoding

/-- The number of live speller objects after one more backend call: a
`new_aspell_speller` that succeeds creates one, a `delete_aspell_speller` destroys
one. -/
def speller_step (w : SpellWorld) (live : Int) : SpellEvent → Int
  | .new_aspell_speller config =>
    if (w.new_aspell_speller config).isSome then live + 1 else live
  | .delete_aspell_speller _ => live - 1
  | _ => live

/-- The largest number of speller objects live at any point of a sequence of backend
calls that starts with `live` of them. -/
def live_spellers_peak (w : SpellWorld) : Int → List SpellEvent → Int
  | live, [] => live
  | live, e :: rest => max live (live_spellers_peak w (speller_step w live e) rest)

/-- The configuration `aspell_set_lang` builds from the current one: language, then
encoding replaced. -/
def set_lang_config (w : SpellWorld) (lang : String) (cfg : AspellConfig) : AspellConfig :=
  config_replace "encoding" (spell_codeset w) (config_replace "lang" lang cfg)

/-- The backend calls of `aspell_set_lang` after the configuration is saved, in order:
the two replacements, the deletion of the current speller when there is one, the
construction of the new speller, and the deletion of the error object when the
construction failed. -/
def set_lang_calls (w : SpellWorld) (lang : String) (g : spell_t) (cfg : AspellConfig) :
    List SpellEvent :=
  [SpellEvent.aspell_config_replace "lang" lang,
    SpellEvent.aspell_config_replace "encoding" (spell_codeset w)]
  ++ (match g.speller with
      | some old => [SpellEvent.delete_aspell_speller old]
      | none => [])
  ++ [SpellEvent.new_aspell_speller (set_lang_config w lang cfg)]
  ++ (match w.new_aspell_speller (set_lang_config w lang cfg) with
      | some _ => []
      | none => [SpellEvent.delete_aspell_can_have_error])

/-! ## The plugin registry, as the specification describes it -/

/-- Modelled from the spec: `mc_editor_plugin_add` of `lib/editor-plugin.c`, of which
only the declaration in `lib/editor-plugin.h` is among the sources. The registry is the
ordered collection of the descriptors added so far. The call returns false and does not
change the registry if `api_version` differs from the single supported constant or a
descriptor with the same name is already present; otherwise it appends the descriptor
and returns true. -/
def mc_editor_plugin_add (plugin : mc_editor_plugin_t) (registry : List mc_editor_plugin_t) :
    Bool × List mc_editor_plugin_t :=
  if plugin.api_version ≠ MC_EDITOR_PLUGIN_API_VERSION
      ∨ ∃ p ∈ registry, p.name = plugin.name then
    (false, registry)
  else (true, registry ++ [plugin])

/-- Modelled from the spec: `mc_editor_plugin_find_by_name` of `lib/editor-plugin.c`,
declared in `lib/editor-plugin.h`: the descriptor whose name matches exactly, if any. -/
def mc_editor_plugin_find_by_name (name : String) (registry : List mc_editor_plugin_t) :
    Option mc_editor_plugin_t :=
  registry.find? (fun p => p.name = name)

/-- Modelled from the spec: `mc_editor_plugin_list` of `lib/editor-plugin.c`, declared
in `lib/editor-plugin.h`: the descriptors in registration order. -/
def mc_editor_plugin_list (registry : List mc_editor_plugin_t) : List mc_editor_plugin_t :=
  registry

/-! ## Sequences of calls of the spell runtime -/

/-- A call of one of the four operations of spell.c that change the backend state, with
its argument. -/
inductive SpellCall
  | spell_runtime_init
  | spell_runtime_shutdown
  | spell_set_lang (lang : Option String)
  | spell_query_state (state : Option mc_ep_state_t)
  deriving DecidableEq, Repr

/-- The variables of spell.c after one call made in the world `w`; `none` when the call
passes through a `NULL` pointer. -/
def SpellCall.run (w : SpellWorld) (c : SpellCall) (s : SpellState) : Option SpellState :=
  match c with
  | .spell_runtime_init => Mc.spell_runtime_init w s
  | .spell_runtime_shutdown => Mc.spell_runtime_shutdown s
  | .spell_set_lang lang => (Mc.spell_set_lang w lang s).map fun r => r.2
  | .spell_query_state state => (Mc.spell_query_state w state s).map fun r => r.2.2

/-- The variables of spell.c after a sequence of calls, each made in its own world. -/
def spell_calls_run : List (SpellWorld × SpellCall) → SpellState → Option SpellState
  | [], s => some s
  | c :: rest, s => (c.2.run c.1 s).bind (spell_calls_run rest)

/-- The invariant of the backend selection: whenever `spell_backend` is ASPELL, both
`global_speller` and `spell_module` are not `NULL`. -/
def SpellState.backend_invariant (s : SpellState) : Bool :=
  s.spell_backend != .SPELL_BACKEND_ASPELL
    || (s.global_speller.isSome && s.spell_module.isSome)

/-- The invariant that the sequences of calls maintain, of which `backend_invariant` is
a part: the variables are consistent, the speller record exists only while the library is
loaded, and while the library is loaded every function pointer of the table is bound. -/
def SpellState.wellformed (s : SpellState) : Bool :=
  s.consistent
    && (s.global_speller.isNone || s.spell_module.isSome)
    && (s.spell_module.isNone || aspell_manifest.all (fun f => (s.mc f).isSome))

/-! ## The language list as the specification words it -/

/-- A list with its repeats removed, each element staying at its first occurrence. -/
def first_occurrences : List String → List String
  | [] => []
  | x :: xs => x :: (first_occurrences xs).filter (fun y => y ≠ x)

/-- The dictionary names the backend enumerates for `aspell_get_lang_list`: none when
libaspell is not available, when there is no configuration object to ask with, or when
the dictionary list or its enumeration is `NULL`. -/
def enumerated_names (w : SpellWorld) (d : DictInfoWorld) (s : SpellState) : List String :=
  if (spell_available w s).1
      && ((match s.global_speller with
            | some g => g.config.isSome
            | none => false) || w.new_aspell_config)
      && d.get_aspell_dict_info_list then
    match d.aspell_dict_info_list_elements with
    | some entries => entries.filterMap id
    | none => []
  else []

/-! ## Concrete worlds and states used to evaluate the definitions -/

/-- A world in which libaspell is installed, every symbol resolves, and a dictionary
exists for every language. -/
def SpellWorld.installed : SpellWorld where
  g_module_open := fun name => if name = "libaspell" then some 1 else none
  g_module_symbol := fun _ name => some (1000 + name.length)
  g_get_monotonic_time := 0
  mc_config_get_string := some "fr"
  source_codepage := 0
  get_codepage_id := fun _ => "UTF-8"
  str_detect_termencoding := "UTF-8"
  new_aspell_config := true
  new_aspell_speller := fun _ => some 5
  gettext := fun m => m
  g_try_malloc := true

/-- A world in which libaspell opens but lacks the last symbol of the manifest. -/
def SpellWorld.lacking_one : SpellWorld :=
  { SpellWorld.installed with
    g_module_symbol := fun _ name =>
      if name = "aspell_speller_save_all_word_lists" then none else some (1000 + name.length) }

/-- A world in which libaspell is not installed. -/
def SpellWorld.absent : SpellWorld :=
  { SpellWorld.installed with g_module_open := fun _ => none }

/-- The state after one `spell_query_state` from the initial state with libaspell
installed: a snapshot taken at time 0 is cached. -/
def SpellState.after_query : SpellState :=
  match spell_query_state SpellWorld.installed (some ⟨true, true, none⟩) SpellState.initial with
  | some r => r.2.2
  | none => SpellState.initial

/-- The world 249999 microseconds later, libaspell having been removed. -/
def SpellWorld.absent_later : SpellWorld :=
  { SpellWorld.absent with g_get_monotonic_time := 249999 }

/-- The world 250000 microseconds later, libaspell having been removed. -/
def SpellWorld.absent_expired : SpellWorld :=
  { SpellWorld.absent with g_get_monotonic_time := 250000 }

/-- The state after `spell_runtime_init` from the initial state with libaspell installed
and "fr" configured: the aspell backend is active. -/
def SpellState.ready : SpellState :=
  match spell_runtime_init SpellWorld.installed SpellState.initial with
  | some s => s
  | none => SpellState.initial

/-- The state after `spell_runtime_init` and one `spell_query_state`, with libaspell
installed and "fr" configured: the backend is active and a snapshot for "fr", taken at
time 0, is cached. -/
def SpellState.ready_cached : SpellState :=
  match spell_query_state SpellWorld.installed (some ⟨true, true, none⟩) SpellState.ready with
  | some r => r.2.2
  | none => SpellState.initial

/-- A plugin directory with eight entries: a text file, two good modules, a file that
does not open, a module without the entry symbol, one whose entry function returns
`NULL`, one whose descriptor repeats the name of an earlier one, and a versioned library
name. The same entries are found in the editor and in the panel plugin directory. -/
def LoaderWorld.sample : LoaderWorld String where
  g_dir_open := fun path =>
    if path = "/usr/lib/mc/editor-plugins" ∨ path = "/usr/lib/mc/panel-plugins" then
      some ["README", "a.so", "bad.so", "nosym.dll", "null.dylib", "dup.bundle",
        "libfoo.so.1", "b.so"]
    else none
  g_module_open := fun path =>
    if g_str_has_suffix path "/a.so" then some 1
    else if g_str_has_suffix path "/nosym.dll" then some 3
    else if g_str_has_suffix path "/null.dylib" then some 4
    else if g_str_has_suffix path "/dup.bundle" then some 5
    else if g_str_has_suffix path "/b.so" then some 6
    else if g_str_has_suffix path "/README" then some 7
    else if g_str_has_suffix path "/libfoo.so.1" then some 8
    else none
  g_module_symbol := fun m _ => if m = 3 then none else some (100 + m)
  register_fn := fun a =>
    if a = 104 then none else if a = 106 then some "beta" else some "alpha"

/-- A registry of descriptors identified by their name, which rejects a name it already
holds; it stands for `mc_panel_plugin_add` and `mc_editor_plugin_add` when the loaders
are evaluated. -/
def sample_plugin_add (plugin : String) (registry : List String) : Bool × List String :=
  if plugin ∈ registry then (false, registry) else (true, registry ++ [plugin])

/-- The loader variables at program start, with empty registries. -/
def LoaderState.initial : LoaderState (List String) (List String) where
  panel_plugin_modules := none
  editor_plugins_loaded := false
  editor_plugin_modules := none
  panel_registry := []
  editor_registry := []
  trace := []

/-- The loader variables after one `mc_panel_plugins_load` in the sample world. -/
def LoaderState.panel_loaded_once : LoaderState (List String) (List String) :=
  mc_panel_plugins_load LoaderWorld.sample "/usr/lib/mc/panel-plugins"
    "mc_panel_plugin_register" sample_plugin_add LoaderState.initial

/-- The loader variables after two calls of `mc_panel_plugins_load` in the sample world. -/
def LoaderState.panel_loaded_twice : LoaderState (List String) (List String) :=
  mc_panel_plugins_load LoaderWorld.sample "/usr/lib/mc/panel-plugins"
    "mc_panel_plugin_register" sample_plugin_add LoaderState.panel_loaded_once

/-- Sample command codes: distinct small integers, the macro commands starting at
10000. -/
def Keybind.sample : Keybind where
  CK_IgnoreKey := 0
  CK_Find := 101
  CK_Save := 102
  CK_SpellCheck := 201
  CK_SpellCheckCurrentWord := 202
  CK_SpellCheckSelectLang := 203
  CK_PipeBlock := fun i => 10000 + i

/-- A plugin instance opened with a host that provides the refresh callback 7, with a
keymap of two bindings that both map key 20. -/
def editor_builtin_plugin_data_t.sample : editor_builtin_plugin_data_t where
  host := some { refresh := some 7, message := none, host_data := none }
  spell_keymap := some [{ command := 201, key := 20 }, { command := 203, key := 20 }]

/-- The plugin layer at program start. -/
def PluginState.initial : PluginState where
  editor_builtin_plugins_registered := false
  spell := SpellState.initial
  trace := []

/-- Spell operations that leave the variables of spell.c as they are. -/
def SpellUi.idle : SpellUi where
  edit_spellcheck_file := fun _ s => s
  edit_suggest_current_word := fun _ s => s
  edit_set_spell_lang := fun s => s
  edit_spell_plugin_settings := fun s => s

/-- Three layered keymap files: the system file binds ctrl-p and alt-p to SpellCheck and
f9 to SpellCheckSelectLang, there is no site file, and the user file binds ctrl-p to
SpellCheckCurrentWord. -/
def KeymapWorld.sample : KeymapWorld where
  share_data_dir := some "/usr/share/mc"
  sysconfig_dir := some "/etc/mc"
  mc_config_get_full_path := fun f => some ("/home/u/.config/mc/" ++ f)
  exist_file := fun f =>
    f = "/usr/share/mc/spell.keymap" || f = "/home/u/.config/mc/spell.keymap"
  g_file_get_contents := fun f =>
    if f = "/usr/share/mc/spell.keymap" then
      some ("# spell keymap\n[keymap]\n  SpellCheck = ctrl-p ; alt-p ;; bogus \n"
        ++ "Unknown=f1\nSpellCheckSelectLang=f9\n").toList
    else if f = "/home/u/.config/mc/spell.keymap" then
      some "SpellCheckCurrentWord=ctrl-p\nSpellCheck\n=f1\nSpellCheck=\n".toList
    else none
  tty_keyname_to_keycode := fun k =>
    if k = "ctrl-p".toList then 16
    else if k = "alt-p".toList then 8304
    else if k = "f9".toList then 1009
    else if k = "f1".toList then 1001
    else 0

/-- A world in which libaspell is installed but has no dictionary for the language
"xx" nor for "NONE": constructing a speller for either fails. -/
def SpellWorld.no_dictionary : SpellWorld :=
  { SpellWorld.installed with
    new_aspell_speller := fun cfg =>
      if ("lang", "xx") ∈ cfg ∨ ("lang", "NONE") ∈ cfg then none else some 6 }

/-- A dictionary enumeration that yields "en", "de", an entry without name, "en" again
and "fr". -/
def DictInfoWorld.sample : DictInfoWorld where
  get_aspell_dict_info_list := true
  aspell_dict_info_list_elements := some [some "en", some "de", none, some "en", some "fr"]

/-- A dictionary enumeration with a dictionary that is itself called "NONE". -/
def DictInfoWorld.with_NONE : DictInfoWorld where
  get_aspell_dict_info_list := true
  aspell_dict_info_list_elements := some [some "en", some "NONE", some "en"]

/-! # Theorems -/

/-! ## Backend binding (`spell_available`) -/

theorem ASPELL_FUNCTION_AVAILABLE_module (w : SpellWorld) (f : AspellFn) (s : SpellState) :
    (ASPELL_FUNCTION_AVAILABLE w f s).2.spell_module = s.spell_module := by
  unfold ASPELL_FUNCTION_AVAILABLE
  cases h : s.spell_module <;> simp [h]

theorem aspell_functions_available_module (w : SpellWorld) (fs : List AspellFn)
    (s : SpellState) :
    (aspell_functions_available w fs s).2.spell_module = s.spell_module := by
  induction fs generalizing s with
  | nil => rfl
  | cons f fs ih =>
    simp only [aspell_functions_available]
    split
    · rw [ih, ASPELL_FUNCTION_AVAILABLE_module]
    · exact ASPELL_FUNCTION_AVAILABLE_module w f s

theorem aspell_functions_available_iff (w : SpellWorld) (fs : List AspellFn)
    (s : SpellState) (h : Nat) (hs : s.spell_module = some h) :
    (aspell_functions_available w fs s).1 = true ↔
      ∀ f ∈ fs, (w.g_module_symbol h f.symbol).isSome = true := by
  induction fs generalizing s with
  | nil => simp [aspell_functions_available]
  | cons f fs ih =>
    have hm : (ASPELL_FUNCTION_AVAILABLE w f s).2.spell_module = some h := by
      rw [ASPELL_FUNCTION_AVAILABLE_module, hs]
    have h1 : (ASPELL_FUNCTION_AVAILABLE w f s).1 = (w.g_module_symbol h f.symbol).isSome := by
      simp [ASPELL_FUNCTION_AVAILABLE, hs]
    simp only [aspell_functions_available, List.forall_mem_cons]
    split
    · rename_i hc
      rw [ih _ hm]
      rw [h1] at hc
      simp [hc]
    · rename_i hc
      rw [h1] at hc
      simp [hc]

/-- The lookups of a chain only append `g_module_symbol` events on the bound module. -/
theorem aspell_functions_available_trace (w : SpellWorld) (fs : List AspellFn)
    (s : SpellState) (h : Nat) (hs : s.spell_module = some h) :
    ∃ mid, (aspell_functions_available w fs s).2.trace = s.trace ++ mid ∧
      ∀ e ∈ mid, ∃ sym, e = SpellEvent.g_module_symbol h sym := by
  induction fs generalizing s with
  | nil => exact ⟨[], by simp [aspell_functions_available]⟩
  | cons f fs ih =>
    have hm : (ASPELL_FUNCTION_AVAILABLE w f s).2.spell_module = some h := by
      rw [ASPELL_FUNCTION_AVAILABLE_module, hs]
    have ht : (ASPELL_FUNCTION_AVAILABLE w f s).2.trace
        = s.trace ++ [SpellEvent.g_module_symbol h f.symbol] := by
      simp [ASPELL_FUNCTION_AVAILABLE, hs]
    simp only [aspell_functions_available]
    split
    · obtain ⟨mid, e1, e2⟩ := ih _ hm
      refine ⟨SpellEvent.g_module_symbol h f.symbol :: mid, ?_, ?_⟩
      · rw [e1, ht]; simp
      · intro e he
        rcases List.mem_cons.1 he with rfl | he
        · exact ⟨_, rfl⟩
        · exact e2 e he
    · exact ⟨[SpellEvent.g_module_symbol h f.symbol], ht, by simp⟩

theorem aspell_manifest_complete (f : AspellFn) : f ∈ aspell_manifest := by
  cases f <;> decide

/-- C1. Starting with no library bound, `spell_available` returns TRUE exactly when
libaspell opens and each of the 25 required symbols resolves, and then the opened handle
is kept in `spell_module`; when it returns FALSE, `spell_module` is `NULL` afterwards and
an opened library has been closed again: the calls made are the open, symbol lookups on
the opened handle, and the close of that handle (only the failed open when the library
does not open). -/
theorem spell_available_all_or_nothing (w : SpellWorld) (s : SpellState)
    (h0 : s.spell_module = none) :
    (aspell_manifest.length = 25 ∧ aspell_manifest.Nodup ∧ ∀ f : AspellFn, f ∈ aspell_manifest) ∧
    ((spell_available w s).1 = true ↔
      ∃ h, w.g_module_open "libaspell" = some h ∧
        ∀ f ∈ aspell_manifest, (w.g_module_symbol h f.symbol).isSome = true) ∧
    ((spell_available w s).1 = true →
      (spell_available w s).2.spell_module = w.g_module_open "libaspell") ∧
    ((spell_available w s).1 = false →
      (spell_available w s).2.spell_module = none ∧
      (w.g_module_open "libaspell" = none →
        (spell_available w s).2.trace = s.trace ++ [SpellEvent.g_module_open "libaspell"]) ∧
      (∀ h, w.g_module_open "libaspell" = some h →
        ∃ mid, (spell_available w s).2.trace =
            s.trace ++ [SpellEvent.g_module_open "libaspell"] ++ mid
              ++ [SpellEvent.g_module_close h] ∧
          ∀ e ∈ mid, ∃ sym, e = SpellEvent.g_module_symbol h sym)) := by
  refine ⟨⟨by decide, by decide, aspell_manifest_complete⟩, ?_⟩
  cases ho : w.g_module_open "libaspell" with
  | none => simp [spell_available, h0, ho]
  | some h =>
    let s1 : SpellState :=
      { s with spell_module := some h,
               trace := s.trace ++ [SpellEvent.g_module_open "libaspell"] }
    have hs1 : s1.spell_module = some h := rfl
    have hiff := aspell_functions_available_iff w aspell_manifest s1 h hs1
    have hmod := aspell_functions_available_module w aspell_manifest s1
    obtain ⟨mid, ht, hmid⟩ := aspell_functions_available_trace w aspell_manifest s1 h hs1
    have hsa : spell_available w s =
        if (aspell_functions_available w aspell_manifest s1).1 then
          (true, (aspell_functions_available w aspell_manifest s1).2)
        else (false, { (aspell_functions_available w aspell_manifest s1).2 with
                spell_module := none,
                trace := (aspell_functions_available w aspell_manifest s1).2.trace
                  ++ [SpellEvent.g_module_close h] }) := by
      simp [spell_available, h0, ho, s1]
    rw [hsa]
    by_cases hb : (aspell_functions_available w aspell_manifest s1).1 = true
    · simp only [hb, if_true]
      refine ⟨?_, ?_, ?_⟩
      · simpa using hiff.1 hb
      · intro _; rw [hmod]
      · intro hc; cases hc
    · simp only [hb]
      refine ⟨?_, ?_, ?_⟩
      · simp only [Bool.false_eq_true, false_iff, reduceCtorEq, if_false]
        rintro ⟨h', hh', hall⟩
        cases hh'
        exact hb (hiff.2 hall)
      · intro hc; simp at hc
      · intro _
        refine ⟨rfl, by simp, ?_⟩
        intro h' hh'
        cases hh'
        exact ⟨mid, by simp [ht, s1], hmid⟩

/-- C1, evaluated: from the initial state, with libaspell installed, `spell_available`
returns TRUE. -/
theorem spell_available_all_or_nothing_witness :
    SpellState.initial.spell_module = none ∧
    (spell_available SpellWorld.installed SpellState.initial).1 = true :=
  ⟨rfl, ((spell_available_all_or_nothing SpellWorld.installed SpellState.initial rfl).2.1).2
    ⟨1, by decide, by decide⟩⟩

theorem aspell_functions_available_fail (w : SpellWorld) (h : Nat) (f : AspellFn)
    (post : List AspellFn) (hf : w.g_module_symbol h f.symbol = none) :
    ∀ (pre : List AspellFn) (s : SpellState), s.spell_module = some h →
      (∀ g ∈ pre, (w.g_module_symbol h g.symbol).isSome = true) →
      (aspell_functions_available w (pre ++ f :: post) s).1 = false ∧
      ∀ g, (aspell_functions_available w (pre ++ f :: post) s).2.mc g =
        if g ∈ pre then w.g_module_symbol h g.symbol
        else if g = f then none else s.mc g := by
  intro pre
  induction pre with
  | nil =>
    intro s hs _
    simp only [List.nil_append, aspell_functions_available, ASPELL_FUNCTION_AVAILABLE, hs, hf,
      Option.isSome_none, Bool.false_eq_true, if_false, List.not_mem_nil, true_and]
    intro g
    by_cases hg : g = f
    · subst hg; simp
    · simp [Function.update, hg]
  | cons p pre ih =>
    intro s hs hpre
    have hp : (w.g_module_symbol h p.symbol).isSome = true := hpre p (List.mem_cons_self _ _)
    have hm : (ASPELL_FUNCTION_AVAILABLE w p s).2.spell_module = some h := by
      rw [ASPELL_FUNCTION_AVAILABLE_module, hs]
    have h1 : (ASPELL_FUNCTION_AVAILABLE w p s).1 = true := by
      simp [ASPELL_FUNCTION_AVAILABLE, hs, hp]
    have h2 : (ASPELL_FUNCTION_AVAILABLE w p s).2.mc
        = Function.update s.mc p (w.g_module_symbol h p.symbol) := by
      simp [ASPELL_FUNCTION_AVAILABLE, hs]
    obtain ⟨r1, r2⟩ := ih _ hm (fun g hg => hpre g (List.mem_cons_of_mem _ hg))
    have hstep : aspell_functions_available w (p :: pre ++ f :: post) s
        = aspell_functions_available w (pre ++ f :: post) (ASPELL_FUNCTION_AVAILABLE w p s).2 := by
      show aspell_functions_available w (p :: (pre ++ f :: post)) s = _
      simp only [aspell_functions_available, h1, if_true]
    rw [hstep]
    refine ⟨r1, fun g => ?_⟩
    rw [r2 g, h2]
    by_cases hgp : g ∈ pre
    · simp [hgp]
    · by_cases hgf : g = f
      · subst hgf
        by_cases hgq : g = p
        · subst hgq; simp [hgp, hf]
        · simp [hgp, hgq]
      · by_cases hgq : g = p
        · subst hgq; simp [hgp, hgf]
        · simp [hgp, hgf, hgq, Function.update]

/-- C2, as stated, fails: with a libaspell that lacks only the last symbol of the
manifest, `spell_available` returns FALSE from the initial state, yet the function
pointers are not all `NULL` afterwards: `mc_new_aspell_config` holds the address resolved
from the library that was closed, as do 24 pointers in all. -/
theorem spell_available_failure_keeps_pointers :
    SpellState.initial.spell_module = none ∧
    SpellWorld.lacking_one.g_module_open "libaspell" = some 1 ∧
    (∀ g ∈ aspell_manifest.take 24,
      (SpellWorld.lacking_one.g_module_symbol 1 g.symbol).isSome = true) ∧
    SpellWorld.lacking_one.g_module_symbol 1
      AspellFn.aspell_speller_save_all_word_lists.symbol = none ∧
    (spell_available SpellWorld.lacking_one SpellState.initial).1 = false ∧
    ¬ (∀ g : AspellFn,
        (spell_available SpellWorld.lacking_one SpellState.initial).2.mc g = none) ∧
    (spell_available SpellWorld.lacking_one SpellState.initial).2.mc .new_aspell_config
      = SpellWorld.lacking_one.g_module_symbol 1 AspellFn.new_aspell_config.symbol ∧
    (spell_available SpellWorld.lacking_one SpellState.initial).2.mc .new_aspell_config
      = some 1017 ∧
    (aspell_manifest.filter (fun g =>
      ((spell_available SpellWorld.lacking_one SpellState.initial).2.mc g).isSome)).length
      = 24 := by
  refine ⟨rfl, by decide, by decide, by decide, by decide, ?_, by decide, by decide, by decide⟩
  intro hall
  have h1 := hall .new_aspell_config
  revert h1
  decide

/-- C2, amended. When `spell_available`, started with no library bound, opens libaspell
and the symbol `f` of the manifest is the first that does not resolve, it returns FALSE
and leaves `spell_module` `NULL`; the pointer of `f` is `NULL`, the pointers of the
symbols after `f` keep the values they had before the call, and the pointers of the
symbols before `f` hold the addresses resolved from the library that was closed. -/
theorem spell_available_failure_pointers (w : SpellWorld) (s : SpellState) (h : Nat)
    (pre post : List AspellFn) (f : AspellFn)
    (h0 : s.spell_module = none) (ho : w.g_module_open "libaspell" = some h)
    (hm : aspell_manifest = pre ++ f :: post)
    (hpre : ∀ g ∈ pre, (w.g_module_symbol h g.symbol).isSome = true)
    (hf : w.g_module_symbol h f.symbol = none) :
    (spell_available w s).1 = false ∧
    (spell_available w s).2.spell_module = none ∧
    (spell_available w s).2.mc f = none ∧
    (∀ g ∈ pre, (spell_available w s).2.mc g = w.g_module_symbol h g.symbol ∧
      ((spell_available w s).2.mc g).isSome = true) ∧
    (∀ g ∈ post, (spell_available w s).2.mc g = s.mc g) := by
  have hnd : (pre ++ f :: post).Nodup := hm ▸ (by decide : aspell_manifest.Nodup)
  have hfpre : f ∉ pre := fun hmem =>
    (List.nodup_append.1 hnd).2.2 hmem (List.mem_cons_self _ _)
  let s1 : SpellState :=
    { s with spell_module := some h,
             trace := s.trace ++ [SpellEvent.g_module_open "libaspell"] }
  obtain ⟨r1, r2⟩ := aspell_functions_available_fail w h f post hf pre s1 rfl hpre
  have hsa : spell_available w s =
      (false, { (aspell_functions_available w aspell_manifest s1).2 with
              spell_module := none,
              trace := (aspell_functions_available w aspell_manifest s1).2.trace
                ++ [SpellEvent.g_module_close h] }) := by
    simp [spell_available, h0, ho, s1, hm, r1]
  rw [hsa, hm]
  refine ⟨rfl, rfl, ?_, ?_, ?_⟩
  · simp [r2 f, hfpre]
  · intro g hg
    have : (aspell_functions_available w (pre ++ f :: post) s1).2.mc g
        = w.g_module_symbol h g.symbol := by simp [r2 g, hg]
    exact ⟨this, by simp only [this]; exact hpre g hg⟩
  · intro g hg
    have hgpre : g ∉ pre := fun hmem =>
      (List.nodup_append.1 hnd).2.2 hmem (List.mem_cons_of_mem _ hg)
    have hgf : g ≠ f := by
      rintro rfl
      exact (List.nodup_cons.1 (List.nodup_append.1 hnd).2.1).1 hg
    simp [r2 g, hgpre, hgf, s1]

/-- C2, amended, evaluated on a libaspell that lacks only the last symbol. -/
theorem spell_available_failure_pointers_witness :
    (spell_available SpellWorld.lacking_one SpellState.initial).1 = false ∧
    (spell_available SpellWorld.lacking_one SpellState.initial).2.spell_module = none ∧
    (spell_available SpellWorld.lacking_one SpellState.initial).2.mc
      .aspell_speller_save_all_word_lists = none :=
  have h := spell_available_failure_pointers SpellWorld.lacking_one SpellState.initial 1
    (aspell_manifest.take 24) [] .aspell_speller_save_all_word_lists rfl (by decide)
    (by decide) (by decide) (by decide)
  ⟨h.1, h.2.1, h.2.2.1⟩

/-! ## State cache (`spell_query_state`) -/

theorem SPELL_STATE_CACHE_TTL_US_eq : SPELL_STATE_CACHE_TTL_US = 250000 := by decide

theorem spell_config_load_cache (w : SpellWorld) (s : SpellState) :
    (spell_config_load w s).spell_state_cache_valid = s.spell_state_cache_valid ∧
    (spell_config_load w s).spell_state_cache_ts_us = s.spell_state_cache_ts_us ∧
    (spell_config_load w s).spell_state_cache_enabled = s.spell_state_cache_enabled ∧
    (spell_config_load w s).spell_state_cache_available = s.spell_state_cache_available ∧
    (spell_config_load w s).spell_state_cache_reason = s.spell_state_cache_reason ∧
    (spell_config_load w s).trace = s.trace ∧
    (spell_config_load w s).spell_module = s.spell_module ∧
    (spell_config_load w s).mc = s.mc := by
  unfold spell_config_load
  split <;> simp

/-- C3. With a valid cached snapshot whose age is below 250000 microseconds,
`spell_query_state` returns MC_EPR_OK with exactly the cached enabled, available and
reason values, whatever the world is at the time of the call (libaspell present or not);
the state after the call is the state after `spell_config_load`, so nothing is appended
to the trace (no `g_module_open`, no symbol lookup: the backend is not probed), the
cached snapshot including its timestamp is unchanged, and when the configuration was
already loaded the whole state is unchanged. -/
theorem spell_query_state_within_ttl (w : SpellWorld) (s : SpellState) (st : mc_ep_state_t)
    (hv : s.spell_state_cache_valid = true)
    (ht : w.g_get_monotonic_time - s.spell_state_cache_ts_us < 250000) :
    spell_query_state w (some st) s =
      some (.MC_EPR_OK,
        some { enabled := s.spell_state_cache_enabled
               available := s.spell_state_cache_available
               reason := reason_or_null s.spell_state_cache_reason },
        spell_config_load w s) ∧
    (spell_config_load w s).trace = s.trace ∧
    (spell_config_load w s).spell_module = s.spell_module ∧
    (spell_config_load w s).spell_state_cache_valid = true ∧
    (spell_config_load w s).spell_state_cache_ts_us = s.spell_state_cache_ts_us ∧
    (spell_config_load w s).spell_state_cache_enabled = s.spell_state_cache_enabled ∧
    (spell_config_load w s).spell_state_cache_available = s.spell_state_cache_available ∧
    (spell_config_load w s).spell_state_cache_reason = s.spell_state_cache_reason ∧
    (s.spell_config_loaded = true → spell_config_load w s = s) := by
  obtain ⟨c1, c2, c3, c4, c5, c6, c7, _⟩ := spell_config_load_cache w s
  refine ⟨?_, c6, c7, c1.trans hv, c2, c3, c4, c5, ?_⟩
  · have ht2 : w.g_get_monotonic_time - s.spell_state_cache_ts_us < SPELL_STATE_CACHE_TTL_US := by
      rw [SPELL_STATE_CACHE_TTL_US_eq]; exact ht
    simp [spell_query_state, c1, c2, c3, c4, c5, hv, ht2]
  · intro hl
    simp [spell_config_load, hl]

/-- C3, evaluated: a snapshot taken at time 0 with libaspell installed is returned
unchanged 249999 microseconds later although libaspell is no longer there. -/
theorem spell_query_state_within_ttl_witness :
    SpellState.after_query.spell_state_cache_valid = true ∧
    SpellWorld.absent_later.g_get_monotonic_time
      - SpellState.after_query.spell_state_cache_ts_us < 250000 ∧
    spell_query_state SpellWorld.absent_later (some ⟨false, false, none⟩) SpellState.after_query
      = some (.MC_EPR_OK, some { enabled := true, available := true, reason := none },
          spell_config_load SpellWorld.absent_later SpellState.after_query) :=
  ⟨by decide, by decide,
    (spell_query_state_within_ttl SpellWorld.absent_later SpellState.after_query
      ⟨false, false, none⟩ (by decide) (by decide)).1⟩

theorem ASPELL_FUNCTION_AVAILABLE_frame (w : SpellWorld) (f : AspellFn) (s : SpellState) :
    (ASPELL_FUNCTION_AVAILABLE w f s).2 =
      { s with mc := (ASPELL_FUNCTION_AVAILABLE w f s).2.mc,
               trace := (ASPELL_FUNCTION_AVAILABLE w f s).2.trace } := by
  unfold ASPELL_FUNCTION_AVAILABLE
  split <;> rfl

theorem aspell_functions_available_frame (w : SpellWorld) (fs : List AspellFn)
    (s : SpellState) :
    (aspell_functions_available w fs s).2 =
      { s with mc := (aspell_functions_available w fs s).2.mc,
               trace := (aspell_functions_available w fs s).2.trace } := by
  induction fs generalizing s with
  | nil => rfl
  | cons f fs ih =>
    simp only [aspell_functions_available]
    split
    · rw [ih, ASPELL_FUNCTION_AVAILABLE_frame]
    · exact ASPELL_FUNCTION_AVAILABLE_frame w f s

/-- The binder touches only the module handle, the pointer table and the trace. -/
theorem spell_available_frame (w : SpellWorld) (s : SpellState) :
    (spell_available w s).2 =
      { s with spell_module := (spell_available w s).2.spell_module,
               mc := (spell_available w s).2.mc,
               trace := (spell_available w s).2.trace } := by
  unfold spell_available
  split
  · rfl
  · cases ho : w.g_module_open "libaspell" with
    | none => rfl
    | some h =>
      simp only []
      split
      · rw [aspell_functions_available_frame]
      · rw [aspell_functions_available_frame]

/-- Recomputation step of `spell_query_state`: without a valid snapshot younger than the
TTL, and `l` being the configured language, the snapshot is rebuilt from the world at the
time of the call. -/
theorem query_state_rebuilds_snapshot (w : SpellWorld) (s : SpellState) (st : mc_ep_state_t)
    (l : String)
    (hc : s.spell_state_cache_valid = false ∨
      250000 ≤ w.g_get_monotonic_time - s.spell_state_cache_ts_us)
    (hl : (spell_config_load w s).plugin_spell_language = some l) :
    ∃ s2 : SpellState,
      spell_query_state w (some st) s =
        some (.MC_EPR_OK,
          some { enabled := l != "NONE"
                 available := (l != "NONE") && (spell_available w (spell_config_load w s)).1
                 reason := reason_or_null s2.spell_state_cache_reason }, s2) ∧
      s2.spell_state_cache_valid = true ∧
      s2.spell_state_cache_ts_us = w.g_get_monotonic_time ∧
      s2.spell_state_cache_enabled = (l != "NONE") ∧
      s2.spell_state_cache_available
        = ((l != "NONE") && (spell_available w (spell_config_load w s)).1) ∧
      s2.plugin_spell_language = some l := by
  obtain ⟨c1, c2, _⟩ := spell_config_load_cache w s
  have hcond : ((spell_config_load w s).spell_state_cache_valid
      && decide (w.g_get_monotonic_time - (spell_config_load w s).spell_state_cache_ts_us
          < SPELL_STATE_CACHE_TTL_US)) = false := by
    rw [c1, c2, SPELL_STATE_CACHE_TTL_US_eq]
    rcases hc with hc | hc
    · simp [hc]
    · simp [not_lt.2 hc]
  have hmod : (spell_available w (spell_config_load w s)).2.plugin_spell_language = some l := by
    rw [spell_available_frame]; exact hl
  by_cases hn : l = "NONE"
  · subst hn
    simp [spell_query_state, hcond, hl]
    refine ⟨_, ⟨?_, rfl⟩, ?_⟩
    · rfl
    · simp
  · have hne : (l != "NONE") = true := by simpa using hn
    simp [spell_query_state, hcond, hl, spell_backend_selected_available, hn, hne]
    refine ⟨_, ⟨?_, rfl⟩, ?_⟩
    · rfl
    · simp [hmod]

/-- C4. Without a valid cached snapshot, or with one whose age is 250000 microseconds or
more, `spell_query_state` called with a non-null state and configured language `l`
returns MC_EPR_OK with enabled = (`l` is not "NONE") and
available = enabled AND `spell_available ()` evaluated in the world of the call, and
stores exactly these values with the current monotonic time as the new valid snapshot. -/
theorem spell_query_state_recomputes (w : SpellWorld) (s : SpellState) (st : mc_ep_state_t)
    (l : String)
    (hc : s.spell_state_cache_valid = false ∨
      250000 ≤ w.g_get_monotonic_time - s.spell_state_cache_ts_us)
    (hl : (spell_config_load w s).plugin_spell_language = some l) :
    ∃ s2 : SpellState,
      spell_query_state w (some st) s =
        some (.MC_EPR_OK,
          some { enabled := l != "NONE"
                 available := (l != "NONE") && (spell_available w (spell_config_load w s)).1
                 reason := reason_or_null s2.spell_state_cache_reason }, s2) ∧
      s2.spell_state_cache_valid = true ∧
      s2.spell_state_cache_ts_us = w.g_get_monotonic_time ∧
      s2.spell_state_cache_enabled = (l != "NONE") ∧
      s2.spell_state_cache_available
        = ((l != "NONE") && (spell_available w (spell_config_load w s)).1) :=
  let ⟨s2, h1, h2, h3, h4, h5, _⟩ := query_state_rebuilds_snapshot w s st l hc hl
  ⟨s2, h1, h2, h3, h4, h5⟩

/-- C4, evaluated: a snapshot taken at time 0 is replaced, by a query at time 250000, with
one computed at that time. -/
theorem spell_query_state_recomputes_witness :
    (SpellState.after_query.spell_state_cache_valid = false ∨
      250000 ≤ SpellWorld.absent_expired.g_get_monotonic_time
        - SpellState.after_query.spell_state_cache_ts_us) ∧
    (spell_config_load SpellWorld.absent_expired SpellState.after_query).plugin_spell_language
      = some "fr" ∧
    ∃ s2 : SpellState,
      spell_query_state SpellWorld.absent_expired (some ⟨false, false, none⟩)
          SpellState.after_query =
        some (.MC_EPR_OK,
          some { enabled := "fr" != "NONE"
                 available := ("fr" != "NONE") &&
                   (spell_available SpellWorld.absent_expired
                     (spell_config_load SpellWorld.absent_expired SpellState.after_query)).1
                 reason := reason_or_null s2.spell_state_cache_reason }, s2) ∧
      s2.spell_state_cache_valid = true ∧
      s2.spell_state_cache_ts_us = SpellWorld.absent_expired.g_get_monotonic_time ∧
      s2.spell_state_cache_enabled = ("fr" != "NONE") ∧
      s2.spell_state_cache_available
        = (("fr" != "NONE") && (spell_available SpellWorld.absent_expired
            (spell_config_load SpellWorld.absent_expired SpellState.after_query)).1) :=
  ⟨Or.inr (by decide), by decide,
    spell_query_state_recomputes SpellWorld.absent_expired SpellState.after_query
      ⟨false, false, none⟩ "fr" (Or.inr (by decide)) (by decide)⟩

/-! ## Language switch and shutdown -/

theorem spell_config_save_loaded (s : SpellState) (hl : s.spell_config_loaded = true) :
    (spell_config_save s).spell_state_cache_valid = false ∧
    (spell_config_save s).spell_config_loaded = true ∧
    (spell_config_save s).plugin_spell_language = s.plugin_spell_language ∧
    (spell_config_save s).spell_backend = s.spell_backend ∧
    (spell_config_save s).global_speller = s.global_speller ∧
    (spell_config_save s).global_hunspell = s.global_hunspell ∧
    (spell_config_save s).mc = s.mc := by
  unfold spell_config_save spell_check_cache_reset spell_state_cache_invalidate SpellState.log
  simp only [hl]
  cases s.spell_check_cache <;> simp

theorem consistent_iff (s : SpellState) :
    s.consistent = true ↔
      (s.spell_config_loaded = true → s.plugin_spell_language.isSome = true) ∧
      (s.spell_backend = .SPELL_BACKEND_ASPELL → s.global_speller.isSome = true) ∧
      (∀ g, s.global_speller = some g →
        g.config.isSome = true ∧ ∀ f, (s.mc f).isSome = true) ∧
      s.global_hunspell = none := by
  unfold SpellState.consistent
  cases hg : s.global_speller with
  | none =>
    cases hb : s.spell_backend <;> cases hh : s.global_hunspell <;>
      cases hl : s.spell_config_loaded <;> simp
  | some g =>
    cases hh : s.global_hunspell <;> cases hl : s.spell_config_loaded <;> simp
    · intro _
      constructor
      · intro h f
        exact h f (aspell_manifest_complete f)
      · intro h f _
        exact h f
    · intro _ _
      constructor
      · intro h f
        exact h f (aspell_manifest_complete f)
      · intro h f _
        exact h f

/-- With a speller record that has a configuration object and with all pointers bound,
`aspell_set_lang` returns; the language is recorded and the state cache is invalid. -/
theorem aspell_set_lang_returns (w : SpellWorld) (l : String) (s : SpellState) (g : spell_t)
    (hload : s.spell_config_loaded = true) (hg : s.global_speller = some g)
    (hc : g.config.isSome = true) (hmc : ∀ f, (s.mc f).isSome = true) :
    ∃ r s1, aspell_set_lang w (some l) s = some (r, s1) ∧
      s1.spell_state_cache_valid = false ∧ s1.plugin_spell_language = some l ∧
      s1.spell_config_loaded = true := by
  obtain ⟨c, hc⟩ := Option.isSome_iff_exists.1 hc
  have hsave := spell_config_save_loaded { s with plugin_spell_language := some l } hload
  unfold aspell_set_lang
  simp only []
  generalize spell_config_save { s with plugin_spell_language := some l } = s0 at hsave ⊢
  obtain ⟨v1, v2, v3, _, v5, _, v7⟩ := hsave
  simp only [] at v3 v5 v7
  rw [hg] at v5
  have hm : ∀ f, ∃ a, s0.mc f = some a := fun f => by
    rw [v7]; exact Option.isSome_iff_exists.1 (hmc f)
  obtain ⟨a1, h1⟩ := hm .aspell_config_replace
  obtain ⟨a2, h2⟩ := hm .delete_aspell_speller
  obtain ⟨a3, h3⟩ := hm .new_aspell_speller
  obtain ⟨a4, h4⟩ := hm .aspell_error
  obtain ⟨a5, h5⟩ := hm .delete_aspell_can_have_error
  obtain ⟨a6, h6⟩ := hm .to_aspell_speller
  simp only [mc_aspell_config_replace, delete_current_speller, SpellState.log, v5, hc, h1,
    Option.bind_eq_bind, Option.some_bind, Option.pure_def, Option.bind_some]
  cases hsp : g.speller <;> simp [h2, h3, h4, h5, h6] <;> split <;> simp [v1, v2, v3]

theorem spell_config_load_frame (w : SpellWorld) (s : SpellState) :
    (spell_config_load w s).spell_config_loaded = true ∧
    (spell_config_load w s).spell_backend = s.spell_backend ∧
    (spell_config_load w s).global_speller = s.global_speller ∧
    (spell_config_load w s).global_hunspell = s.global_hunspell ∧
    (s.spell_config_loaded = true → spell_config_load w s = s) ∧
    ((s.spell_config_loaded = true → s.plugin_spell_language.isSome = true) →
      ∃ l, (spell_config_load w s).plugin_spell_language = some l) := by
  unfold spell_config_load
  cases hl : s.spell_config_loaded
  · simp
  · simp [hl]
    exact fun h => Option.isSome_iff_exists.1 h

/-- In a consistent state `spell_set_lang` returns for every non-empty language code;
afterwards the language is the requested one and the state cache is invalid. -/
theorem spell_set_lang_returns (w : SpellWorld) (l : String) (s : SpellState)
    (hcons : s.consistent = true) (hne : l ≠ "") :
    ∃ r s1, spell_set_lang w (some l) s = some (r, s1) ∧
      s1.spell_state_cache_valid = false ∧ s1.plugin_spell_language = some l ∧
      s1.spell_config_loaded = true := by
  obtain ⟨_, k2, k3, _⟩ := (consistent_iff s).1 hcons
  obtain ⟨f1, f2, f3, _, _, _⟩ := spell_config_load_frame w s
  obtain ⟨_, _, _, _, _, _, _, f8⟩ := spell_config_load_cache w s
  have hsave := spell_config_save_loaded
    { spell_config_load w s with plugin_spell_language := some l } f1
  simp only [spell_set_lang, hne, if_false]
  generalize spell_config_save
    { spell_config_load w s with plugin_spell_language := some l } = s0 at hsave ⊢
  obtain ⟨v1, v2, v3, v4, v5, _, v7⟩ := hsave
  simp only [] at v3 v4 v5 v7
  rw [f2] at v4
  rw [f3] at v5
  rw [f8] at v7
  by_cases hb : s0.spell_backend = .SPELL_BACKEND_ASPELL
  · simp only [hb, if_true]
    obtain ⟨g, hg⟩ := Option.isSome_iff_exists.1 (k2 (v4 ▸ hb))
    obtain ⟨g1, g2⟩ := k3 g hg
    exact aspell_set_lang_returns w l s0 g v2 (v5.trans hg) g1 (fun f => by rw [v7]; exact g2 f)
  · simp only [hb, if_false]
    exact ⟨true, s0, rfl, v1, v3, v2⟩

/-- In a consistent state `spell_runtime_shutdown` returns; afterwards no backend is
selected, the speller record and the library are released, and the state cache is
invalid. -/
theorem spell_runtime_shutdown_returns (s : SpellState) (hcons : s.consistent = true) :
    ∃ s1, spell_runtime_shutdown s = some s1 ∧
      s1.spell_state_cache_valid = false ∧
      s1.spell_backend = .SPELL_BACKEND_NONE ∧
      s1.global_speller = none ∧ s1.spell_module = none ∧
      s1.spell_config_loaded = s.spell_config_loaded ∧
      s1.plugin_spell_language = s.plugin_spell_language := by
  obtain ⟨_, _, k3, k4⟩ := (consistent_iff s).1 hcons
  unfold spell_runtime_shutdown
  simp only [spell_state_cache_invalidate, delete_current_speller, SpellState.log, k4,
    Option.bind_eq_bind, Option.some_bind, Option.pure_def, Option.bind_some]
  cases hg : s.global_speller with
  | none =>
    cases hm : s.spell_module <;> cases hh : s.hunspell_module <;> simp [hm, hh]
  | some g =>
    obtain ⟨g1, g2⟩ := k3 g hg
    obtain ⟨c, hc⟩ := Option.isSome_iff_exists.1 g1
    obtain ⟨a1, h1⟩ := Option.isSome_iff_exists.1 (g2 .delete_aspell_speller)
    obtain ⟨a2, h2⟩ := Option.isSome_iff_exists.1 (g2 .delete_aspell_config)
    cases hsp : g.speller <;> cases hm : s.spell_module <;> cases hh : s.hunspell_module <;>
      simp [hm, hh, hc, h1, h2, hsp]

/-- C5. In a consistent state, whatever language is configured (in particular "fr") and
whatever snapshot is cached, `spell_set_lang ("NONE")` returns, and the next
`spell_query_state` (non-null state) returns MC_EPR_OK with enabled = FALSE and
available = FALSE, in every world (libaspell installed or not) and at every time. -/
theorem spell_set_lang_NONE_disables (w1 w2 : SpellWorld) (s : SpellState)
    (st : mc_ep_state_t) (hcons : s.consistent = true) :
    ∃ r s1 s2, spell_set_lang w1 (some "NONE") s = some (r, s1) ∧
      spell_query_state w2 (some st) s1 =
        some (.MC_EPR_OK,
          some { enabled := false, available := false
                 reason := reason_or_null s2.spell_state_cache_reason }, s2) := by
  obtain ⟨r, s1, h1, h2, h3, h4⟩ := spell_set_lang_returns w1 "NONE" s hcons (by decide)
  have hload : spell_config_load w2 s1 = s1 := (spell_config_load_frame w2 s1).2.2.2.2.1 h4
  obtain ⟨s2, q1, _⟩ := query_state_rebuilds_snapshot w2 s1 st "NONE" (Or.inl h2)
    (by rw [hload]; exact h3)
  refine ⟨r, s1, s2, h1, ?_⟩
  rw [q1]
  simp

/-- C5, evaluated: the backend is active with "fr" and a snapshot for "fr" was cached
at time 0; the language is switched to "NONE" and the state queried at time 0. -/
theorem spell_set_lang_NONE_disables_witness :
    SpellState.ready_cached.consistent = true ∧
    SpellState.ready_cached.plugin_spell_language = some "fr" ∧
    SpellState.ready_cached.spell_state_cache_valid = true ∧
    SpellState.ready_cached.spell_state_cache_available = true ∧
    ∃ r s1 s2, spell_set_lang SpellWorld.installed (some "NONE") SpellState.ready_cached
        = some (r, s1) ∧
      spell_query_state SpellWorld.installed (some ⟨true, true, none⟩) s1 =
        some (.MC_EPR_OK,
          some { enabled := false, available := false
                 reason := reason_or_null s2.spell_state_cache_reason }, s2) :=
  ⟨by decide, by decide, by decide, by decide,
    spell_set_lang_NONE_disables SpellWorld.installed SpellWorld.installed
      SpellState.ready_cached ⟨true, true, none⟩ (by decide)⟩

/-- C6. In a consistent state, for every non-empty language code `l`, `spell_set_lang (l)`
returns (TRUE or FALSE) with the state cache invalid, and so does
`spell_runtime_shutdown`; in both cases the next `spell_query_state`, in any world and at
any time, recomputes: it returns enabled and available computed from the configured
language and `spell_available ()` at that call, and stores them as a valid snapshot
stamped with the time of that call. -/
theorem cache_invalid_after_set_lang_and_shutdown (w : SpellWorld) (s : SpellState)
    (l : String) (hcons : s.consistent = true) (hne : l ≠ "") :
    (∃ r s1, spell_set_lang w (some l) s = some (r, s1) ∧
      s1.spell_state_cache_valid = false ∧
      ∀ (w2 : SpellWorld) (st : mc_ep_state_t), ∃ s2,
        spell_query_state w2 (some st) s1 =
          some (.MC_EPR_OK,
            some { enabled := l != "NONE"
                   available := (l != "NONE") && (spell_available w2 s1).1
                   reason := reason_or_null s2.spell_state_cache_reason }, s2) ∧
        s2.spell_state_cache_valid = true ∧
        s2.spell_state_cache_ts_us = w2.g_get_monotonic_time) ∧
    (∃ s1, spell_runtime_shutdown s = some s1 ∧
      s1.spell_state_cache_valid = false ∧
      ∀ (w2 : SpellWorld) (st : mc_ep_state_t), ∃ l2 s2,
        (spell_config_load w2 s1).plugin_spell_language = some l2 ∧
        spell_query_state w2 (some st) s1 =
          some (.MC_EPR_OK,
            some { enabled := l2 != "NONE"
                   available := (l2 != "NONE") && (spell_available w2 (spell_config_load w2 s1)).1
                   reason := reason_or_null s2.spell_state_cache_reason }, s2) ∧
        s2.spell_state_cache_valid = true ∧
        s2.spell_state_cache_ts_us = w2.g_get_monotonic_time) := by
  constructor
  · obtain ⟨r, s1, h1, h2, h3, h4⟩ := spell_set_lang_returns w l s hcons hne
    refine ⟨r, s1, h1, h2, fun w2 st => ?_⟩
    have hload : spell_config_load w2 s1 = s1 := (spell_config_load_frame w2 s1).2.2.2.2.1 h4
    obtain ⟨s2, q1, q2, q3, _⟩ := query_state_rebuilds_snapshot w2 s1 st l (Or.inl h2)
      (by rw [hload]; exact h3)
    rw [hload] at q1
    exact ⟨s2, q1, q2, q3⟩
  · obtain ⟨s1, h1, h2, _, _, _, h6, h7⟩ := spell_runtime_shutdown_returns s hcons
    refine ⟨s1, h1, h2, fun w2 st => ?_⟩
    have k1 := ((consistent_iff s).1 hcons).1
    obtain ⟨l2, hl2⟩ := (spell_config_load_frame w2 s1).2.2.2.2.2
      (by rw [h6, h7]; exact k1)
    obtain ⟨s2, q1, q2, q3, _⟩ := query_state_rebuilds_snapshot w2 s1 st l2 (Or.inl h2) hl2
    exact ⟨l2, s2, hl2, q1, q2, q3⟩

/-- C6, evaluated: with the backend active and a snapshot cached at time 0, the language
is set to "de"; the cache is then invalid. -/
theorem cache_invalid_after_set_lang_and_shutdown_witness :
    SpellState.ready_cached.consistent = true ∧ "de" ≠ "" ∧
    SpellState.ready_cached.spell_state_cache_valid = true ∧
    ∃ r s1, spell_set_lang SpellWorld.installed (some "de") SpellState.ready_cached
        = some (r, s1) ∧ s1.spell_state_cache_valid = false :=
  have h := (cache_invalid_after_set_lang_and_shutdown SpellWorld.installed
    SpellState.ready_cached "de" (by decide) (by decide)).1
  ⟨by decide, by decide, by decide,
    let ⟨r, s1, h1, h2, _⟩ := h
    ⟨r, s1, h1, h2⟩⟩

/-! ## Module loaders -/

theorem g_build_filename_pair (d f : String) : g_build_filename [d, f] = d ++ "/" ++ f := by
  simp [g_build_filename, String.intercalate, String.intercalate.go]

theorem g_build_filename_single (d : String) : g_build_filename [d] = d := by
  simp [g_build_filename, String.intercalate, String.intercalate.go]

theorem g_build_filename_injective (d f f' : String)
    (h : g_build_filename [d, f] = g_build_filename [d, f']) : f = f' := by
  rw [g_build_filename_pair, g_build_filename_pair] at h
  have h2 := congrArg String.data h
  simp only [String.data_append, List.append_assoc] at h2
  exact String.ext (List.append_cancel_left (List.append_cancel_left h2))

/-- One loop iteration opens at most the path of its own entry, and only when the name
has a native suffix. -/
theorem plugins_load_entry_trace {P R : Type} (w : LoaderWorld P) (add : P → R → Bool × R)
    (dir entry filename : String) (st : ScanState R) :
    ∃ new, (plugins_load_entry w add dir entry filename st).trace = st.trace ++ new ∧
      ∀ path, LoaderEvent.g_module_open path ∈ new →
        module_filename_has_native_suffix (some filename) = true ∧
        path = g_build_filename [dir, filename] := by
  unfold plugins_load_entry
  by_cases hs : module_filename_has_native_suffix (some filename) = true
  · simp only [hs, Bool.not_true, Bool.false_eq_true, if_false]
    repeat' split
    all_goals
      refine ⟨?_, ?_, ?_⟩
      rotate_left
      · simp only [List.append_assoc]; exact rfl
      · simp
  · simp only [hs, Bool.not_false, if_true]
    exact ⟨[], by simp, by simp⟩

theorem plugins_load_loop_trace {P R : Type} (w : LoaderWorld P) (add : P → R → Bool × R)
    (dir entry : String) (entries : List String) (st : ScanState R) :
    ∃ new, (plugins_load_loop w add dir entry entries st).trace = st.trace ++ new ∧
      ∀ path, LoaderEvent.g_module_open path ∈ new →
        ∃ filename ∈ entries, module_filename_has_native_suffix (some filename) = true ∧
          path = g_build_filename [dir, filename] := by
  induction entries generalizing st with
  | nil => exact ⟨[], by simp [plugins_load_loop], by simp⟩
  | cons f rest ih =>
    obtain ⟨n1, e1, p1⟩ := plugins_load_entry_trace w add dir entry f st
    obtain ⟨n2, e2, p2⟩ := ih (plugins_load_entry w add dir entry f st)
    refine ⟨n1 ++ n2, by simp only [plugins_load_loop]; rw [e2, e1, List.append_assoc], ?_⟩
    intro path hp
    rcases List.mem_append.1 hp with hp | hp
    · exact ⟨f, List.mem_cons_self _ _, p1 path hp⟩
    · obtain ⟨g, hg, hh⟩ := p2 path hp
      exact ⟨g, List.mem_cons_of_mem _ hg, hh⟩

theorem module_filename_has_native_suffix_iff (name : String) :
    module_filename_has_native_suffix (some name) = true ↔
      (".so".toList <:+ name.toList ∨ ".dylib".toList <:+ name.toList
        ∨ ".bundle".toList <:+ name.toList ∨ ".dll".toList <:+ name.toList) := by
  simp only [module_filename_has_native_suffix, g_str_has_suffix, Bool.or_eq_true,
    List.isSuffixOf_iff_suffix, or_assoc]

/-- A directory scan between `g_dir_open` and `g_dir_close`: the paths it opens are
those of listed entries with a native suffix. -/
theorem plugins_load_loop_opens {P R : Type} (w : LoaderWorld P) (add : P → R → Bool × R)
    (dir entry : String) (entries : List String) (st : ScanState R) (t : List LoaderEvent)
    (ht : st.trace = t ++ [LoaderEvent.g_dir_open dir]) :
    ∃ new, (plugins_load_loop w add dir entry entries st).trace ++ [LoaderEvent.g_dir_close]
        = t ++ new ∧
      (∀ path, LoaderEvent.g_module_open path ∈ new →
        ∃ filename ∈ entries, module_filename_has_native_suffix (some filename) = true ∧
          path = g_build_filename [dir, filename]) ∧
      (∀ filename, module_filename_has_native_suffix (some filename) = false →
        LoaderEvent.g_module_open (g_build_filename [dir, filename]) ∉ new) := by
  obtain ⟨n, e, hn⟩ := plugins_load_loop_trace w add dir entry entries st
  have hmem : ∀ path, LoaderEvent.g_module_open path ∈
      LoaderEvent.g_dir_open dir :: (n ++ [LoaderEvent.g_dir_close]) →
      LoaderEvent.g_module_open path ∈ n := by
    intro path hp
    simpa using hp
  refine ⟨LoaderEvent.g_dir_open dir :: (n ++ [LoaderEvent.g_dir_close]), ?_, ?_, ?_⟩
  · rw [e, ht]; simp
  · exact fun path hp => hn path (hmem path hp)
  · intro filename hf hp
    obtain ⟨g, _, hg, hpath⟩ := hn _ (hmem _ hp)
    rw [g_build_filename_injective dir filename g hpath, hg] at hf
    cases hf

/-- C7. In a call of either loader every `g_module_open` is made on the path of a
directory entry whose name ends in ".so", ".dylib", ".bundle" or ".dll"; the path of a
name with none of these suffixes, such as "README" or "libfoo.so.1", is never passed to
`g_module_open`. -/
theorem loaders_open_only_native_suffix {PP PE RP RE : Type}
    (wp : LoaderWorld PP) (we : LoaderWorld PE) (panel_dir panel_entry : String)
    (panel_add : PP → RP → Bool × RP) (editor_add : PE → RE → Bool × RE)
    (s : LoaderState RP RE) :
    (∃ new, (mc_panel_plugins_load wp panel_dir panel_entry panel_add s).trace = s.trace ++ new ∧
      (∀ path, LoaderEvent.g_module_open path ∈ new →
        ∃ entries, wp.g_dir_open panel_dir = some entries ∧
          ∃ filename ∈ entries, module_filename_has_native_suffix (some filename) = true ∧
            path = g_build_filename [panel_dir, filename]) ∧
      (∀ filename, module_filename_has_native_suffix (some filename) = false →
        LoaderEvent.g_module_open (g_build_filename [panel_dir, filename]) ∉ new)) ∧
    (∃ new, (mc_editor_plugins_load we editor_add s).trace = s.trace ++ new ∧
      (∀ path, LoaderEvent.g_module_open path ∈ new →
        ∃ entries, we.g_dir_open MC_EDITOR_PLUGINS_DIR = some entries ∧
          ∃ filename ∈ entries, module_filename_has_native_suffix (some filename) = true ∧
            path = g_build_filename [MC_EDITOR_PLUGINS_DIR, filename]) ∧
      (∀ filename, module_filename_has_native_suffix (some filename) = false →
        LoaderEvent.g_module_open (g_build_filename [MC_EDITOR_PLUGINS_DIR, filename]) ∉ new)) ∧
    (∀ name, module_filename_has_native_suffix (some name) = true ↔
      (".so".toList <:+ name.toList ∨ ".dylib".toList <:+ name.toList
        ∨ ".bundle".toList <:+ name.toList ∨ ".dll".toList <:+ name.toList)) ∧
    module_filename_has_native_suffix (some "README") = false ∧
    module_filename_has_native_suffix (some "libfoo.so.1") = false := by
  refine ⟨?_, ?_, module_filename_has_native_suffix_iff, by decide, by decide⟩
  · unfold mc_panel_plugins_load
    simp only [g_build_filename_single]
    cases hd : wp.g_dir_open panel_dir with
    | none => exact ⟨[LoaderEvent.g_dir_open panel_dir], rfl, by simp, by simp⟩
    | some entries =>
      obtain ⟨new, h1, h2, h3⟩ := plugins_load_loop_opens wp panel_add panel_dir panel_entry
        entries { modules := [], registry := s.panel_registry,
                  trace := s.trace ++ [LoaderEvent.g_dir_open panel_dir] } s.trace rfl
      exact ⟨new, h1, fun path hp => ⟨entries, rfl, h2 path hp⟩, h3⟩
  · unfold mc_editor_plugins_load
    simp only [g_build_filename_single]
    cases hl : s.editor_plugins_loaded with
    | true => exact ⟨[], by simp, by simp, by simp⟩
    | false =>
      simp only [Bool.false_eq_true, if_false]
      cases hd : we.g_dir_open MC_EDITOR_PLUGINS_DIR with
      | none => exact ⟨[LoaderEvent.g_dir_open MC_EDITOR_PLUGINS_DIR], rfl, by simp, by simp⟩
      | some entries =>
        obtain ⟨new, h1, h2, h3⟩ := plugins_load_loop_opens we editor_add
          MC_EDITOR_PLUGINS_DIR MC_EDITOR_PLUGIN_ENTRY entries
          { modules := [], registry := s.editor_registry,
            trace := s.trace ++ [LoaderEvent.g_dir_open MC_EDITOR_PLUGINS_DIR] } s.trace rfl
        exact ⟨new, h1, fun path hp => ⟨entries, rfl, h2 path hp⟩, h3⟩

/-- C8. A second call of `mc_editor_plugins_load` returns the state the first call left,
whatever the worlds of the two calls are: nothing is appended to the trace (no module is
opened, no entry function called) and the registry and the retained-module list are
unchanged. -/
theorem mc_editor_plugins_load_twice {P RP RE : Type} (w1 w2 : LoaderWorld P)
    (add : P → RE → Bool × RE) (s : LoaderState RP RE) :
    mc_editor_plugins_load w2 add (mc_editor_plugins_load w1 add s)
      = mc_editor_plugins_load w1 add s ∧
    (mc_editor_plugins_load w2 add (mc_editor_plugins_load w1 add s)).trace
      = (mc_editor_plugins_load w1 add s).trace ∧
    (mc_editor_plugins_load w2 add (mc_editor_plugins_load w1 add s)).editor_registry
      = (mc_editor_plugins_load w1 add s).editor_registry ∧
    (mc_editor_plugins_load w2 add (mc_editor_plugins_load w1 add s)).editor_plugin_modules
      = (mc_editor_plugins_load w1 add s).editor_plugin_modules := by
  have hloaded : (mc_editor_plugins_load w1 add s).editor_plugins_loaded = true := by
    unfold mc_editor_plugins_load
    cases hl : s.editor_plugins_loaded with
    | true => simp [hl]
    | false =>
      simp only [Bool.false_eq_true, if_false]
      cases w1.g_dir_open (g_build_filename [MC_EDITOR_PLUGINS_DIR]) <;> rfl
  have hnoop : mc_editor_plugins_load w2 add (mc_editor_plugins_load w1 add s)
      = mc_editor_plugins_load w1 add s := by
    generalize mc_editor_plugins_load w1 add s = s1 at hloaded ⊢
    simp [mc_editor_plugins_load, hloaded]
  exact ⟨hnoop, by rw [hnoop], by rw [hnoop], by rw [hnoop]⟩

theorem plugins_load_loop_append {P R : Type} (w : LoaderWorld P) (add : P → R → Bool × R)
    (dir entry : String) (xs ys : List String) (st : ScanState R) :
    plugins_load_loop w add dir entry (xs ++ ys) st
      = plugins_load_loop w add dir entry ys (plugins_load_loop w add dir entry xs st) := by
  induction xs generalizing st with
  | nil => rfl
  | cons x xs ih =>
    show plugins_load_loop w add dir entry (x :: (xs ++ ys)) st = _
    simp only [plugins_load_loop, ih]

/-- What one loop iteration does to the module array and to the registry. -/
theorem plugins_load_entry_modules {P R : Type} (w : LoaderWorld P) (add : P → R → Bool × R)
    (dir entry filename : String) (st : ScanState R) :
    (plugins_load_entry w add dir entry filename st).modules
      = st.modules ++ (accepted_module w add dir entry filename st.registry).toList ∧
    (plugins_load_entry w add dir entry filename st).registry
      = (plugins_load_entry w add dir entry filename
          { modules := [], registry := st.registry, trace := [] }).registry := by
  unfold plugins_load_entry accepted_module
  by_cases hs : module_filename_has_native_suffix (some filename) = true
  · simp only [hs, Bool.not_true, Bool.false_eq_true, if_false, if_true]
    cases ho : w.g_module_open (g_build_filename [dir, filename]) with
    | none => simp
    | some m =>
      cases hsym : w.g_module_symbol m entry with
      | none => simp [hsym]
      | some fn =>
        cases hp : w.register_fn fn with
        | none => simp [hsym, hp]
        | some p =>
          cases hr : (add p st.registry).1 <;> simp [hsym, hp, hr]
  · simp [hs]

theorem plugins_load_loop_registry {P R : Type} (w : LoaderWorld P) (add : P → R → Bool × R)
    (dir entry : String) (entries : List String) (st : ScanState R) :
    (plugins_load_loop w add dir entry entries st).registry
      = (plugins_load_loop w add dir entry entries
          { modules := [], registry := st.registry, trace := [] }).registry := by
  induction entries generalizing st with
  | nil => rfl
  | cons f rest ih =>
    simp only [plugins_load_loop]
    rw [ih, ih (plugins_load_entry w add dir entry f
      { modules := [], registry := st.registry, trace := [] }),
      (plugins_load_entry_modules w add dir entry f st).2]

theorem retained_entry_append {P R : Type} (w : LoaderWorld P) (add : P → R → Bool × R)
    (dir entry : String) (xs : List String) (x : String) (registry : R) (i : Nat)
    (hi : i < xs.length) :
    retained_entry w add dir entry (xs ++ [x]) registry i
      = retained_entry w add dir entry xs registry i := by
  unfold retained_entry
  rw [List.getElem?_append_left hi, List.take_append_of_le_length (Nat.le_of_lt hi)]

/-- The module array after the loop: the handles of the entries that `retained_entry`
keeps, in the order of the listing, appended to what the array held. -/
theorem plugins_load_loop_modules {P R : Type} (w : LoaderWorld P) (add : P → R → Bool × R)
    (dir entry : String) (entries : List String) (st : ScanState R) :
    (plugins_load_loop w add dir entry entries st).modules
      = st.modules ++ (List.range entries.length).filterMap
          (retained_entry w add dir entry entries st.registry) := by
  induction entries using List.reverseRecOn with
  | nil => simp [plugins_load_loop]
  | append_singleton xs x ih =>
    rw [plugins_load_loop_append]
    simp only [plugins_load_loop]
    rw [(plugins_load_entry_modules w add dir entry x _).1, ih, List.length_append,
      List.length_singleton, List.range_succ, List.filterMap_append, List.append_assoc]
    congr 1
    congr 1
    · apply List.filterMap_congr
      intro i hi
      exact (retained_entry_append w add dir entry xs x st.registry i
        (List.mem_range.1 hi)).symm
    · have h1 : retained_entry w add dir entry (xs ++ [x]) st.registry xs.length
          = accepted_module w add dir entry x
              (plugins_load_loop w add dir entry xs st).registry := by
        unfold retained_entry
        rw [plugins_load_loop_registry w add dir entry xs st]
        simp
      simp only [List.filterMap_cons, List.filterMap_nil, h1]
      cases accepted_module w add dir entry x
        (plugins_load_loop w add dir entry xs st).registry <;> rfl

theorem retained_entry_iff {P R : Type} (w : LoaderWorld P) (add : P → R → Bool × R)
    (dir entry : String) (entries : List String) (registry : R) (i module : Nat) :
    retained_entry w add dir entry entries registry i = some module ↔
      ∃ filename register_fn plugin,
        entries[i]? = some filename ∧
        module_filename_has_native_suffix (some filename) = true ∧
        w.g_module_open (g_build_filename [dir, filename]) = some module ∧
        w.g_module_symbol module entry = some register_fn ∧
        w.register_fn register_fn = some plugin ∧
        (add plugin (plugins_load_loop w add dir entry (entries.take i)
          { modules := [], registry := registry, trace := [] }).registry).1 = true := by
  unfold retained_entry accepted_module
  constructor
  · intro h
    cases hf : entries[i]? with
    | none => simp [hf] at h
    | some filename =>
      simp only [hf, Option.some_bind] at h
      split at h
      · rename_i hs
        cases ho : w.g_module_open (g_build_filename [dir, filename]) with
        | none => simp [ho] at h
        | some m =>
          simp only [ho, Option.some_bind] at h
          cases hsym : w.g_module_symbol m entry with
          | none => simp [hsym] at h
          | some fn =>
            simp only [hsym, Option.some_bind] at h
            cases hp : w.register_fn fn with
            | none => simp [hp] at h
            | some p =>
              simp only [hp, Option.some_bind] at h
              split at h
              · rename_i ha
                cases h
                exact ⟨filename, fn, p, rfl, hs, ho, hsym, hp, ha⟩
              · cases h
      · cases h
  · rintro ⟨filename, fn, p, hf, hs, ho, hsym, hp, ha⟩
    simp [hf, hs, ho, hsym, hp, ha]

/-- C9, evaluated on the code: `mc_panel_plugins_load` has no one-shot guard. Called
twice in the sample world it opens the directory twice, opens the module `a.so` twice and
calls its entry function twice (once per call), and the second call closes module 1,
which the first call had made resident and retained. -/
theorem mc_panel_plugins_load_twice_rescans :
    LoaderState.panel_loaded_once.trace.count
      (LoaderEvent.g_dir_open "/usr/lib/mc/panel-plugins") = 1 ∧
    LoaderState.panel_loaded_once.trace.count (LoaderEvent.register_fn 1 101) = 1 ∧
    LoaderState.panel_loaded_once.panel_plugin_modules = some [1, 6] ∧
    LoaderState.panel_loaded_twice.trace.count
      (LoaderEvent.g_dir_open "/usr/lib/mc/panel-plugins") = 2 ∧
    LoaderState.panel_loaded_twice.trace.count
      (LoaderEvent.g_module_open "/usr/lib/mc/panel-plugins/a.so") = 2 ∧
    LoaderState.panel_loaded_twice.trace.count (LoaderEvent.register_fn 1 101) = 2 ∧
    LoaderState.panel_loaded_twice.trace.count (LoaderEvent.register_fn 6 106) = 2 ∧
    LoaderState.panel_loaded_twice.trace.count (LoaderEvent.g_module_close 1) = 1 ∧
    LoaderState.panel_loaded_twice.panel_plugin_modules = some [] ∧
    LoaderState.panel_loaded_twice ≠ LoaderState.panel_loaded_once := by
  refine ⟨by decide, by decide, by decide, by decide, by decide, by decide, by decide,
    by decide, by decide, ?_⟩
  intro h
  have h2 := congrArg (fun s => s.panel_plugin_modules) h
  revert h2
  decide

/-- C10. The first `mc_editor_plugins_load` (flag not yet set, directory readable with
the listing `entries`) leaves as retained module list exactly the handles of the entries,
in directory order, that `retained_entry` keeps: entry number `i` is kept, under handle
`module`, exactly when its name has a native suffix, the file opens as `module`, the
module exports `mc_editor_plugin_register`, the entry function returns a non-null
descriptor and `mc_editor_plugin_add` accepts it in the registry as the entries before
`i` left it. Every entry is judged, whatever happened to the entries before it. -/
theorem mc_editor_plugins_load_retained {P RP RE : Type} (w : LoaderWorld P)
    (add : P → RE → Bool × RE) (s : LoaderState RP RE) (entries : List String)
    (h0 : s.editor_plugins_loaded = false)
    (hd : w.g_dir_open MC_EDITOR_PLUGINS_DIR = some entries) :
    (mc_editor_plugins_load w add s).editor_plugin_modules =
      some ((List.range entries.length).filterMap
        (retained_entry w add MC_EDITOR_PLUGINS_DIR MC_EDITOR_PLUGIN_ENTRY entries
          s.editor_registry)) ∧
    ∀ i module,
      retained_entry w add MC_EDITOR_PLUGINS_DIR MC_EDITOR_PLUGIN_ENTRY entries
          s.editor_registry i = some module ↔
        ∃ filename register_fn plugin,
          entries[i]? = some filename ∧
          module_filename_has_native_suffix (some filename) = true ∧
          w.g_module_open (g_build_filename [MC_EDITOR_PLUGINS_DIR, filename]) = some module ∧
          w.g_module_symbol module MC_EDITOR_PLUGIN_ENTRY = some register_fn ∧
          w.register_fn register_fn = some plugin ∧
          (add plugin (plugins_load_loop w add MC_EDITOR_PLUGINS_DIR MC_EDITOR_PLUGIN_ENTRY
            (entries.take i)
            { modules := [], registry := s.editor_registry, trace := [] }).registry).1
            = true := by
  refine ⟨?_, fun i module => retained_entry_iff w add _ _ entries s.editor_registry i module⟩
  unfold mc_editor_plugins_load
  simp only [h0, Bool.false_eq_true, if_false, g_build_filename_single, hd]
  rw [plugins_load_loop_modules]
  simp

/-- C10, evaluated in the sample world: of the eight entries, `a.so` (handle 1) and
`b.so` (handle 6) are retained, in that order; the five failing entries between them do
not stop the scan. -/
theorem mc_editor_plugins_load_retained_witness :
    LoaderState.initial.editor_plugins_loaded = false ∧
    LoaderWorld.sample.g_dir_open MC_EDITOR_PLUGINS_DIR =
      some ["README", "a.so", "bad.so", "nosym.dll", "null.dylib", "dup.bundle",
        "libfoo.so.1", "b.so"] ∧
    (mc_editor_plugins_load LoaderWorld.sample sample_plugin_add
      LoaderState.initial).editor_plugin_modules = some [1, 6] :=
  ⟨rfl, by decide,
    (mc_editor_plugins_load_retained LoaderWorld.sample sample_plugin_add LoaderState.initial
      ["README", "a.so", "bad.so", "nosym.dll", "null.dylib", "dup.bundle", "libfoo.so.1",
        "b.so"] rfl (by decide)).1.trans (by decide)⟩

/-! ## Fate of the opened modules -/

/-- Division truncating toward zero by a positive base gives 1 exactly on the range
from the base up to twice the base. -/
theorem tdiv_eq_one_iff (c B : Int) (hB : 0 < B) : c.tdiv B = 1 ↔ (B ≤ c ∧ c < 2 * B) := by
  by_cases hc : 0 ≤ c
  · rw [Int.tdiv_eq_ediv hc (le_of_lt hB)]
    constructor
    · intro h
      have h1 : (1 : Int) ≤ c / B := by omega
      have h2 : c / B < 2 := by omega
      rw [Int.le_ediv_iff_mul_le hB] at h1
      rw [Int.ediv_lt_iff_lt_mul hB] at h2
      omega
    · rintro ⟨h1, h2⟩
      have h3 : (1 : Int) ≤ c / B := by rw [Int.le_ediv_iff_mul_le hB]; omega
      have h4 : c / B < 2 := by rw [Int.ediv_lt_iff_lt_mul hB]; omega
      omega
  · have h0 : 0 ≤ (-c).tdiv B := Int.tdiv_nonneg (by omega) (le_of_lt hB)
    have h : c.tdiv B = -((-c).tdiv B) := by rw [Int.neg_tdiv, neg_neg]
    constructor
    · intro h1; omega
    · rintro ⟨h1, h2⟩; omega

theorem int_of_long_eq (x : Int) (h1 : -2147483648 ≤ x) (h2 : x < 2147483648) :
    int_of_long x = x := by
  unfold int_of_long
  rw [Int.bmod_def]
  norm_num
  omega

/-- C12. With B = `CK_PipeBlock (0)` positive, `scripts_plugin_handle_action` returns
MC_EPR_NOT_SUPPORTED and leaves the state as it was (no `edit_block_process_cmd`, no
refresh) whenever `edit` is `NULL` or the command lies outside B <= command < 2*B; this
covers every negative command, 0, and every multiple k*B with k other than 1. -/
theorem scripts_plugin_handle_action_rejects (kb : Keybind)
    (plugin_data : Option editor_builtin_plugin_data_t) (s : PluginState)
    (hB : 0 < kb.CK_PipeBlock 0) :
    (∀ (command : Int) (edit : Option Nat),
      (edit = none ∨ command < kb.CK_PipeBlock 0 ∨ 2 * kb.CK_PipeBlock 0 ≤ command) →
      scripts_plugin_handle_action kb plugin_data command edit s
        = (.MC_EPR_NOT_SUPPORTED, s)) ∧
    (∀ (command : Int) (edit : Option Nat), command ≤ 0 →
      scripts_plugin_handle_action kb plugin_data command edit s
        = (.MC_EPR_NOT_SUPPORTED, s)) ∧
    (∀ (k : Int) (edit : Option Nat), k ≠ 1 →
      scripts_plugin_handle_action kb plugin_data (k * kb.CK_PipeBlock 0) edit s
        = (.MC_EPR_NOT_SUPPORTED, s)) := by
  have main : ∀ (command : Int) (edit : Option Nat),
      (edit = none ∨ command < kb.CK_PipeBlock 0 ∨ 2 * kb.CK_PipeBlock 0 ≤ command) →
      scripts_plugin_handle_action kb plugin_data command edit s
        = (.MC_EPR_NOT_SUPPORTED, s) := by
    intro command edit h
    unfold scripts_plugin_handle_action
    cases edit with
    | none => rfl
    | some e =>
      have hne : command.tdiv (kb.CK_PipeBlock 0) ≠ 1 := by
        intro h1
        have := (tdiv_eq_one_iff command _ hB).1 h1
        rcases h with h | h | h
        · cases h
        · omega
        · omega
      simp only [hne, ne_eq, not_false_eq_true, if_true]
  refine ⟨main, ?_, ?_⟩
  · intro command edit hc
    exact main command edit (Or.inr (Or.inl (by omega)))
  · intro k edit hk
    apply main
    right
    rcases lt_or_gt_of_ne hk with h | h
    · left
      have h1 : k ≤ 0 := by omega
      have := mul_nonpos_of_nonpos_of_nonneg h1 (le_of_lt hB)
      omega
    · right
      have h1 : 2 ≤ k := by omega
      exact mul_le_mul_of_nonneg_right h1 (le_of_lt hB)

/-- C12, evaluated with the sample codes (B = 10000): command 20000 = 2*B is rejected. -/
theorem scripts_plugin_handle_action_rejects_witness :
    0 < Keybind.sample.CK_PipeBlock 0 ∧
    scripts_plugin_handle_action Keybind.sample (some editor_builtin_plugin_data_t.sample)
        (2 * Keybind.sample.CK_PipeBlock 0) (some 1) PluginState.initial
      = (.MC_EPR_NOT_SUPPORTED, PluginState.initial) :=
  ⟨by decide,
    (scripts_plugin_handle_action_rejects Keybind.sample
      (some editor_builtin_plugin_data_t.sample) PluginState.initial (by decide)).2.2
      2 (some 1) (by decide)⟩

/-- C13. With B = `CK_PipeBlock (0)` a positive `int` value, for 0 <= N < B and a non-null
`edit`, `scripts_plugin_handle_action` called with command B + N calls
`edit_block_process_cmd (edit, N)` once, then the refresh statement, and returns
MC_EPR_OK; and whenever the handler returns MC_EPR_OK the macro number it decoded equals
command - B and lies in [0, B). -/
theorem scripts_plugin_handle_action_accepts (kb : Keybind)
    (plugin_data : Option editor_builtin_plugin_data_t) (s : PluginState)
    (hB : 0 < kb.CK_PipeBlock 0) (hint : kb.CK_PipeBlock 0 ≤ 2147483647) :
    (∀ (N : Int) (e : Nat), 0 ≤ N → N < kb.CK_PipeBlock 0 →
      scripts_plugin_handle_action kb plugin_data (kb.CK_PipeBlock 0 + N) (some e) s
        = (.MC_EPR_OK, host_refresh plugin_data (s.log (.edit_block_process_cmd e N))) ∧
      (s.log (.edit_block_process_cmd e N)).trace
        = s.trace ++ [PluginEvent.edit_block_process_cmd e N]) ∧
    (∀ (command : Int) (edit : Option Nat),
      (scripts_plugin_handle_action kb plugin_data command edit s).1 = .MC_EPR_OK →
      ∃ e, edit = some e ∧
        int_of_long (command - kb.CK_PipeBlock 0) = command - kb.CK_PipeBlock 0 ∧
        0 ≤ command - kb.CK_PipeBlock 0 ∧ command - kb.CK_PipeBlock 0 < kb.CK_PipeBlock 0 ∧
        scripts_plugin_handle_action kb plugin_data command edit s
          = (.MC_EPR_OK, host_refresh plugin_data
              (s.log (.edit_block_process_cmd e (command - kb.CK_PipeBlock 0))))) := by
  constructor
  · intro N e h0 h1
    have hd : (kb.CK_PipeBlock 0 + N).tdiv (kb.CK_PipeBlock 0) = 1 :=
      (tdiv_eq_one_iff _ _ hB).2 ⟨by omega, by omega⟩
    have hc : int_of_long (kb.CK_PipeBlock 0 + N - kb.CK_PipeBlock 0) = N := by
      rw [int_of_long_eq _ (by omega) (by omega)]; omega
    refine ⟨?_, rfl⟩
    simp only [scripts_plugin_handle_action, hd, ne_eq, not_true_eq_false, if_false, hc]
  · intro command edit hok
    unfold scripts_plugin_handle_action at hok ⊢
    cases edit with
    | none => simp at hok
    | some e =>
      by_cases hd : command.tdiv (kb.CK_PipeBlock 0) = 1
      · obtain ⟨h1, h2⟩ := (tdiv_eq_one_iff _ _ hB).1 hd
        have hc := int_of_long_eq (command - kb.CK_PipeBlock 0) (by omega) (by omega)
        refine ⟨e, rfl, hc, by omega, by omega, ?_⟩
        simp only [hd, ne_eq, not_true_eq_false, if_false, hc]
      · simp [hd] at hok

/-- C13, evaluated with the sample codes: command 10003 runs macro 3 and refreshes. -/
theorem scripts_plugin_handle_action_accepts_witness :
    0 < Keybind.sample.CK_PipeBlock 0 ∧ Keybind.sample.CK_PipeBlock 0 ≤ 2147483647 ∧
    (scripts_plugin_handle_action Keybind.sample (some editor_builtin_plugin_data_t.sample)
        (Keybind.sample.CK_PipeBlock 0 + 3) (some 1) PluginState.initial).1 = .MC_EPR_OK ∧
    (scripts_plugin_handle_action Keybind.sample (some editor_builtin_plugin_data_t.sample)
        (Keybind.sample.CK_PipeBlock 0 + 3) (some 1) PluginState.initial).2.trace
      = [PluginEvent.edit_block_process_cmd 1 3, PluginEvent.refresh 7] :=
  have h := ((scripts_plugin_handle_action_accepts Keybind.sample
    (some editor_builtin_plugin_data_t.sample) PluginState.initial (by decide)
    (by decide)).1 3 1 (by decide) (by decide)).1
  ⟨by decide, by decide, by rw [h], by rw [h]; rfl⟩

/-- C14. `etags_plugin_handle_action` returns MC_EPR_OK exactly when `edit` is non-null
and the command is `CK_Find`; it then calls `edit_get_match_keyword_cmd` once with that
edit followed by one `host.refresh` (on an instance whose host provides the callback),
and nothing else. In every other case, such as the command `CK_Save` or a null edit, it
returns MC_EPR_NOT_SUPPORTED and leaves the state as it was. -/
theorem etags_plugin_handle_action_spec (kb : Keybind)
    (plugin_data : Option editor_builtin_plugin_data_t) (command : Int) (edit : Option Nat)
    (s : PluginState) :
    ((etags_plugin_handle_action kb plugin_data command edit s).1 = .MC_EPR_OK ↔
      (edit ≠ none ∧ command = kb.CK_Find)) ∧
    (∀ e, edit = some e → command = kb.CK_Find →
      etags_plugin_handle_action kb plugin_data command edit s
        = (.MC_EPR_OK, host_refresh plugin_data (s.log (.edit_get_match_keyword_cmd e)))) ∧
    (∀ e data host callback, edit = some e → command = kb.CK_Find →
      plugin_data = some data → data.host = some host → host.refresh = some callback →
      (etags_plugin_handle_action kb plugin_data command edit s).2.trace
        = s.trace ++ [PluginEvent.edit_get_match_keyword_cmd e, PluginEvent.refresh callback] ∧
      (etags_plugin_handle_action kb plugin_data command edit s).2.spell = s.spell) ∧
    (¬ (edit ≠ none ∧ command = kb.CK_Find) →
      etags_plugin_handle_action kb plugin_data command edit s
        = (.MC_EPR_NOT_SUPPORTED, s)) ∧
    (kb.CK_Save ≠ kb.CK_Find →
      etags_plugin_handle_action kb plugin_data kb.CK_Save edit s
        = (.MC_EPR_NOT_SUPPORTED, s)) := by
  refine ⟨?_, ?_, ?_, ?_, ?_⟩
  · unfold etags_plugin_handle_action
    cases edit with
    | none => simp
    | some e =>
      by_cases hc : command = kb.CK_Find <;> simp [hc]
  · rintro e rfl rfl
    simp [etags_plugin_handle_action]
  · rintro e data host callback rfl rfl rfl hh hr
    simp [etags_plugin_handle_action, host_refresh, hh, hr, PluginState.log]
  · intro h
    unfold etags_plugin_handle_action
    cases edit with
    | none => rfl
    | some e =>
      have hc : command ≠ kb.CK_Find := fun hc => h ⟨by simp, hc⟩
      simp [hc]
  · intro h
    unfold etags_plugin_handle_action
    cases edit with
    | none => rfl
    | some e => simp [h]

theorem refresh_calls_host_refresh (data : Option editor_builtin_plugin_data_t)
    (d : editor_builtin_plugin_data_t) (host : mc_editor_host_t) (callback : Nat)
    (hd : data = some d) (hh : d.host = some host) (hr : host.refresh = some callback)
    (s : PluginState) :
    refresh_calls (host_refresh data s).trace = refresh_calls s.trace + 1 := by
  subst hd
  simp [host_refresh, hh, hr, PluginState.log, refresh_calls, List.countP_append]

/-- With the language set once the configuration is loaded, `spell_query_state` returns
for a non-null argument and fills the record. -/
theorem spell_query_state_returns (w : SpellWorld) (s : SpellState) (st : mc_ep_state_t)
    (hc : s.spell_config_loaded = true → s.plugin_spell_language.isSome = true) :
    ∃ r st2 s2, spell_query_state w (some st) s = some (r, some st2, s2) := by
  obtain ⟨l, hl⟩ := (spell_config_load_frame w s).2.2.2.2.2 hc
  by_cases hv : s.spell_state_cache_valid = false ∨
      250000 ≤ w.g_get_monotonic_time - s.spell_state_cache_ts_us
  · obtain ⟨s2, h, _⟩ := query_state_rebuilds_snapshot w s st l hv hl
    exact ⟨_, _, s2, h⟩
  · obtain ⟨c1, c2, _⟩ := spell_config_load_cache w s
    have h1 : s.spell_state_cache_valid = true := by
      cases hq : s.spell_state_cache_valid
      · exact absurd (Or.inl hq) hv
      · rfl
    have h2 : w.g_get_monotonic_time - s.spell_state_cache_ts_us < SPELL_STATE_CACHE_TTL_US := by
      rw [SPELL_STATE_CACHE_TTL_US_eq]
      exact not_le.1 (fun h => hv (Or.inr h))
    refine ⟨.MC_EPR_OK,
      { enabled := (spell_config_load w s).spell_state_cache_enabled
        available := (spell_config_load w s).spell_state_cache_available
        reason := reason_or_null (spell_config_load w s).spell_state_cache_reason },
      spell_config_load w s, ?_⟩
    simp [spell_query_state, c1, c2, h1, h2]

/-- The state check of the spell handlers returns in a consistent state and adds nothing
to the trace of the handlers. -/
theorem spell_state_check_returns (w : SpellWorld) (s : PluginState)
    (hc : s.spell.consistent = true) :
    ∃ b st q, spell_state_check w s = some (b, st, { s with spell := q }) := by
  obtain ⟨r, st2, s2, h⟩ := spell_query_state_returns w s.spell
    { available := true, enabled := true, reason := none } ((consistent_iff s.spell).1 hc).1
  refine ⟨r != .MC_EPR_OK || !st2.available || !st2.enabled, st2, s2, ?_⟩
  simp [spell_state_check, h]

theorem refresh_calls_append (t : List PluginEvent) (e : PluginEvent) :
    refresh_calls (t ++ [e]) = refresh_calls t +
      (match e with
       | .refresh _ => 1
       | _ => 0) := by
  cases e <;> simp [refresh_calls, List.countP_append]

/-- C15. On an instance whose host provides a refresh callback, each action-performing
built-in handler (mail activate; scripts, etags and spell handle_action; spell activate,
configure and handle_key) adds exactly one `host.refresh` call when it returns MC_EPR_OK
and none when it returns anything else. The two spell handlers that query the spell
state do return, in a consistent spell state. -/
theorem handlers_refresh_once_iff_ok (kb : Keybind) (w : SpellWorld) (ui : SpellUi)
    (plugin_data : Option editor_builtin_plugin_data_t) (data : editor_builtin_plugin_data_t)
    (host : mc_editor_host_t) (callback : Nat) (command key : Int) (edit : Option Nat)
    (s : PluginState)
    (hd : plugin_data = some data) (hh : data.host = some host)
    (hr : host.refresh = some callback) (hcons : s.spell.consistent = true)
    (hk : kb.CK_SpellCheck ≠ kb.CK_SpellCheckSelectLang) :
    (refresh_calls (mail_plugin_activate plugin_data edit s).2.trace = refresh_calls s.trace +
      (if (mail_plugin_activate plugin_data edit s).1 = .MC_EPR_OK then 1 else 0)) ∧
    (refresh_calls (scripts_plugin_handle_action kb plugin_data command edit s).2.trace
      = refresh_calls s.trace +
        (if (scripts_plugin_handle_action kb plugin_data command edit s).1 = .MC_EPR_OK
          then 1 else 0)) ∧
    (refresh_calls (etags_plugin_handle_action kb plugin_data command edit s).2.trace
      = refresh_calls s.trace +
        (if (etags_plugin_handle_action kb plugin_data command edit s).1 = .MC_EPR_OK
          then 1 else 0)) ∧
    (refresh_calls (spell_plugin_activate ui plugin_data edit s).2.trace
      = refresh_calls s.trace +
        (if (spell_plugin_activate ui plugin_data edit s).1 = .MC_EPR_OK then 1 else 0)) ∧
    (refresh_calls (spell_plugin_configure ui plugin_data edit s).2.trace
      = refresh_calls s.trace +
        (if (spell_plugin_configure ui plugin_data edit s).1 = .MC_EPR_OK then 1 else 0)) ∧
    (∃ r s2, spell_plugin_handle_action kb w ui plugin_data command edit s = some (r, s2) ∧
      refresh_calls s2.trace = refresh_calls s.trace + (if r = .MC_EPR_OK then 1 else 0)) ∧
    (∃ r s2, spell_plugin_handle_key kb w ui plugin_data key edit s = some (r, s2) ∧
      refresh_calls s2.trace = refresh_calls s.trace + (if r = .MC_EPR_OK then 1 else 0)) := by
  have href : ∀ s1 : PluginState,
      refresh_calls (host_refresh plugin_data s1).trace = refresh_calls s1.trace + 1 :=
    refresh_calls_host_refresh plugin_data data host callback hd hh hr
  obtain ⟨b, st, q, hq⟩ := spell_state_check_returns w s hcons
  refine ⟨?_, ?_, ?_, ?_, ?_, ?_, ?_⟩
  · unfold mail_plugin_activate
    cases edit with
    | none => simp
    | some e => simp [href, PluginState.log, refresh_calls_append]
  · unfold scripts_plugin_handle_action
    cases edit with
    | none => simp
    | some e =>
      by_cases hc : command.tdiv (kb.CK_PipeBlock 0) = 1 <;>
        simp [hc, href, PluginState.log, refresh_calls_append]
  · unfold etags_plugin_handle_action
    cases edit with
    | none => simp
    | some e =>
      by_cases hc : command = kb.CK_Find <;>
        simp [hc, href, PluginState.log, refresh_calls_append]
  · unfold spell_plugin_activate
    cases edit with
    | none => simp
    | some e => simp [href, refresh_calls_append]
  · unfold spell_plugin_configure
    simp [href, refresh_calls_append]
  · unfold spell_plugin_handle_action
    simp only [hq, Option.bind_eq_bind, Option.some_bind]
    cases b with
    | true =>
      exact ⟨_, _, rfl, by
        simp [spell_unavailable_message, PluginState.log, refresh_calls_append]⟩
    | false =>
      simp only [Bool.false_eq_true, if_false]
      cases edit with
      | none =>
        by_cases h1 : command = kb.CK_SpellCheckSelectLang
        · have h2 : command ≠ kb.CK_SpellCheck := fun h => hk (h.symm.trans h1)
          refine ⟨.MC_EPR_OK, host_refresh plugin_data
            { s with spell := ui.edit_set_spell_lang q,
                     trace := s.trace ++ [PluginEvent.edit_set_spell_lang] }, ?_, ?_⟩
          · simp [h1, Ne.symm hk]
          · simp [href, refresh_calls_append]
        · refine ⟨.MC_EPR_NOT_SUPPORTED, { s with spell := q }, ?_, ?_⟩
          · simp [h1]
          · simp
      | some e =>
        by_cases h1 : command = kb.CK_SpellCheck
        · refine ⟨.MC_EPR_OK, host_refresh plugin_data
            { s with spell := ui.edit_spellcheck_file e q,
                     trace := s.trace ++ [PluginEvent.edit_spellcheck_file e] }, ?_, ?_⟩
          · simp [h1]
          · simp [href, refresh_calls_append]
        · by_cases h2 : command = kb.CK_SpellCheckSelectLang
          · refine ⟨.MC_EPR_OK, host_refresh plugin_data
              { s with spell := ui.edit_set_spell_lang q,
                       trace := s.trace ++ [PluginEvent.edit_set_spell_lang] }, ?_, ?_⟩
            · simp [h1, h2, Ne.symm hk]
            · simp [href, refresh_calls_append]
          · refine ⟨.MC_EPR_NOT_SUPPORTED, { s with spell := q }, ?_, ?_⟩
            · simp [h1, h2]
            · simp
  · unfold spell_plugin_handle_key
    subst hd
    cases edit with
    | none => exact ⟨.MC_EPR_NOT_SUPPORTED, s, rfl, by simp⟩
    | some e =>
      simp only []
      by_cases h0 : spell_keymap_lookup_command kb data.spell_keymap key = kb.CK_IgnoreKey
      · exact ⟨.MC_EPR_NOT_SUPPORTED, s, by simp [h0], by simp⟩
      · simp only [h0, if_false, hq, Option.bind_eq_bind, Option.some_bind]
        cases b with
        | true =>
          exact ⟨_, _, rfl, by
            simp [spell_unavailable_message, PluginState.log, refresh_calls_append]⟩
        | false =>
          simp only [Bool.false_eq_true, if_false]
          by_cases h1 : spell_keymap_lookup_command kb data.spell_keymap key = kb.CK_SpellCheck
          · refine ⟨.MC_EPR_OK, host_refresh (some data)
              { s with spell := ui.edit_spellcheck_file e q,
                       trace := s.trace ++ [PluginEvent.edit_spellcheck_file e] }, ?_, ?_⟩
            · simp [h1]
            · simp [href, refresh_calls_append]
          · by_cases h2 : spell_keymap_lookup_command kb data.spell_keymap key
                = kb.CK_SpellCheckCurrentWord
            · refine ⟨.MC_EPR_OK, host_refresh (some data)
                { s with spell := ui.edit_suggest_current_word e q,
                         trace := s.trace ++ [PluginEvent.edit_suggest_current_word e] },
                ?_, ?_⟩
              · rw [if_neg h1, if_pos h2]
              · simp [href, refresh_calls_append]
            · by_cases h3 : spell_keymap_lookup_command kb data.spell_keymap key
                  = kb.CK_SpellCheckSelectLang
              · refine ⟨.MC_EPR_OK, host_refresh (some data)
                  { s with spell := ui.edit_set_spell_lang q,
                           trace := s.trace ++ [PluginEvent.edit_set_spell_lang] }, ?_, ?_⟩
                · rw [if_neg h1, if_neg h2, if_pos h3]
                · simp [href, refresh_calls_append]
              · refine ⟨.MC_EPR_NOT_SUPPORTED, { s with spell := q }, ?_, ?_⟩
                · rw [if_neg h1, if_neg h2, if_neg h3]
                · simp

/-- C15, evaluated for the etags handler on the sample instance (refresh callback 7):
the command `CK_Find` on edit 1. -/
theorem handlers_refresh_once_iff_ok_witness :
    PluginState.initial.spell.consistent = true ∧
    Keybind.sample.CK_SpellCheck ≠ Keybind.sample.CK_SpellCheckSelectLang ∧
    (etags_plugin_handle_action Keybind.sample (some editor_builtin_plugin_data_t.sample)
      101 (some 1) PluginState.initial).1 = .MC_EPR_OK ∧
    refresh_calls (etags_plugin_handle_action Keybind.sample
        (some editor_builtin_plugin_data_t.sample) 101 (some 1) PluginState.initial).2.trace
      = refresh_calls PluginState.initial.trace +
        (if (etags_plugin_handle_action Keybind.sample
            (some editor_builtin_plugin_data_t.sample) 101 (some 1) PluginState.initial).1
              = .MC_EPR_OK then 1 else 0) :=
  ⟨by decide, by decide, by decide,
    (handlers_refresh_once_iff_ok Keybind.sample SpellWorld.installed SpellUi.idle
      (some editor_builtin_plugin_data_t.sample) editor_builtin_plugin_data_t.sample
      { refresh := some 7, message := none, host_data := none } 7 101 20 (some 1)
      PluginState.initial rfl rfl rfl (by decide) (by decide)).2.2.1⟩

/-! ## Spell keymap: lookup -/

/-- The lookup as a search for the first binding of the key. -/
theorem spell_keymap_lookup_command_find (kb : Keybind) (keymap : List spell_keybind_t)
    (key : Int) :
    spell_keymap_lookup_command kb (some keymap) key =
      match keymap.find? (fun bind => decide (bind.key = key)) with
      | some bind => bind.command
      | none => kb.CK_IgnoreKey := by
  unfold spell_keymap_lookup_command
  simp only []
  induction keymap with
  | nil => rfl
  | cons b rest ih =>
    by_cases hb : b.key = key
    · simp [spell_keymap_lookup_loop, hb]
    · simp only [spell_keymap_lookup_loop, hb, if_false, List.find?_cons, decide_False]
      exact ih

theorem spell_keymap_lookup_command_unmapped (kb : Keybind)
    (keymap : Option (List spell_keybind_t)) (key : Int)
    (h : ∀ km, keymap = some km → ∀ bind ∈ km, bind.key ≠ key) :
    spell_keymap_lookup_command kb keymap key = kb.CK_IgnoreKey := by
  cases keymap with
  | none => rfl
  | some km =>
    rw [spell_keymap_lookup_command_find]
    have hf : km.find? (fun bind => decide (bind.key = key)) = none := by
      rw [List.find?_eq_none]
      intro b hb
      simpa using h km rfl b hb
    rw [hf]

/-- C16. For a key that no binding of the instance's keymap maps (in particular for
every key when the keymap is empty or `NULL`), `spell_plugin_handle_key` returns
MC_EPR_NOT_SUPPORTED and leaves the whole state as it was: the spell state is not
queried, no message is shown, no spell operation runs and refresh is not called. -/
theorem spell_plugin_handle_key_unmapped (kb : Keybind) (w : SpellWorld) (ui : SpellUi)
    (plugin_data : Option editor_builtin_plugin_data_t) (key : Int) (edit : Option Nat)
    (s : PluginState)
    (h : ∀ data km, plugin_data = some data → data.spell_keymap = some km →
      ∀ bind ∈ km, bind.key ≠ key) :
    spell_plugin_handle_key kb w ui plugin_data key edit s
      = some (.MC_EPR_NOT_SUPPORTED, s) := by
  unfold spell_plugin_handle_key
  cases edit with
  | none => cases plugin_data <;> rfl
  | some e =>
    cases plugin_data with
    | none => rfl
    | some data =>
      have h0 := spell_keymap_lookup_command_unmapped kb data.spell_keymap key
        (fun km hkm => h data km rfl hkm)
      simp [h0]

/-- C16, evaluated on the sample instance, whose keymap maps key 20 only: key 21. -/
theorem spell_plugin_handle_key_unmapped_witness :
    (∀ data km, some editor_builtin_plugin_data_t.sample = some data →
      data.spell_keymap = some km → ∀ bind ∈ km, bind.key ≠ 21) ∧
    spell_plugin_handle_key Keybind.sample SpellWorld.installed SpellUi.idle
        (some editor_builtin_plugin_data_t.sample) 21 (some 1) PluginState.initial
      = some (.MC_EPR_NOT_SUPPORTED, PluginState.initial) :=
  have hyp : ∀ data km, some editor_builtin_plugin_data_t.sample = some data →
      data.spell_keymap = some km → ∀ bind ∈ km, bind.key ≠ 21 := by
    intro data km hd hkm bind hb
    cases hd
    cases hkm
    revert bind
    decide
  ⟨hyp, spell_plugin_handle_key_unmapped Keybind.sample SpellWorld.installed SpellUi.idle
    (some editor_builtin_plugin_data_t.sample) 21 (some 1) PluginState.initial hyp⟩

/-! ## Spell keymap: parsing -/

/-- What the loop over the pieces of a value appends, for any action. -/
theorem spell_keymap_parse_values_append (kb : Keybind) (w : KeymapWorld) (action : Int)
    (pieces : List (List Char)) (binds : List spell_keybind_t) :
    spell_keymap_parse_values kb w action pieces (some binds) =
      some (binds ++
        if action = kb.CK_IgnoreKey then []
        else ((pieces.map g_strstrip).filter fun k => !k.isEmpty).filterMap fun k =>
          if w.tty_keyname_to_keycode k = 0 then none
          else some { command := action, key := w.tty_keyname_to_keycode k }) := by
  induction pieces generalizing binds with
  | nil => simp [spell_keymap_parse_values]
  | cons it rest ih =>
    simp only [spell_keymap_parse_values]
    by_cases he : (g_strstrip it).isEmpty = true
    · simp only [he, Bool.not_true, Bool.false_eq_true, if_false, ih]
      by_cases ha : action = kb.CK_IgnoreKey
      · simp [ha]
      · simp [ha, List.filter_cons, he]
    · have he2 : (g_strstrip it).isEmpty = false := by simpa using he
      simp only [he2, Bool.not_false, if_true, spell_keymap_add_binding]
      by_cases ha : action = kb.CK_IgnoreKey
      · simp only [ha, true_or, Bool.true_or, decide_True, if_true]
        rw [← ha, ih]
        simp [ha]
      · by_cases hz : w.tty_keyname_to_keycode (g_strstrip it) = 0
        · simp [ha, hz, ih, List.filter_cons, he2]
        · simp [ha, hz, ih, List.filter_cons, he2]

/-- The first equals sign of a line: what `strchr` finds. -/
theorem split_at_first (e : Char) (name value : List Char) (h : e ∉ name) :
    (name ++ e :: value).takeWhile (fun c => c != e) = name ∧
    (name ++ e :: value).dropWhile (fun c => c != e) = e :: value := by
  induction name with
  | nil => simp
  | cons c rest ih =>
    have hc : c ≠ e := fun hc => h (hc ▸ List.mem_cons_self _ _)
    have hr : e ∉ rest := fun hr => h (List.mem_cons_of_mem _ hr)
    obtain ⟨i1, i2⟩ := ih hr
    simp only [List.cons_append, List.takeWhile_cons, List.dropWhile_cons]
    simp [hc, i1, i2]

theorem comment_char_false (c : Char)
    (hc : ¬ (c = Char.ofNat 35 ∨ c = Char.ofNat 59 ∨ c = Char.ofNat 91)) :
    (c = Char.ofNat 35 || c = Char.ofNat 59 || c = Char.ofNat 91) = false := by
  obtain ⟨a, b⟩ := not_or.1 hc
  obtain ⟨b, d⟩ := not_or.1 b
  simp [a, b, d]

theorem spell_keymap_action_from_name_unknown (kb : Keybind) (name : List Char)
    (n1 : name ≠ "SpellCheck".toList) (n2 : name ≠ "SpellCheckCurrentWord".toList)
    (n3 : name ≠ "SpellCheckSelectLang".toList) :
    spell_keymap_action_from_name kb name = kb.CK_IgnoreKey := by
  unfold spell_keymap_action_from_name
  rw [if_neg n1, if_neg n2, if_neg n3]

theorem spell_keymap_action_from_name_known (kb : Keybind) :
    spell_keymap_action_from_name kb "SpellCheck".toList = kb.CK_SpellCheck ∧
    spell_keymap_action_from_name kb "SpellCheckCurrentWord".toList
      = kb.CK_SpellCheckCurrentWord ∧
    spell_keymap_action_from_name kb "SpellCheckSelectLang".toList
      = kb.CK_SpellCheckSelectLang := by
  have d1 : "SpellCheckCurrentWord".toList ≠ "SpellCheck".toList := by decide
  have d2 : "SpellCheckSelectLang".toList ≠ "SpellCheck".toList := by decide
  have d3 : "SpellCheckSelectLang".toList ≠ "SpellCheckCurrentWord".toList := by decide
  unfold spell_keymap_action_from_name
  refine ⟨?_, ?_, ?_⟩
  · rw [if_pos rfl]
  · rw [if_neg d1, if_pos rfl]
  · rw [if_neg d2, if_neg d3, if_pos rfl]

/-- The body of `spell_keymap_parse_line` on a trimmed line of the form name, equals
sign, value that does not begin with a comment character. -/
theorem spell_keymap_parse_line_assign (kb : Keybind) (w : KeymapWorld)
    (binds : List spell_keybind_t) (line : List Char) (c : Char) (rest name value : List Char)
    (ht : g_strstrip line = c :: rest)
    (hc : ¬ (c = Char.ofNat 35 ∨ c = Char.ofNat 59 ∨ c = Char.ofNat 91))
    (hs : g_strstrip line = name ++ Char.ofNat 61 :: value) (hn : Char.ofNat 61 ∉ name) :
    spell_keymap_parse_line kb w (some binds) (some line) =
      some (binds ++
        if spell_keymap_action_from_name kb (g_strstrip name) = kb.CK_IgnoreKey then []
        else key_bindings w (spell_keymap_action_from_name kb (g_strstrip name))
          (g_strstrip value)) := by
  obtain ⟨s1, s2⟩ := split_at_first (Char.ofNat 61) name value hn
  have hc2 : (c = Char.ofNat 35 || c = Char.ofNat 59 || c = Char.ofNat 91) = false :=
    comment_char_false c hc
  unfold spell_keymap_parse_line
  simp only [ht]
  simp only [hc2, Bool.false_eq_true, if_false]
  rw [← ht, hs, s1, s2]
  simp only []
  by_cases ha : spell_keymap_action_from_name kb (g_strstrip name) = kb.CK_IgnoreKey
  · simp [ha]
  · by_cases hv : (g_strstrip value).isEmpty = true
    · have hv2 : g_strstrip value = [] := by simpa using hv
      simp [ha, hv2, key_bindings, g_strsplit]
    · have hv2 : (g_strstrip value).isEmpty = false := by simpa using hv
      simp only [ha, hv2, decide_False, Bool.or_self, Bool.false_eq_true, if_false,
        spell_keymap_parse_values_append, key_bindings]

/-- C17. `spell_keymap_parse_line`, the three action codes being different from
`CK_IgnoreKey`, leaves the keymap as it is when the trimmed line is empty, begins with
a hash, semicolon or opening bracket, has no equals sign, or carries before its first
equals sign a trimmed name other than SpellCheck, SpellCheckCurrentWord and
SpellCheckSelectLang. On any other line it appends, for the action named, one binding
(command of the action, key code of k) for each non-empty trimmed piece k between the
semicolons of the value whose key code is not 0, in the order written, and nothing
else. -/
theorem spell_keymap_parse_line_spec (kb : Keybind) (w : KeymapWorld)
    (binds : List spell_keybind_t) (line : List Char)
    (h1 : kb.CK_SpellCheck ≠ kb.CK_IgnoreKey)
    (h2 : kb.CK_SpellCheckCurrentWord ≠ kb.CK_IgnoreKey)
    (h3 : kb.CK_SpellCheckSelectLang ≠ kb.CK_IgnoreKey) :
    ((g_strstrip line = [] ∨
      (∃ c rest, g_strstrip line = c :: rest ∧
        (c = Char.ofNat 35 ∨ c = Char.ofNat 59 ∨ c = Char.ofNat 91)) ∨
      Char.ofNat 61 ∉ g_strstrip line ∨
      (∃ name value, g_strstrip line = name ++ Char.ofNat 61 :: value ∧
        Char.ofNat 61 ∉ name ∧ g_strstrip name ≠ "SpellCheck".toList ∧
        g_strstrip name ≠ "SpellCheckCurrentWord".toList ∧
        g_strstrip name ≠ "SpellCheckSelectLang".toList)) →
      spell_keymap_parse_line kb w (some binds) (some line) = some binds) ∧
    (∀ c rest name value, g_strstrip line = c :: rest →
      ¬ (c = Char.ofNat 35 ∨ c = Char.ofNat 59 ∨ c = Char.ofNat 91) →
      g_strstrip line = name ++ Char.ofNat 61 :: value → Char.ofNat 61 ∉ name →
      (g_strstrip name = "SpellCheck".toList →
        spell_keymap_parse_line kb w (some binds) (some line)
          = some (binds ++ key_bindings w kb.CK_SpellCheck (g_strstrip value))) ∧
      (g_strstrip name = "SpellCheckCurrentWord".toList →
        spell_keymap_parse_line kb w (some binds) (some line)
          = some (binds ++ key_bindings w kb.CK_SpellCheckCurrentWord (g_strstrip value))) ∧
      (g_strstrip name = "SpellCheckSelectLang".toList →
        spell_keymap_parse_line kb w (some binds) (some line)
          = some (binds ++ key_bindings w kb.CK_SpellCheckSelectLang (g_strstrip value)))) := by
  constructor
  · intro h
    cases ht : g_strstrip line with
    | nil => simp [spell_keymap_parse_line, ht]
    | cons c rest =>
      by_cases hc : c = Char.ofNat 35 ∨ c = Char.ofNat 59 ∨ c = Char.ofNat 91
      · have hc2 : (c = Char.ofNat 35 || c = Char.ofNat 59 || c = Char.ofNat 91) = true := by
          rcases hc with a | a | a <;> simp [a]
        unfold spell_keymap_parse_line
        simp only [ht]
        simp only [hc2, if_true]
      · rcases h with h | ⟨c2, r2, e2, h⟩ | h | ⟨name, value, hs, hn, n1, n2, n3⟩
        · rw [ht] at h; cases h
        · rw [ht] at e2
          cases e2
          exact absurd h hc
        · have hd : (c :: rest).dropWhile (fun x => x != Char.ofNat 61) = [] := by
            rw [List.dropWhile_eq_nil_iff]
            intro x hx
            have : x ≠ Char.ofNat 61 := fun hx2 => h (ht ▸ hx2 ▸ hx)
            simpa using this
          have hc2 : (c = Char.ofNat 35 || c = Char.ofNat 59 || c = Char.ofNat 91) = false :=
            comment_char_false c hc
          unfold spell_keymap_parse_line
          simp only [ht]
          simp only [hc2, Bool.false_eq_true, if_false, hd]
        · rw [spell_keymap_parse_line_assign kb w binds line c rest name value ht hc hs hn,
            spell_keymap_action_from_name_unknown kb _ n1 n2 n3]
          simp
  · intro c rest name value ht hc hs hn
    have key := spell_keymap_parse_line_assign kb w binds line c rest name value ht hc hs hn
    obtain ⟨k1, k2, k3⟩ := spell_keymap_action_from_name_known kb
    refine ⟨?_, ?_, ?_⟩
    · intro hname
      rw [key, hname, k1, if_neg h1]
    · intro hname
      rw [key, hname, k2, if_neg h2]
    · intro hname
      rw [key, hname, k3, if_neg h3]

/-- C17, evaluated on a line of the sample system file: two of the four pieces of the
value are key names with a key code, and they are bound, in order, to SpellCheck. -/
theorem spell_keymap_parse_line_spec_witness :
    Keybind.sample.CK_SpellCheck ≠ Keybind.sample.CK_IgnoreKey ∧
    Keybind.sample.CK_SpellCheckCurrentWord ≠ Keybind.sample.CK_IgnoreKey ∧
    Keybind.sample.CK_SpellCheckSelectLang ≠ Keybind.sample.CK_IgnoreKey ∧
    spell_keymap_parse_line Keybind.sample KeymapWorld.sample (some [])
        (some "  SpellCheck = ctrl-p ; alt-p ;; bogus ".toList)
      = some [{ command := 201, key := 16 }, { command := 201, key := 8304 }] :=
  ⟨by decide, by decide, by decide,
    (((spell_keymap_parse_line_spec Keybind.sample KeymapWorld.sample []
      "  SpellCheck = ctrl-p ; alt-p ;; bogus ".toList (by decide) (by decide)
      (by decide)).2 (Char.ofNat 83) "pellCheck = ctrl-p ; alt-p ;; bogus".toList
      "SpellCheck ".toList " ctrl-p ; alt-p ;; bogus".toList (by decide) (by decide)
      (by decide) (by decide)).1 (by decide)).trans (by decide)⟩

/-! ## Spell keymap: layered files -/

theorem spell_config_save_frame (s : SpellState) :
    (spell_config_save s).global_speller = s.global_speller ∧
    (spell_config_save s).mc = s.mc ∧
    ∃ saved, (spell_config_save s).trace = s.trace ++ saved ∧
      ∀ e ∈ saved, ∃ k v, e = SpellEvent.mc_config_set_string k v := by
  unfold spell_config_save spell_check_cache_reset spell_state_cache_invalidate SpellState.log
  cases hl : s.spell_config_loaded
  · exact ⟨rfl, rfl, [], by simp, by simp⟩
  · have hmem : ∀ e ∈ [SpellEvent.mc_config_set_string SPELL_PLUGIN_ENGINE_KEY
          (some SPELL_ENGINE_ASPELL),
        SpellEvent.mc_config_set_string SPELL_PLUGIN_LANGUAGE_KEY s.plugin_spell_language],
        ∃ k v, e = SpellEvent.mc_config_set_string k v := by
      intro e he
      simp only [List.mem_cons, List.mem_singleton, List.not_mem_nil, or_false] at he
      rcases he with rfl | rfl <;> exact ⟨_, _, rfl⟩
    cases hcache : s.spell_check_cache
    · exact ⟨by simp [hcache], by simp [hcache], _, by simp [hcache], hmem⟩
    · exact ⟨by simp [hcache], by simp [hcache], _, by simp [hcache], hmem⟩

theorem live_spellers_peak_saved (w : SpellWorld) (live : Int)
    (saved rest : List SpellEvent)
    (h : ∀ e ∈ saved, ∃ k v, e = SpellEvent.mc_config_set_string k v) :
    live_spellers_peak w live (saved ++ rest) = live_spellers_peak w live rest := by
  induction saved with
  | nil => rfl
  | cons e tl ih =>
    obtain ⟨k, v, rfl⟩ := h _ (List.mem_cons_self _ _)
    have h2 := ih (fun x hx => h x (List.mem_cons_of_mem _ hx))
    have h3 : live ≤ live_spellers_peak w live rest := by
      cases rest <;> simp [live_spellers_peak]
    show max live (live_spellers_peak w live (tl ++ rest)) = _
    rw [h2]
    exact max_eq_right h3

/-- The result of `aspell_set_lang` for a non-null language, when the speller record
exists with a configuration object and the function pointers are bound. -/
theorem aspell_set_lang_eq (w : SpellWorld) (l : String) (s : SpellState) (g : spell_t)
    (cfg : AspellConfig) (hg : s.global_speller = some g) (hc : g.config = some cfg)
    (hmc : ∀ f, (s.mc f).isSome = true) :
    aspell_set_lang w (some l) s =
      some ((w.new_aspell_speller (set_lang_config w l cfg)).isSome,
        { spell_config_save { s with plugin_spell_language := some l } with
          global_speller := some { config := some (set_lang_config w l cfg),
                                   speller := w.new_aspell_speller (set_lang_config w l cfg) },
          trace := (spell_config_save { s with plugin_spell_language := some l }).trace
            ++ set_lang_calls w l g cfg }) := by
  obtain ⟨f1, f2, _⟩ := spell_config_save_frame { s with plugin_spell_language := some l }
  unfold aspell_set_lang
  simp only []
  generalize spell_config_save { s with plugin_spell_language := some l } = s0 at f1 f2 ⊢
  simp only [] at f1 f2
  rw [hg] at f1
  have hm : ∀ f, ∃ a, s0.mc f = some a := fun f => by
    rw [f2]; exact Option.isSome_iff_exists.1 (hmc f)
  obtain ⟨a1, h1⟩ := hm .aspell_config_replace
  obtain ⟨a2, h2⟩ := hm .delete_aspell_speller
  obtain ⟨a3, h3⟩ := hm .new_aspell_speller
  obtain ⟨a4, h4⟩ := hm .aspell_error
  obtain ⟨a5, h5⟩ := hm .delete_aspell_can_have_error
  obtain ⟨a6, h6⟩ := hm .to_aspell_speller
  simp only [mc_aspell_config_replace, delete_current_speller, SpellState.log, f1, hc, h1,
    Option.bind_eq_bind, Option.some_bind, Option.pure_def, Option.bind_some]
  cases hsp : g.speller <;>
    cases hnew : w.new_aspell_speller (set_lang_config w l cfg) <;>
    simp [h2, h3, h4, h5, h6, set_lang_calls, hsp, hnew] <;>
    simp [set_lang_config, spell_codeset] at hnew <;>
    simp [hnew, set_lang_config, spell_codeset]

/-- C20: `aspell_set_lang` with a non-null language, called with the speller record and
its configuration object present and the function pointers bound, returns, and the calls
it adds to the trace are, in this order: the writes of `spell_config_save`, the two
`aspell_config_replace` calls, `delete_aspell_speller` on the current speller when there
is one, `new_aspell_speller` on the updated configuration, and
`delete_aspell_can_have_error` when the construction failed. The speller slot afterwards
holds what the construction returned, hence `NULL` and not the deleted speller when it
failed, and the result is TRUE exactly when it succeeded. Counting one live speller
before the call when the slot is occupied, the number of live spellers never exceeds one
at any point of the added calls, whether the construction succeeds or fails. -/
theorem aspell_set_lang_deletes_before_new (w : SpellWorld) (l : String) (s : SpellState)
    (g : spell_t) (cfg : AspellConfig) (hg : s.global_speller = some g)
    (hc : g.config = some cfg) (hmc : ∀ f, (s.mc f).isSome = true) :
    ∃ r s1 saved calls,
      aspell_set_lang w (some l) s = some (r, s1) ∧
      (∀ e ∈ saved, ∃ k v, e = SpellEvent.mc_config_set_string k v) ∧
      calls =
        [SpellEvent.aspell_config_replace "lang" l,
          SpellEvent.aspell_config_replace "encoding" (spell_codeset w)]
        ++ (match g.speller with
            | some old => [SpellEvent.delete_aspell_speller old]
            | none => [])
        ++ [SpellEvent.new_aspell_speller (set_lang_config w l cfg)]
        ++ (match w.new_aspell_speller (set_lang_config w l cfg) with
            | some _ => []
            | none => [SpellEvent.delete_aspell_can_have_error]) ∧
      s1.trace = s.trace ++ (saved ++ calls) ∧
      r = (w.new_aspell_speller (set_lang_config w l cfg)).isSome ∧
      s1.global_speller =
        some { config := some (set_lang_config w l cfg),
               speller := w.new_aspell_speller (set_lang_config w l cfg) } ∧
      live_spellers_peak w (if g.speller.isSome then 1 else 0) (saved ++ calls) ≤ 1 := by
  obtain ⟨_, _, saved, ft, fs⟩ :=
    spell_config_save_frame { s with plugin_spell_language := some l }
  refine ⟨_, _, saved, set_lang_calls w l g cfg, aspell_set_lang_eq w l s g cfg hg hc hmc,
    fs, rfl, ?_, rfl, rfl, ?_⟩
  · simp only []
    rw [ft]
    simp only [List.append_assoc]
  · rw [live_spellers_peak_saved w _ saved _ fs]
    cases hsp : g.speller <;>
      cases hnew : w.new_aspell_speller (set_lang_config w l cfg) <;>
      simp [set_lang_calls, live_spellers_peak, speller_step, hsp, hnew]

/-- Witness for C20: the language is changed from "fr" to "de" with libaspell installed
and a speller in the slot. -/
theorem aspell_set_lang_deletes_before_new_witness :
    SpellState.ready.global_speller = some ⟨some [("lang", "fr")], some 5⟩ ∧
    (∀ f, (SpellState.ready.mc f).isSome = true) ∧
    ∃ r s1 saved calls,
      aspell_set_lang SpellWorld.installed (some "de") SpellState.ready = some (r, s1) ∧
      (∀ e ∈ saved, ∃ k v, e = SpellEvent.mc_config_set_string k v) ∧
      calls =
        [SpellEvent.aspell_config_replace "lang" "de",
          SpellEvent.aspell_config_replace "encoding" (spell_codeset SpellWorld.installed)]
        ++ (match (⟨some [("lang", "fr")], some 5⟩ : spell_t).speller with
            | some old => [SpellEvent.delete_aspell_speller old]
            | none => [])
        ++ [SpellEvent.new_aspell_speller
              (set_lang_config SpellWorld.installed "de" [("lang", "fr")])]
        ++ (match SpellWorld.installed.new_aspell_speller
                (set_lang_config SpellWorld.installed "de" [("lang", "fr")]) with
            | some _ => []
            | none => [SpellEvent.delete_aspell_can_have_error]) ∧
      s1.trace = SpellState.ready.trace ++ (saved ++ calls) ∧
      r = (SpellWorld.installed.new_aspell_speller
            (set_lang_config SpellWorld.installed "de" [("lang", "fr")])).isSome ∧
      s1.global_speller =
        some { config := some (set_lang_config SpellWorld.installed "de" [("lang", "fr")]),
               speller := SpellWorld.installed.new_aspell_speller
                 (set_lang_config SpellWorld.installed "de" [("lang", "fr")]) } ∧
      live_spellers_peak SpellWorld.installed
        (if (⟨some [("lang", "fr")], some 5⟩ : spell_t).speller.isSome then 1 else 0)
        (saved ++ calls) ≤ 1 :=
  ⟨by decide, fun f => by cases f <;> rfl,
    aspell_set_lang_deletes_before_new SpellWorld.installed "de" SpellState.ready
      ⟨some [("lang", "fr")], some 5⟩ [("lang", "fr")] (by decide) rfl
      (fun f => by cases f <;> rfl)⟩

/-! ## Changing the language through `spell_set_lang` -/

/-- With the configuration loaded, `spell_config_save` writes the engine and the
language, in this order. -/
theorem spell_config_save_trace (s : SpellState) (hl : s.spell_config_loaded = true) :
    (spell_config_save s).trace = s.trace ++
      [SpellEvent.mc_config_set_string "engine" (some "aspell"),
        SpellEvent.mc_config_set_string "language" s.plugin_spell_language] ∧
    (spell_config_save s).spell_module = s.spell_module := by
  unfold spell_config_save
  simp only [hl, Bool.not_true, Bool.false_eq_true, if_false, SpellState.log,
    spell_check_cache_reset, spell_state_cache_invalidate]
  split <;> simp [SPELL_PLUGIN_ENGINE_KEY, SPELL_PLUGIN_LANGUAGE_KEY, SPELL_ENGINE_ASPELL]

/-- The result of `spell_set_lang` with a non-empty language while the aspell backend is
selected, the speller record has its configuration object and the function pointers are
bound. -/
theorem spell_set_lang_aspell (w : SpellWorld) (l : String) (s : SpellState) (g : spell_t)
    (cfg : AspellConfig) (hne : l ≠ "")
    (hb : s.spell_backend = .SPELL_BACKEND_ASPELL) (hg : s.global_speller = some g)
    (hc : g.config = some cfg) (hmc : ∀ f, (s.mc f).isSome = true) :
    ∃ s1, spell_set_lang w (some l) s
        = some ((w.new_aspell_speller (set_lang_config w l cfg)).isSome, s1) ∧
      s1.plugin_spell_language = some l ∧
      s1.spell_config_loaded = true ∧
      s1.spell_backend = .SPELL_BACKEND_ASPELL ∧
      s1.spell_module = s.spell_module ∧
      s1.mc = s.mc ∧
      s1.global_hunspell = s.global_hunspell ∧
      s1.spell_state_cache_valid = false ∧
      s1.global_speller =
        some { config := some (set_lang_config w l cfg),
               speller := w.new_aspell_speller (set_lang_config w l cfg) } ∧
      s1.trace = s.trace ++
        ([SpellEvent.mc_config_set_string "engine" (some "aspell"),
          SpellEvent.mc_config_set_string "language" (some l),
          SpellEvent.mc_config_set_string "engine" (some "aspell"),
          SpellEvent.mc_config_set_string "language" (some l)]
        ++ set_lang_calls w l g cfg) := by
  unfold spell_set_lang
  simp only [hne, if_false]
  obtain ⟨l1, l2, l3, l4, -, -⟩ := spell_config_load_frame w s
  obtain ⟨-, -, -, -, -, l5, l6, l7⟩ := spell_config_load_cache w s
  generalize spell_config_load w s = s0 at l1 l2 l3 l4 l5 l6 l7 ⊢
  have a0 : ({ s0 with plugin_spell_language := some l } : SpellState).spell_config_loaded
      = true := l1
  obtain ⟨-, a2, -, a4, a5, a6, a7⟩ := spell_config_save_loaded _ a0
  obtain ⟨a8, a9⟩ := spell_config_save_trace _ a0
  generalize spell_config_save { s0 with plugin_spell_language := some l } = sv
    at a2 a4 a5 a6 a7 a8 a9 ⊢
  simp only [] at a4 a5 a6 a7 a8 a9
  have b0 : ({ sv with plugin_spell_language := some l } : SpellState).spell_config_loaded
      = true := a2
  obtain ⟨b1, b2, b3, b4, b5, b6, b7⟩ := spell_config_save_loaded _ b0
  obtain ⟨b8, b9⟩ := spell_config_save_trace _ b0
  rw [if_pos (by rw [a4, l2, hb])]
  rw [aspell_set_lang_eq w l sv g cfg (by rw [a5, l3, hg]) hc
    (fun f => by rw [a7, l7]; exact hmc f)]
  generalize spell_config_save { sv with plugin_spell_language := some l } = sw
    at b1 b2 b3 b4 b5 b6 b7 b8 b9
  simp only [] at b3 b4 b5 b6 b7 b8 b9
  refine ⟨_, rfl, b3, b2, ?_, ?_, ?_, ?_, b1, rfl, ?_⟩
  · show sw.spell_backend = _
    rw [b4, a4, l2, hb]
  · show sw.spell_module = _
    rw [b9, a9, l6]
  · show sw.mc = _
    rw [b7, a7, l7]
  · show sw.global_hunspell = _
    rw [b6, a6, l4]
  · show sw.trace ++ _ = _
    rw [b8, a8, l5]
    simp only [List.append_assoc, List.cons_append, List.nil_append]

/-- C21, as stated, fails: in the Ready state with language "fr" and speller 5, a
`spell_set_lang` to "xx", for which the backend constructs no speller, returns FALSE, yet
the configured language is "xx" afterwards and the speller slot is `NULL`, speller 5
having been deleted. -/
theorem spell_set_lang_failure_changes_state :
    SpellState.ready.spell_backend = .SPELL_BACKEND_ASPELL ∧
    SpellState.ready.plugin_spell_language = some "fr" ∧
    SpellState.ready.global_speller = some ⟨some [("lang", "fr")], some 5⟩ ∧
    SpellWorld.no_dictionary.new_aspell_speller
      (set_lang_config SpellWorld.no_dictionary "xx" [("lang", "fr")]) = none ∧
    (spell_set_lang SpellWorld.no_dictionary (some "xx") SpellState.ready).map
      (fun r => r.1) = some false ∧
    ¬ (∀ r s1, spell_set_lang SpellWorld.no_dictionary (some "xx") SpellState.ready
          = some (r, s1) →
        r = false ∧ s1.plugin_spell_language = SpellState.ready.plugin_spell_language ∧
          s1.global_speller = SpellState.ready.global_speller) ∧
    (spell_set_lang SpellWorld.no_dictionary (some "xx") SpellState.ready).map
      (fun r => (r.2.plugin_spell_language, r.2.global_speller))
      = some (some "xx", some ⟨some [("encoding", "UTF-8"), ("lang", "xx")], none⟩) ∧
    (spell_set_lang SpellWorld.no_dictionary (some "xx") SpellState.ready).map
      (fun r => r.2.trace.drop SpellState.ready.trace.length)
      = some [SpellEvent.mc_config_set_string "engine" (some "aspell"),
          SpellEvent.mc_config_set_string "language" (some "xx"),
          SpellEvent.mc_config_set_string "engine" (some "aspell"),
          SpellEvent.mc_config_set_string "language" (some "xx"),
          SpellEvent.aspell_config_replace "lang" "xx",
          SpellEvent.aspell_config_replace "encoding" "UTF-8",
          SpellEvent.delete_aspell_speller 5,
          SpellEvent.new_aspell_speller [("encoding", "UTF-8"), ("lang", "xx")],
          SpellEvent.delete_aspell_can_have_error] := by
  refine ⟨by decide, by decide, by decide, by decide, by decide, ?_, by decide, by decide⟩
  intro hall
  cases h : spell_set_lang SpellWorld.no_dictionary (some "xx") SpellState.ready with
  | none =>
    have : (spell_set_lang SpellWorld.no_dictionary (some "xx") SpellState.ready).map
        (fun r => r.1) = some false := by decide
    rw [h] at this
    exact absurd this (by simp)
  | some p =>
    have h2 := (hall p.1 p.2 h).2.1
    have h3 : (spell_set_lang SpellWorld.no_dictionary (some "xx") SpellState.ready).map
        (fun r => r.2.plugin_spell_language) = some (some "xx") := by decide
    rw [h] at h3
    simp only [Option.map_some'] at h3
    rw [Option.some.injEq] at h3
    rw [h3] at h2
    revert h2
    decide

/-- C21, amended. With the aspell backend selected, the speller record and its
configuration present and the function pointers bound, a `spell_set_lang` to a non-empty
language for which the backend constructs no speller returns FALSE but changes the state:
the requested language is the configured language and has been written to the
configuration, the previous speller (if any) has been deleted and the speller slot is
`NULL`; the backend stays selected and the library loaded. -/
theorem spell_set_lang_failure (w : SpellWorld) (l : String) (s : SpellState) (g : spell_t)
    (cfg : AspellConfig) (hne : l ≠ "")
    (hb : s.spell_backend = .SPELL_BACKEND_ASPELL) (hg : s.global_speller = some g)
    (hc : g.config = some cfg) (hmc : ∀ f, (s.mc f).isSome = true)
    (hfail : w.new_aspell_speller (set_lang_config w l cfg) = none) :
    ∃ s1, spell_set_lang w (some l) s = some (false, s1) ∧
      s1.plugin_spell_language = some l ∧
      s1.global_speller = some { config := some (set_lang_config w l cfg), speller := none } ∧
      s1.spell_backend = .SPELL_BACKEND_ASPELL ∧
      s1.spell_module = s.spell_module ∧
      s1.trace = s.trace ++
        ([SpellEvent.mc_config_set_string "engine" (some "aspell"),
          SpellEvent.mc_config_set_string "language" (some l),
          SpellEvent.mc_config_set_string "engine" (some "aspell"),
          SpellEvent.mc_config_set_string "language" (some l),
          SpellEvent.aspell_config_replace "lang" l,
          SpellEvent.aspell_config_replace "encoding" (spell_codeset w)]
        ++ (match g.speller with
            | some old => [SpellEvent.delete_aspell_speller old]
            | none => [])
        ++ [SpellEvent.new_aspell_speller (set_lang_config w l cfg),
          SpellEvent.delete_aspell_can_have_error]) := by
  obtain ⟨s1, e, h1, -, h3, h4, -, -, -, h8, h9⟩ :=
    spell_set_lang_aspell w l s g cfg hne hb hg hc hmc
  rw [hfail] at e h8
  refine ⟨s1, e, h1, h8, h3, h4, ?_⟩
  rw [h9]
  simp [set_lang_calls, hfail]

/-- C21, amended, evaluated: from the Ready state with language "fr", the language "xx"
has no dictionary. -/
theorem spell_set_lang_failure_witness :
    "xx" ≠ "" ∧
    SpellWorld.no_dictionary.new_aspell_speller
      (set_lang_config SpellWorld.no_dictionary "xx" [("lang", "fr")]) = none ∧
    ∃ s1, spell_set_lang SpellWorld.no_dictionary (some "xx") SpellState.ready
        = some (false, s1) ∧
      s1.plugin_spell_language = some "xx" ∧
      s1.global_speller =
        some { config := some (set_lang_config SpellWorld.no_dictionary "xx" [("lang", "fr")]),
               speller := none } ∧
      s1.spell_backend = .SPELL_BACKEND_ASPELL :=
  have h := spell_set_lang_failure SpellWorld.no_dictionary "xx" SpellState.ready
    ⟨some [("lang", "fr")], some 5⟩ [("lang", "fr")] (by decide) (by decide) (by decide) rfl
    (fun f => by cases f <;> rfl) (by decide)
  ⟨by decide, by decide, h.elim fun s1 hs => ⟨s1, hs.1, hs.2.1, hs.2.2.1, hs.2.2.2.1⟩⟩

/-- C22, as stated, fails: from the Ready state (aspell backend, language "fr", speller
5, library handle 1), `spell_set_lang ("NONE")` leaves `spell_backend` at ASPELL, the
record allocated and the library loaded, where `spell_runtime_shutdown` leaves NONE, no
record and no library; and when the backend constructs a speller for the configuration
it is given, that speller is alive afterwards. -/
theorem spell_set_lang_NONE_keeps_backend_ready :
    SpellState.ready.spell_backend = .SPELL_BACKEND_ASPELL ∧
    SpellState.ready.global_speller = some ⟨some [("lang", "fr")], some 5⟩ ∧
    SpellState.ready.spell_module = some 1 ∧
    (spell_set_lang SpellWorld.no_dictionary (some "NONE") SpellState.ready).map
      (fun r => (r.1, r.2.spell_backend, r.2.global_speller, r.2.spell_module))
      = some (false, .SPELL_BACKEND_ASPELL,
          some ⟨some [("encoding", "UTF-8"), ("lang", "NONE")], none⟩, some 1) ∧
    (spell_set_lang SpellWorld.installed (some "NONE") SpellState.ready).map
      (fun r => (r.1, r.2.spell_backend, r.2.global_speller, r.2.spell_module))
      = some (true, .SPELL_BACKEND_ASPELL,
          some ⟨some [("encoding", "UTF-8"), ("lang", "NONE")], some 5⟩, some 1) ∧
    (spell_runtime_shutdown SpellState.ready).map
      (fun r => (r.spell_backend, r.global_speller, r.spell_module))
      = some (.SPELL_BACKEND_NONE, none, none) ∧
    ¬ (∀ r s1, spell_set_lang SpellWorld.no_dictionary (some "NONE") SpellState.ready
          = some (r, s1) →
        s1.spell_backend = .SPELL_BACKEND_NONE) := by
  refine ⟨by decide, by decide, by decide, by decide, by decide, by decide, ?_⟩
  intro hall
  have h1 : (spell_set_lang SpellWorld.no_dictionary (some "NONE") SpellState.ready).map
      (fun r => r.2.spell_backend) = some .SPELL_BACKEND_ASPELL := by decide
  cases h : spell_set_lang SpellWorld.no_dictionary (some "NONE") SpellState.ready with
  | none =>
    rw [h] at h1
    exact absurd h1 (by simp)
  | some p =>
    have h2 := hall p.1 p.2 h
    rw [h] at h1
    simp only [Option.map_some', Option.some.injEq] at h1
    rw [h2] at h1
    exact absurd h1 (by decide)

/-- C22, amended. From a consistent state with the aspell backend selected, a live
speller `old` and the library loaded, `spell_set_lang ("NONE")` returns with "NONE" as
the configured language and `old` deleted, while `spell_backend` stays ASPELL, the
speller record stays allocated and the library stays loaded. The engine is disabled
through the state query instead: the next `spell_query_state` reports enabled = FALSE and
available = FALSE. The state with `spell_backend` NONE, no record and no library is what
`spell_runtime_shutdown` produces from there. -/
theorem spell_set_lang_NONE_keeps_backend (w w2 : SpellWorld) (s : SpellState) (g : spell_t)
    (cfg : AspellConfig) (old h : Nat) (st : mc_ep_state_t)
    (hcons : s.consistent = true)
    (hb : s.spell_backend = .SPELL_BACKEND_ASPELL) (hg : s.global_speller = some g)
    (hc : g.config = some cfg) (hsp : g.speller = some old)
    (hm : s.spell_module = some h) :
    ∃ r s1, spell_set_lang w (some "NONE") s = some (r, s1) ∧
      s1.plugin_spell_language = some "NONE" ∧
      s1.spell_backend = .SPELL_BACKEND_ASPELL ∧
      s1.spell_module = some h ∧
      (∃ g1, s1.global_speller = some g1 ∧
        g1.config = some (set_lang_config w "NONE" cfg)) ∧
      (∃ rest, s1.trace = s.trace ++
        ([SpellEvent.mc_config_set_string "engine" (some "aspell"),
          SpellEvent.mc_config_set_string "language" (some "NONE"),
          SpellEvent.mc_config_set_string "engine" (some "aspell"),
          SpellEvent.mc_config_set_string "language" (some "NONE"),
          SpellEvent.aspell_config_replace "lang" "NONE",
          SpellEvent.aspell_config_replace "encoding" (spell_codeset w),
          SpellEvent.delete_aspell_speller old,
          SpellEvent.new_aspell_speller (set_lang_config w "NONE" cfg)] ++ rest)) ∧
      (∃ s2, spell_query_state w2 (some st) s1 =
        some (.MC_EPR_OK,
          some { enabled := false, available := false
                 reason := reason_or_null s2.spell_state_cache_reason }, s2)) ∧
      (∃ s3, spell_runtime_shutdown s1 = some s3 ∧
        s3.spell_backend = .SPELL_BACKEND_NONE ∧ s3.global_speller = none ∧
        s3.spell_module = none) := by
  obtain ⟨c1, c2, c3, c4⟩ := (consistent_iff s).1 hcons
  obtain ⟨-, hmc⟩ := c3 g hg
  obtain ⟨s1, e, h1, h2, h3, h4, h5, h6, h7, h8, h9⟩ :=
    spell_set_lang_aspell w "NONE" s g cfg (by decide) hb hg hc hmc
  have hcons1 : s1.consistent = true := by
    rw [consistent_iff]
    refine ⟨fun _ => by rw [h1]; rfl, fun _ => by rw [h8]; rfl, ?_, by rw [h6]; exact c4⟩
    intro g1 hg1
    rw [h8] at hg1
    cases hg1
    exact ⟨rfl, fun f => by rw [h5]; exact hmc f⟩
  refine ⟨_, s1, e, h1, h3, by rw [h4, hm], ⟨_, h8, rfl⟩, ?_, ?_, ?_⟩
  · refine ⟨(match w.new_aspell_speller (set_lang_config w "NONE" cfg) with
      | some _ => []
      | none => [SpellEvent.delete_aspell_can_have_error]), ?_⟩
    rw [h9]
    simp only [set_lang_calls, hsp, List.cons_append, List.nil_append, List.append_assoc]
  · have hload : spell_config_load w2 s1 = s1 := (spell_config_load_frame w2 s1).2.2.2.2.1 h2
    obtain ⟨s2, q1, _⟩ := query_state_rebuilds_snapshot w2 s1 st "NONE" (Or.inl h7)
      (by rw [hload]; exact h1)
    refine ⟨s2, ?_⟩
    rw [q1]
    simp
  · obtain ⟨s3, k1, -, k3, k4, k5, -⟩ := spell_runtime_shutdown_returns s1 hcons1
    exact ⟨s3, k1, k3, k4, k5⟩

/-- C22, amended, evaluated from the Ready state with language "fr", speller 5 and
library handle 1. -/
theorem spell_set_lang_NONE_keeps_backend_witness :
    SpellState.ready.consistent = true ∧
    ∃ r s1, spell_set_lang SpellWorld.no_dictionary (some "NONE") SpellState.ready
        = some (r, s1) ∧
      s1.plugin_spell_language = some "NONE" ∧
      s1.spell_backend = .SPELL_BACKEND_ASPELL ∧
      s1.spell_module = some 1 :=
  have h := spell_set_lang_NONE_keeps_backend SpellWorld.no_dictionary SpellWorld.installed
    SpellState.ready ⟨some [("lang", "fr")], some 5⟩ [("lang", "fr")] 5 1 ⟨true, true, none⟩
    (by decide) (by decide) (by decide) rfl rfl (by decide)
  ⟨by decide, h.elim fun r hr => hr.elim fun s1 hs =>
    ⟨r, s1, hs.1, hs.2.1, hs.2.2.1, hs.2.2.2.1⟩⟩

/-! ## The descriptor registry -/

/-- C24. `mc_editor_plugin_add`, as the specification describes it, returns false
exactly when the descriptor's `api_version` is not `MC_EDITOR_PLUGIN_API_VERSION` or a
descriptor of the same name is registered, and then leaves the registry as it was;
otherwise it returns true and the registry is the old one with the descriptor appended at
the end. After a descriptor D1 was added, adding D2 of the same name returns false, leaves
the registry unchanged, and `mc_editor_plugin_find_by_name` still returns D1. -/
theorem mc_editor_plugin_add_contract :
    (∀ (d : mc_editor_plugin_t) (registry : List mc_editor_plugin_t),
      ((mc_editor_plugin_add d registry).1 = false ↔
        (d.api_version ≠ MC_EDITOR_PLUGIN_API_VERSION ∨ ∃ p ∈ registry, p.name = d.name)) ∧
      ((mc_editor_plugin_add d registry).1 = false →
        (mc_editor_plugin_add d registry).2 = registry) ∧
      ((mc_editor_plugin_add d registry).1 = true →
        (mc_editor_plugin_add d registry).2 = registry ++ [d])) ∧
    (∀ (D1 D2 : mc_editor_plugin_t) (registry : List mc_editor_plugin_t),
      D1.name = D2.name → (mc_editor_plugin_add D1 registry).1 = true →
      mc_editor_plugin_find_by_name D1.name (mc_editor_plugin_add D1 registry).2 = some D1 ∧
      (mc_editor_plugin_add D2 (mc_editor_plugin_add D1 registry).2).1 = false ∧
      (mc_editor_plugin_add D2 (mc_editor_plugin_add D1 registry).2).2
        = (mc_editor_plugin_add D1 registry).2 ∧
      mc_editor_plugin_find_by_name D1.name
        (mc_editor_plugin_add D2 (mc_editor_plugin_add D1 registry).2).2 = some D1) := by
  have key : ∀ (d : mc_editor_plugin_t) (registry : List mc_editor_plugin_t),
      ((mc_editor_plugin_add d registry).1 = false ↔
        (d.api_version ≠ MC_EDITOR_PLUGIN_API_VERSION ∨ ∃ p ∈ registry, p.name = d.name)) ∧
      ((mc_editor_plugin_add d registry).1 = false →
        (mc_editor_plugin_add d registry).2 = registry) ∧
      ((mc_editor_plugin_add d registry).1 = true →
        (mc_editor_plugin_add d registry).2 = registry ++ [d]) := by
    intro d registry
    unfold mc_editor_plugin_add
    by_cases h : d.api_version ≠ MC_EDITOR_PLUGIN_API_VERSION ∨ ∃ p ∈ registry, p.name = d.name
    · rw [if_pos h]
      simp [h]
    · rw [if_neg h]
      simp [h]
  refine ⟨key, ?_⟩
  intro D1 D2 registry hn h1
  obtain ⟨k1, -, k3⟩ := key D1 registry
  have hnot : ¬ (D1.api_version ≠ MC_EDITOR_PLUGIN_API_VERSION
      ∨ ∃ p ∈ registry, p.name = D1.name) := by
    intro hc
    rw [k1.2 hc] at h1
    exact absurd h1 (by decide)
  have hfind : mc_editor_plugin_find_by_name D1.name (registry ++ [D1]) = some D1 := by
    unfold mc_editor_plugin_find_by_name
    rw [List.find?_append]
    have : registry.find? (fun p => decide (p.name = D1.name)) = none := by
      rw [List.find?_eq_none]
      intro p hp
      simp only [decide_eq_true_eq]
      exact fun hpn => hnot (Or.inr ⟨p, hp, hpn⟩)
    rw [this]
    simp
  obtain ⟨j1, j2, -⟩ := key D2 (mc_editor_plugin_add D1 registry).2
  have hrej : (mc_editor_plugin_add D2 (mc_editor_plugin_add D1 registry).2).1 = false := by
    rw [j1, k3 h1]
    exact Or.inr ⟨D1, by simp, hn⟩
  refine ⟨?_, hrej, j2 hrej, ?_⟩
  · rw [k3 h1]; exact hfind
  · rw [j2 hrej, k3 h1]; exact hfind

/-- C25. Each of the four built-in descriptors declares `MC_EDITOR_PLUGIN_API_VERSION`
and fills both mandatory slots `open` and `close`, and their names are pairwise
distinct. So `editor_plugins_register_all`, run before the built-ins were registered on
an empty registry that follows the contract of `mc_editor_plugin_add`, leaves the
registry mail, scripts, etags, spell, in this order, each found by its name, the etags
descriptor with a `handle_action`; a second run changes nothing. -/
theorem editor_plugins_register_all_builtins :
    (∀ d ∈ [edit_builtin_mail_plugin, edit_builtin_scripts_plugin,
        edit_builtin_etags_plugin, edit_builtin_spell_plugin],
      d.api_version = MC_EDITOR_PLUGIN_API_VERSION ∧ d.«open».isSome = true
        ∧ d.close.isSome = true) ∧
    ([edit_builtin_mail_plugin, edit_builtin_scripts_plugin,
        edit_builtin_etags_plugin, edit_builtin_spell_plugin].map
      (fun d => d.name)).Nodup ∧
    (∀ s : PluginState, s.editor_builtin_plugins_registered = false →
      (editor_plugins_register_all mc_editor_plugin_add s []).1
        = { s with editor_builtin_plugins_registered := true } ∧
      mc_editor_plugin_list (editor_plugins_register_all mc_editor_plugin_add s []).2
        = [edit_builtin_mail_plugin, edit_builtin_scripts_plugin,
            edit_builtin_etags_plugin, edit_builtin_spell_plugin] ∧
      editor_plugins_register_all mc_editor_plugin_add
          (editor_plugins_register_all mc_editor_plugin_add s []).1
          (editor_plugins_register_all mc_editor_plugin_add s []).2
        = editor_plugins_register_all mc_editor_plugin_add s []) ∧
    (∀ d ∈ [edit_builtin_mail_plugin, edit_builtin_scripts_plugin,
        edit_builtin_etags_plugin, edit_builtin_spell_plugin],
      mc_editor_plugin_find_by_name d.name
        [edit_builtin_mail_plugin, edit_builtin_scripts_plugin,
          edit_builtin_etags_plugin, edit_builtin_spell_plugin] = some d) ∧
    ((mc_editor_plugin_find_by_name "etags"
        [edit_builtin_mail_plugin, edit_builtin_scripts_plugin,
          edit_builtin_etags_plugin, edit_builtin_spell_plugin]).bind
      (fun d => d.handle_action) = some .etags_plugin_handle_action) := by
  refine ⟨by decide, by decide, ?_, by decide, by decide⟩
  intro s hs
  have hreg : (editor_plugins_register_all mc_editor_plugin_add s []).2
      = [edit_builtin_mail_plugin, edit_builtin_scripts_plugin,
          edit_builtin_etags_plugin, edit_builtin_spell_plugin] := by
    simp only [editor_plugins_register_all, hs, Bool.false_eq_true, if_false]
    decide
  have hst : (editor_plugins_register_all mc_editor_plugin_add s []).1
      = { s with editor_builtin_plugins_registered := true } := by
    simp only [editor_plugins_register_all, hs, Bool.false_eq_true, if_false]
  refine ⟨hst, hreg, ?_⟩
  have hpair : editor_plugins_register_all mc_editor_plugin_add s []
      = ({ s with editor_builtin_plugins_registered := true },
          [edit_builtin_mail_plugin, edit_builtin_scripts_plugin,
            edit_builtin_etags_plugin, edit_builtin_spell_plugin]) :=
    Prod.ext hst hreg
  rw [hpair]
  simp only [editor_plugins_register_all, if_true]

/-! ## The action path of the spell plugin -/

/-- C27, evaluated. With libaspell not installed, `spell_plugin_handle_action` called
from the initial state with the command `CK_Save`, which is not a spell command, returns
MC_EPR_NOT_SUPPORTED after showing the error message of the spell state, and it has
queried the spell state (the library was probed); `etags_plugin_handle_action` rejects
the same command without any call. When the spell state is available and enabled the
same command is rejected with no message. In every consistent state a command other
than `CK_SpellCheck` and `CK_SpellCheckSelectLang` gives MC_EPR_NOT_SUPPORTED with no
spell operation and no refresh, the message being shown exactly when the state check
fails. -/
theorem spell_plugin_handle_action_foreign_command :
    Keybind.sample.CK_Save ≠ Keybind.sample.CK_SpellCheck ∧
    Keybind.sample.CK_Save ≠ Keybind.sample.CK_SpellCheckSelectLang ∧
    (spell_plugin_handle_action Keybind.sample SpellWorld.absent SpellUi.idle
        (some editor_builtin_plugin_data_t.sample) Keybind.sample.CK_Save (some 1)
        PluginState.initial).map (fun r => (r.1, r.2.trace, r.2.spell.trace))
      = some (.MC_EPR_NOT_SUPPORTED,
          [PluginEvent.message "Spell" (spell_backend_reason BUF_MEDIUM)],
          [SpellEvent.g_module_open "libaspell"]) ∧
    (etags_plugin_handle_action Keybind.sample (some editor_builtin_plugin_data_t.sample)
        Keybind.sample.CK_Save (some 1) PluginState.initial).2.trace = [] ∧
    (spell_plugin_handle_action Keybind.sample SpellWorld.installed SpellUi.idle
        (some editor_builtin_plugin_data_t.sample) Keybind.sample.CK_Save (some 1)
        PluginState.initial).map (fun r => (r.1, r.2.trace))
      = some (.MC_EPR_NOT_SUPPORTED, []) ∧
    (∀ (kb : Keybind) (w : SpellWorld) (ui : SpellUi)
        (plugin_data : Option editor_builtin_plugin_data_t) (command : Int)
        (edit : Option Nat) (s : PluginState),
      s.spell.consistent = true → command ≠ kb.CK_SpellCheck →
      command ≠ kb.CK_SpellCheckSelectLang →
      ∃ failed st s1, spell_state_check w s = some (failed, st, s1) ∧
        spell_plugin_handle_action kb w ui plugin_data command edit s
          = some (.MC_EPR_NOT_SUPPORTED,
              if failed then spell_unavailable_message w st s1 else s1) ∧
        s1.trace = s.trace) := by
  refine ⟨by decide, by decide, by decide, by decide, by decide, ?_⟩
  intro kb w ui plugin_data command edit s hcons h1 h2
  obtain ⟨b, st, q, hq⟩ := spell_state_check_returns w s hcons
  refine ⟨b, st, _, hq, ?_, rfl⟩
  unfold spell_plugin_handle_action
  rw [hq]
  cases b <;> cases edit <;> simp [h1, h2]

/-- C28, evaluated. With libaspell installed, a key that the keymap maps to
`CK_SpellCheckCurrentWord` makes `spell_plugin_handle_key` run
`edit_suggest_current_word`, refresh, and return MC_EPR_OK, while
`spell_plugin_handle_action` for the command `CK_SpellCheckCurrentWord`, from the same
state and with the same edit, returns MC_EPR_NOT_SUPPORTED and runs nothing. For a key
mapped to `CK_SpellCheck` or to `CK_SpellCheckSelectLang` the two handlers agree, in
every state and world. -/
theorem spell_plugin_handle_key_versus_action :
    spell_keymap_lookup_command Keybind.sample
        (some [⟨Keybind.sample.CK_SpellCheckCurrentWord, 16⟩]) 16
      = Keybind.sample.CK_SpellCheckCurrentWord ∧
    (spell_plugin_handle_key Keybind.sample SpellWorld.installed SpellUi.idle
        (some ⟨some ⟨some 7, none, none⟩,
          some [⟨Keybind.sample.CK_SpellCheckCurrentWord, 16⟩]⟩)
        16 (some 1) PluginState.initial).map (fun r => (r.1, r.2.trace))
      = some (.MC_EPR_OK,
          [PluginEvent.edit_suggest_current_word 1, PluginEvent.refresh 7]) ∧
    (spell_plugin_handle_action Keybind.sample SpellWorld.installed SpellUi.idle
        (some ⟨some ⟨some 7, none, none⟩,
          some [⟨Keybind.sample.CK_SpellCheckCurrentWord, 16⟩]⟩)
        Keybind.sample.CK_SpellCheckCurrentWord (some 1) PluginState.initial).map
        (fun r => (r.1, r.2.trace))
      = some (.MC_EPR_NOT_SUPPORTED, []) ∧
    (∀ (kb : Keybind) (w : SpellWorld) (ui : SpellUi) (data : editor_builtin_plugin_data_t)
        (key : Int) (e : Nat) (s : PluginState),
      kb.CK_SpellCheck ≠ kb.CK_IgnoreKey → kb.CK_SpellCheckSelectLang ≠ kb.CK_IgnoreKey →
      kb.CK_SpellCheckCurrentWord ≠ kb.CK_SpellCheckSelectLang →
      (spell_keymap_lookup_command kb data.spell_keymap key = kb.CK_SpellCheck ∨
        spell_keymap_lookup_command kb data.spell_keymap key = kb.CK_SpellCheckSelectLang) →
      spell_plugin_handle_key kb w ui (some data) key (some e) s
        = spell_plugin_handle_action kb w ui (some data)
            (spell_keymap_lookup_command kb data.spell_keymap key) (some e) s) := by
  refine ⟨by decide, by decide, by decide, ?_⟩
  intro kb w ui data key e s n1 n2 n3 hc
  unfold spell_plugin_handle_key spell_plugin_handle_action
  simp only []
  generalize spell_keymap_lookup_command kb data.spell_keymap key = c at hc
  rcases hc with hc | hc
  · subst hc
    rw [if_neg n1]
    cases spell_state_check w s with
    | none => rfl
    | some r =>
      simp only [Option.bind_eq_bind, Option.some_bind, Option.isNone_some,
        Bool.false_and, Bool.false_eq_true, if_false, if_true]
  · subst hc
    rw [if_neg n2]
    cases spell_state_check w s with
    | none => rfl
    | some r =>
      by_cases h1 : kb.CK_SpellCheckSelectLang = kb.CK_SpellCheck
      · simp only [Option.bind_eq_bind, Option.some_bind, Option.isNone_some,
          Bool.false_and, Bool.false_eq_true, if_false, if_true, h1]
      · simp only [Option.bind_eq_bind, Option.some_bind, Option.isNone_some,
          Bool.false_and, Bool.false_eq_true, if_false, if_true, h1,
          if_neg (Ne.symm n3)]

/-! ## The invariant of the backend selection -/

theorem wellformed_iff (s : SpellState) :
    s.wellformed = true ↔
      s.consistent = true ∧
      (s.global_speller.isSome = true → s.spell_module.isSome = true) ∧
      (s.spell_module.isSome = true → ∀ f, (s.mc f).isSome = true) := by
  unfold SpellState.wellformed
  simp only [Bool.and_eq_true, Bool.or_eq_true, List.all_eq_true, and_assoc]
  refine and_congr Iff.rfl (and_congr ?_ ?_)
  · cases s.global_speller <;> simp
  · cases s.spell_module with
    | none => simp
    | some h =>
      simp only [Option.isNone_some, Bool.false_eq_true, false_or, Option.isSome_some,
        true_implies]
      exact ⟨fun h f => h f (aspell_manifest_complete f), fun h f _ => h f⟩

theorem wellformed_backend_invariant (s : SpellState) (h : s.wellformed = true) :
    s.backend_invariant = true := by
  obtain ⟨hc, h1, -⟩ := (wellformed_iff s).1 h
  obtain ⟨-, c2, -, -⟩ := (consistent_iff s).1 hc
  unfold SpellState.backend_invariant
  by_cases hb : s.spell_backend = .SPELL_BACKEND_ASPELL
  · have := c2 hb
    simp [this, h1 this]
  · simp [hb]

/-- A chain of lookups that succeeds leaves every symbol of the chain bound, and keeps
bound what was bound before. -/
theorem aspell_functions_available_bound (w : SpellWorld) (fs : List AspellFn)
    (s : SpellState) (h : Nat) (hs : s.spell_module = some h)
    (hok : (aspell_functions_available w fs s).1 = true) (g : AspellFn)
    (hg : g ∈ fs ∨ (s.mc g).isSome = true) :
    ((aspell_functions_available w fs s).2.mc g).isSome = true := by
  induction fs generalizing s with
  | nil =>
    rcases hg with hg | hg
    · cases hg
    · exact hg
  | cons f fs ih =>
    have hm : (ASPELL_FUNCTION_AVAILABLE w f s).2.spell_module = some h := by
      rw [ASPELL_FUNCTION_AVAILABLE_module, hs]
    have h1 : (ASPELL_FUNCTION_AVAILABLE w f s).1 = (w.g_module_symbol h f.symbol).isSome := by
      simp [ASPELL_FUNCTION_AVAILABLE, hs]
    have h2 : (ASPELL_FUNCTION_AVAILABLE w f s).2.mc
        = Function.update s.mc f (w.g_module_symbol h f.symbol) := by
      simp [ASPELL_FUNCTION_AVAILABLE, hs]
    simp only [aspell_functions_available] at hok ⊢
    by_cases hc : (ASPELL_FUNCTION_AVAILABLE w f s).1 = true
    · rw [if_pos hc] at hok ⊢
      apply ih _ hm hok
      by_cases hgf : g = f
      · right
        rw [h2, hgf, Function.update_same, ← h1]
        exact hc
      · rcases hg with hg | hg
        · rcases List.mem_cons.1 hg with hg | hg
          · exact absurd hg hgf
          · exact Or.inl hg
        · right
          rw [h2, Function.update_noteq hgf]
          exact hg
    · rw [if_neg hc] at hok
      exact absurd hok (by simp)

/-- The binder and the invariant: when the library is loaded already nothing changes;
otherwise the result is TRUE exactly when the library is loaded afterwards, and then
every pointer is bound. -/
theorem spell_available_bound (w : SpellWorld) (s : SpellState) :
    (s.spell_module.isSome = true → spell_available w s = (true, s)) ∧
    ((spell_available w s).1 = true ↔ (spell_available w s).2.spell_module.isSome = true) ∧
    ((s.spell_module.isSome = true → ∀ f, (s.mc f).isSome = true) →
      (spell_available w s).2.spell_module.isSome = true →
      ∀ f, ((spell_available w s).2.mc f).isSome = true) := by
  cases hm : s.spell_module with
  | some h =>
    have e : spell_available w s = (true, s) := by simp [spell_available, hm]
    rw [e]
    simp [hm]
  | none =>
    cases ho : w.g_module_open "libaspell" with
    | none => simp [spell_available, hm, ho]
    | some h =>
      let s1 : SpellState :=
        { s with spell_module := some h,
                 trace := s.trace ++ [SpellEvent.g_module_open "libaspell"] }
      have hs1 : s1.spell_module = some h := rfl
      have hmod := aspell_functions_available_module w aspell_manifest s1
      have hsa : spell_available w s =
          if (aspell_functions_available w aspell_manifest s1).1 then
            (true, (aspell_functions_available w aspell_manifest s1).2)
          else (false, { (aspell_functions_available w aspell_manifest s1).2 with
                  spell_module := none,
                  trace := (aspell_functions_available w aspell_manifest s1).2.trace
                    ++ [SpellEvent.g_module_close h] }) := by
        simp [spell_available, hm, ho, s1]
      rw [hsa]
      by_cases hb : (aspell_functions_available w aspell_manifest s1).1 = true
      · simp only [hb, if_true, hmod, hs1, Option.isSome_some, true_iff, true_implies]
        refine ⟨fun hc => by simp at hc, trivial, fun _ f => ?_⟩
        exact aspell_functions_available_bound w aspell_manifest s1 h hs1 hb f
          (Or.inl (aspell_manifest_complete f))
      · simp [hb]

/-- The invariant reads seven of the variables only. -/
theorem wellformed_congr (s t : SpellState)
    (h1 : t.spell_config_loaded = s.spell_config_loaded)
    (h2 : t.plugin_spell_language = s.plugin_spell_language)
    (h3 : t.spell_backend = s.spell_backend)
    (h4 : t.global_speller = s.global_speller)
    (h5 : t.global_hunspell = s.global_hunspell)
    (h6 : t.spell_module = s.spell_module)
    (h7 : t.mc = s.mc) (h : s.wellformed = true) : t.wellformed = true := by
  unfold SpellState.wellformed SpellState.consistent at h ⊢
  rw [h1, h2, h3, h4, h5, h6, h7]
  exact h

theorem spell_config_load_wellformed (w : SpellWorld) (s : SpellState)
    (h : s.wellformed = true) : (spell_config_load w s).wellformed = true := by
  by_cases hl : s.spell_config_loaded = true
  · rw [(spell_config_load_frame w s).2.2.2.2.1 hl]
    exact h
  · obtain ⟨hc, k1, k2⟩ := (wellformed_iff s).1 h
    obtain ⟨-, c2, c3, c4⟩ := (consistent_iff s).1 hc
    obtain ⟨l1, l2, l3, l4, -, l6⟩ := spell_config_load_frame w s
    obtain ⟨-, -, -, -, -, -, m1, m2⟩ := spell_config_load_cache w s
    obtain ⟨l, hl6⟩ := l6 (fun hx => absurd hx hl)
    rw [wellformed_iff, consistent_iff, l2, l3, l4, m1, m2, hl6]
    exact ⟨⟨fun _ => rfl, c2, c3, c4⟩, k1, k2⟩

theorem spell_available_wellformed (w : SpellWorld) (s : SpellState)
    (h : s.wellformed = true) : (spell_available w s).2.wellformed = true := by
  obtain ⟨hc, k1, k2⟩ := (wellformed_iff s).1 h
  obtain ⟨c1, c2, c3, c4⟩ := (consistent_iff s).1 hc
  obtain ⟨b1, -, b3⟩ := spell_available_bound w s
  cases hm : s.spell_module with
  | some m =>
    rw [b1 (by rw [hm]; rfl)]
    exact h
  | none =>
    have hg : s.global_speller = none := by
      cases hgs : s.global_speller with
      | none => rfl
      | some g =>
        have := k1 (by rw [hgs]; rfl)
        rw [hm] at this
        exact absurd this (by simp)
    rw [wellformed_iff, consistent_iff, spell_available_frame]
    simp only []
    rw [hg]
    refine ⟨⟨c1, ?_, ?_, c4⟩, ?_, b3 k2⟩
    · intro hb
      have := c2 hb
      rw [hg] at this
      exact this
    · intro g hgs
      cases hgs
    · intro hx
      exact absurd hx (by simp)

/-- Under the invariant `spell_runtime_shutdown` returns, with no backend selected, no
speller record and no library, and the invariant holds afterwards. -/
theorem spell_runtime_shutdown_wellformed (s : SpellState) (h : s.wellformed = true) :
    ∃ s1, spell_runtime_shutdown s = some s1 ∧ s1.wellformed = true ∧
      s1.spell_backend = .SPELL_BACKEND_NONE ∧ s1.global_speller = none ∧
      s1.spell_module = none ∧
      s1.spell_config_loaded = s.spell_config_loaded ∧
      s1.plugin_spell_language = s.plugin_spell_language := by
  obtain ⟨hc, -, -⟩ := (wellformed_iff s).1 h
  obtain ⟨c1, _, k3, k4⟩ := (consistent_iff s).1 hc
  have key : ∃ s1, spell_runtime_shutdown s = some s1 ∧
      s1.spell_backend = .SPELL_BACKEND_NONE ∧ s1.global_speller = none ∧
      s1.spell_module = none ∧
      s1.spell_config_loaded = s.spell_config_loaded ∧
      s1.plugin_spell_language = s.plugin_spell_language ∧
      s1.global_hunspell = none := by
    unfold spell_runtime_shutdown
    simp only [spell_state_cache_invalidate, delete_current_speller, SpellState.log, k4,
      Option.bind_eq_bind, Option.some_bind, Option.pure_def, Option.bind_some]
    cases hg : s.global_speller with
    | none =>
      cases hm : s.spell_module <;> cases hh : s.hunspell_module <;> simp [hm, hh, k4]
    | some g =>
      obtain ⟨g1, g2⟩ := k3 g hg
      obtain ⟨c, hc⟩ := Option.isSome_iff_exists.1 g1
      obtain ⟨a1, h1⟩ := Option.isSome_iff_exists.1 (g2 .delete_aspell_speller)
      obtain ⟨a2, h2⟩ := Option.isSome_iff_exists.1 (g2 .delete_aspell_config)
      cases hsp : g.speller <;> cases hm : s.spell_module <;> cases hh : s.hunspell_module <;>
        simp [hm, hh, hc, h1, h2, hsp, k4]
  obtain ⟨s1, e, r1, r2, r3, r4, r5, r6⟩ := key
  refine ⟨s1, e, ?_, r1, r2, r3, r4, r5⟩
  rw [wellformed_iff, consistent_iff, r1, r2, r3, r4, r5]
  refine ⟨⟨c1, fun hb => (by cases hb), fun g hg => (by cases hg), r6⟩, ?_, ?_⟩
  · intro hx
    exact absurd hx (by simp)
  · intro hx
    exact absurd hx (by simp)

theorem spell_set_lang_wellformed (w : SpellWorld) (lang : Option String) (s : SpellState)
    (h : s.wellformed = true) :
    ∃ r s1, spell_set_lang w lang s = some (r, s1) ∧ s1.wellformed = true := by
  cases lang with
  | none => exact ⟨false, s, rfl, h⟩
  | some l =>
    by_cases hne : l = ""
    · subst hne
      exact ⟨false, s, by simp [spell_set_lang], h⟩
    · obtain ⟨hc, k1, k2⟩ := (wellformed_iff s).1 h
      obtain ⟨c1, c2, c3, c4⟩ := (consistent_iff s).1 hc
      by_cases hb : s.spell_backend = .SPELL_BACKEND_ASPELL
      · obtain ⟨g, hg⟩ := Option.isSome_iff_exists.1 (c2 hb)
        obtain ⟨g1, hmc⟩ := c3 g hg
        obtain ⟨cfg, hcfg⟩ := Option.isSome_iff_exists.1 g1
        obtain ⟨s1, e, h1, h2, h3, h4, h5, h6, -, h8, -⟩ :=
          spell_set_lang_aspell w l s g cfg hne hb hg hcfg hmc
        refine ⟨_, s1, e, ?_⟩
        rw [wellformed_iff, consistent_iff, h1, h3, h4, h5, h6, h8]
        refine ⟨⟨fun _ => rfl, fun _ => rfl, ?_, c4⟩, fun _ => k1 (by rw [hg]; rfl), k2⟩
        intro g2 hg2
        cases hg2
        exact ⟨rfl, hmc⟩
      · have h0 := spell_config_load_wellformed w s h
        obtain ⟨l1, l2, -, -, -, -⟩ := spell_config_load_frame w s
        unfold spell_set_lang
        simp only [hne, if_false]
        generalize spell_config_load w s = s0 at h0 l1 l2 ⊢
        obtain ⟨hc0, j1, j2⟩ := (wellformed_iff s0).1 h0
        obtain ⟨-, d2, d3, d4⟩ := (consistent_iff s0).1 hc0
        have a0 : ({ s0 with plugin_spell_language := some l } : SpellState).spell_config_loaded
            = true := l1
        obtain ⟨-, a2, a3, a4, a5, a6, a7⟩ := spell_config_save_loaded _ a0
        obtain ⟨-, a9⟩ := spell_config_save_trace _ a0
        rw [if_neg (by rw [a4]; show ¬ s0.spell_backend = _; rw [l2]; exact hb)]
        refine ⟨true, _, rfl, ?_⟩
        generalize spell_config_save { s0 with plugin_spell_language := some l } = t
          at a2 a3 a4 a5 a6 a7 a9
        simp only [] at a3 a4 a5 a6 a7 a9
        rw [wellformed_iff, consistent_iff, a3, a4, a5, a6, a7, a9]
        exact ⟨⟨fun _ => rfl, d2, d3, d4⟩, j1, j2⟩

/-- Whatever `spell_query_state` returns, the invariant holds afterwards. -/
theorem spell_query_state_wellformed (w : SpellWorld) (st : Option mc_ep_state_t)
    (s : SpellState) (h : s.wellformed = true) :
    ∀ r, spell_query_state w st s = some r → r.2.2.wellformed = true := by
  intro r hr
  have h0 := spell_config_load_wellformed w s h
  unfold spell_query_state at hr
  simp only [] at hr
  generalize spell_config_load w s = s0 at h0 hr
  cases st with
  | none =>
    simp only [Option.some.injEq] at hr
    rw [← hr]
    exact h0
  | some st0 =>
    simp only [] at hr
    split at hr
    · simp only [Option.some.injEq] at hr
      rw [← hr]
      exact h0
    · cases hl : s0.plugin_spell_language with
      | none =>
        rw [hl] at hr
        simp at hr
      | some l =>
        rw [hl] at hr
        by_cases hN : l = "NONE"
        · subst hN
          simp at hr
          rw [← hr]
          exact wellformed_congr s0 _ rfl rfl rfl rfl rfl rfl rfl h0
        · simp [hN, spell_backend_selected_available, hl] at hr
          rw [← hr]
          exact wellformed_congr (spell_available w s0).2 _ rfl rfl rfl rfl rfl rfl rfl
            (spell_available_wellformed w s0 h0)

/-- Under the invariant, whatever `spell_runtime_init` returns satisfies the invariant,
and it does return when `new_aspell_config` returns a configuration object. -/
theorem spell_runtime_init_wellformed (w : SpellWorld) (s : SpellState)
    (h : s.wellformed = true) :
    (∀ s1, spell_runtime_init w s = some s1 → s1.wellformed = true) ∧
    (w.new_aspell_config = true → ∃ s1, spell_runtime_init w s = some s1) := by
  have h0 := spell_config_load_wellformed w s h
  obtain ⟨l1, -, -, -, -, -⟩ := spell_config_load_frame w s
  unfold spell_runtime_init
  simp only []
  generalize spell_config_load w s = s0 at h0 l1 ⊢
  obtain ⟨hc0, j1, j2⟩ := (wellformed_iff s0).1 h0
  obtain ⟨d1, d2, d3, d4⟩ := (consistent_iff s0).1 hc0
  obtain ⟨l, hl⟩ := Option.isSome_iff_exists.1 (d1 l1)
  obtain ⟨-, b2, b3⟩ := spell_available_bound w
    { s0 with global_speller := some { config := none, speller := none } }
  have fr := spell_available_frame w
    { s0 with global_speller := some { config := none, speller := none } }
  generalize hgen : spell_available w
    { s0 with global_speller := some { config := none, speller := none } } = r at b2 b3 fr ⊢
  obtain ⟨rb, sA⟩ := r
  simp only [] at b2 b3 fr
  rw [hl]
  simp only [Option.bind_eq_bind, Option.some_bind]
  by_cases hN : l = "NONE"
  · rw [if_pos hN]
    refine ⟨fun s1 hs => ?_, fun _ => ⟨_, rfl⟩⟩
    cases hs
    exact wellformed_congr s0 _ rfl rfl rfl rfl rfl rfl rfl h0
  rw [if_neg hN]
  by_cases hb : s0.spell_backend ≠ .SPELL_BACKEND_NONE
  · rw [if_pos hb]
    refine ⟨fun s1 hs => ?_, fun _ => ⟨_, rfl⟩⟩
    cases hs
    exact h0
  rw [if_neg hb]
  have hb0 : s0.spell_backend = .SPELL_BACKEND_NONE := not_not.1 hb
  cases hmal : w.g_try_malloc with
  | false =>
    simp only [Bool.not_false, if_true]
    refine ⟨fun s1 hs => ?_, fun _ => ⟨_, rfl⟩⟩
    cases hs
    rw [wellformed_iff, consistent_iff]
    simp only [hb0, hl]
    exact ⟨⟨fun _ => rfl, fun hx => (by cases hx), fun g hg => (by cases hg), d4⟩,
      fun hx => absurd hx (by simp), j2⟩
  | true =>
  simp only [Bool.not_true, Bool.false_eq_true, if_false]
  have f1 : sA.spell_config_loaded = true := by rw [fr]; exact l1
  have f2 : sA.plugin_spell_language = some l := by rw [fr]; exact hl
  have f3 : sA.spell_backend = .SPELL_BACKEND_NONE := by rw [fr]; exact hb0
  have f4 : sA.global_hunspell = none := by rw [fr]; exact d4
  have f5 : sA.global_speller = some { config := none, speller := none } := by rw [fr]
  cases hrb : rb with
  | false =>
    simp only [Bool.not_false, if_true]
    refine ⟨fun s1 hs => ?_, fun _ => ⟨_, rfl⟩⟩
    cases hs
    rw [wellformed_iff, consistent_iff]
    simp only [f1, f2, f3, f4]
    refine ⟨⟨fun _ => rfl, fun hx => (by cases hx), fun g hg => (by cases hg), trivial⟩,
      fun hx => absurd hx (by simp), b3 j2⟩
  | true =>
    subst hrb
    have hmA : sA.spell_module.isSome = true := b2.1 rfl
    have hmc : ∀ f, (sA.mc f).isSome = true := b3 j2 hmA
    obtain ⟨a1, p1⟩ := Option.isSome_iff_exists.1 (hmc .new_aspell_config)
    obtain ⟨a2, p2⟩ := Option.isSome_iff_exists.1 (hmc .aspell_config_replace)
    obtain ⟨a3, p3⟩ := Option.isSome_iff_exists.1 (hmc .new_aspell_speller)
    obtain ⟨a4, p4⟩ := Option.isSome_iff_exists.1 (hmc .aspell_error_number)
    obtain ⟨a5, p5⟩ := Option.isSome_iff_exists.1 (hmc .to_aspell_speller)
    obtain ⟨a6, p6⟩ := Option.isSome_iff_exists.1 (hmc .aspell_error_message)
    obtain ⟨a7, p7⟩ := Option.isSome_iff_exists.1 (hmc .delete_aspell_can_have_error)
    simp only [Bool.not_true, Bool.false_eq_true, if_false, p1, Option.bind_eq_bind,
      Option.some_bind, f2, mc_aspell_config_replace, p2, SpellState.log]
    cases hcfg : w.new_aspell_config with
    | false =>
      simp only [Bool.false_eq_true, if_false, Option.none_bind, Option.bind_none]
      exact ⟨fun s1 hs => (by cases hs), fun hx => (by cases hx)⟩
    | true =>
      simp only [if_true, Option.some_bind, p3, p4]
      cases hnew : w.new_aspell_speller (config_replace "lang" l []) with
      | some sp =>
        simp only [p5, Option.some_bind]
        refine ⟨fun s1 hs => ?_, fun _ => ⟨_, rfl⟩⟩
        cases hs
        rw [wellformed_iff, consistent_iff]
        simp only [spell_state_cache_invalidate, f1, f2, f4]
        refine ⟨⟨fun _ => rfl, fun _ => rfl, ?_, trivial⟩, fun _ => hmA, fun _ => hmc⟩
        intro g hg
        cases hg
        exact ⟨rfl, hmc⟩
      | none =>
        simp only [p6, p7, Option.some_bind]
        have aux : ∀ X : SpellState, X.wellformed = true → ∀ P : Prop,
            (∀ s1, spell_runtime_shutdown X = some s1 → s1.wellformed = true) ∧
            (P → ∃ s1, spell_runtime_shutdown X = some s1) := by
          intro X hX P
          obtain ⟨s2, e2, w2, -⟩ := spell_runtime_shutdown_wellformed X hX
          refine ⟨fun s1 hs => ?_, fun _ => ⟨s2, e2⟩⟩
          rw [e2] at hs
          cases hs
          exact w2
        refine aux _ ?_ _
        rw [wellformed_iff, consistent_iff]
        simp only [f1, f2, f3, f4]
        refine ⟨⟨fun _ => rfl, fun hx => (by cases hx), ?_, trivial⟩, fun _ => hmA,
          fun _ => hmc⟩
        intro g hg
        cases hg
        exact ⟨rfl, hmc⟩

/-- One call under the invariant: whatever it returns satisfies the invariant, and it
returns when `new_aspell_config` returns a configuration object. -/
theorem SpellCall_run_wellformed (w : SpellWorld) (c : SpellCall) (s : SpellState)
    (h : s.wellformed = true) :
    (∀ s1, c.run w s = some s1 → s1.wellformed = true) ∧
    (w.new_aspell_config = true → ∃ s1, c.run w s = some s1) := by
  cases c with
  | spell_runtime_init => exact spell_runtime_init_wellformed w s h
  | spell_runtime_shutdown =>
    obtain ⟨s2, e2, w2, -⟩ := spell_runtime_shutdown_wellformed s h
    refine ⟨fun s1 hs => ?_, fun _ => ⟨s2, e2⟩⟩
    simp only [SpellCall.run] at hs
    rw [e2] at hs
    cases hs
    exact w2
  | spell_set_lang lang =>
    obtain ⟨r, s2, e2, w2⟩ := spell_set_lang_wellformed w lang s h
    refine ⟨fun s1 hs => ?_, fun _ => ⟨s2, by simp [SpellCall.run, e2]⟩⟩
    simp only [SpellCall.run] at hs
    rw [e2] at hs
    cases hs
    exact w2
  | spell_query_state state =>
    refine ⟨fun s1 hs => ?_, fun _ => ?_⟩
    · simp only [SpellCall.run] at hs
      cases hq : spell_query_state w state s with
      | none =>
        rw [hq] at hs
        cases hs
      | some r =>
        rw [hq] at hs
        cases hs
        exact spell_query_state_wellformed w state s h r hq
    · obtain ⟨hc, -, -⟩ := (wellformed_iff s).1 h
      obtain ⟨c1, -, -, -⟩ := (consistent_iff s).1 hc
      cases state with
      | none => exact ⟨_, rfl⟩
      | some st =>
        obtain ⟨r, st2, s2, e2⟩ := spell_query_state_returns w s st c1
        exact ⟨s2, by simp [SpellCall.run, e2]⟩

/-- Under the invariant `aspell_set_lang` returns while the aspell backend is selected:
the record it reads exists and the pointers it calls through are bound. -/
theorem aspell_set_lang_total (w : SpellWorld) (lang : Option String) (s : SpellState)
    (h : s.wellformed = true) (hb : s.spell_backend = .SPELL_BACKEND_ASPELL) :
    ∃ r, aspell_set_lang w lang s = some r := by
  obtain ⟨hc, -, -⟩ := (wellformed_iff s).1 h
  obtain ⟨-, c2, c3, -⟩ := (consistent_iff s).1 hc
  cases lang with
  | none => exact ⟨_, rfl⟩
  | some l =>
    obtain ⟨g, hg⟩ := Option.isSome_iff_exists.1 (c2 hb)
    obtain ⟨g1, hmc⟩ := c3 g hg
    obtain ⟨cfg, hcfg⟩ := Option.isSome_iff_exists.1 g1
    exact ⟨_, aspell_set_lang_eq w l s g cfg hg hcfg hmc⟩

/-- C29. From a state that satisfies the invariant of the spell runtime (the state at
program start does), after every sequence of `spell_runtime_init`,
`spell_runtime_shutdown`, `spell_set_lang` and `spell_query_state` calls, each in its own
world and with any argument, the invariant holds again: whenever `spell_backend` is
ASPELL, `global_speller` and `spell_module` are not `NULL`; and then `aspell_set_lang`
returns for every language, so it reads no `NULL` record and calls through no unbound
pointer. The sequence itself runs to its end when every call is made in a world where
`new_aspell_config` returns a configuration object. -/
theorem spell_calls_preserve_backend_invariant (calls : List (SpellWorld × SpellCall))
    (s : SpellState) (h : s.wellformed = true) :
    (∀ s1, spell_calls_run calls s = some s1 →
      s1.wellformed = true ∧ s1.backend_invariant = true ∧
      (s1.spell_backend = .SPELL_BACKEND_ASPELL →
        s1.global_speller.isSome = true ∧ s1.spell_module.isSome = true ∧
        ∀ (w : SpellWorld) (lang : Option String), ∃ r, aspell_set_lang w lang s1 = some r)) ∧
    ((∀ c ∈ calls, c.1.new_aspell_config = true) →
      ∃ s1, spell_calls_run calls s = some s1) := by
  induction calls generalizing s with
  | nil =>
    refine ⟨fun s1 hs => ?_, fun _ => ⟨s, rfl⟩⟩
    simp only [spell_calls_run, Option.some.injEq] at hs
    subst hs
    have hbi := wellformed_backend_invariant s h
    refine ⟨h, hbi, fun hb => ?_⟩
    obtain ⟨hc, k1, -⟩ := (wellformed_iff s).1 h
    obtain ⟨-, c2, -, -⟩ := (consistent_iff s).1 hc
    exact ⟨c2 hb, k1 (c2 hb), fun w lang => aspell_set_lang_total w lang s h hb⟩
  | cons c rest ih =>
    obtain ⟨p1, p2⟩ := SpellCall_run_wellformed c.1 c.2 s h
    refine ⟨fun s1 hs => ?_, fun hall => ?_⟩
    · simp only [spell_calls_run] at hs
      cases hc : c.2.run c.1 s with
      | none =>
        rw [hc] at hs
        cases hs
      | some s2 =>
        rw [hc] at hs
        exact (ih s2 (p1 s2 hc)).1 s1 hs
    · obtain ⟨s2, hc⟩ := p2 (hall c (List.mem_cons_self _ _))
      obtain ⟨s3, h3⟩ := (ih s2 (p1 s2 hc)).2
        (fun d hd => hall d (List.mem_cons_of_mem _ hd))
      refine ⟨s3, ?_⟩
      simp only [spell_calls_run, hc]
      exact h3

/-- C29, evaluated from the state at program start: the backend is started, queried,
switched to a language without dictionary, switched to "NONE", shut down and started
again. -/
theorem spell_calls_preserve_backend_invariant_witness :
    SpellState.initial.wellformed = true ∧
    (∃ s1, spell_calls_run
        [(SpellWorld.installed, .spell_runtime_init),
          (SpellWorld.installed, .spell_query_state (some ⟨true, true, none⟩)),
          (SpellWorld.no_dictionary, .spell_set_lang (some "xx")),
          (SpellWorld.installed, .spell_set_lang (some "NONE")),
          (SpellWorld.absent, .spell_runtime_shutdown),
          (SpellWorld.installed, .spell_runtime_init)] SpellState.initial = some s1 ∧
      s1.wellformed = true ∧ s1.backend_invariant = true) :=
  have h := spell_calls_preserve_backend_invariant
    [(SpellWorld.installed, .spell_runtime_init),
      (SpellWorld.installed, .spell_query_state (some ⟨true, true, none⟩)),
      (SpellWorld.no_dictionary, .spell_set_lang (some "xx")),
      (SpellWorld.installed, .spell_set_lang (some "NONE")),
      (SpellWorld.absent, .spell_runtime_shutdown),
      (SpellWorld.installed, .spell_runtime_init)] SpellState.initial (by decide)
  ⟨by decide, (h.2 (by decide)).elim fun s1 hs => ⟨s1, hs, (h.1 s1 hs).1, (h.1 s1 hs).2.1⟩⟩

/-! ## One backend for all plugin instances -/

/-- What `spell_runtime_shutdown` releases: the speller and the configuration object of
the record, and the library. -/
theorem spell_runtime_shutdown_releases (s s1 : SpellState) (h : s.wellformed = true)
    (hs : spell_runtime_shutdown s = some s1) :
    ∃ released, s1.trace = s.trace ++ released ∧
      (∀ g sp, s.global_speller = some g → g.speller = some sp →
        SpellEvent.delete_aspell_speller sp ∈ released) ∧
      (∀ g, s.global_speller = some g → SpellEvent.delete_aspell_config ∈ released) ∧
      (∀ m, s.spell_module = some m → SpellEvent.g_module_close m ∈ released) := by
  obtain ⟨hc, -, -⟩ := (wellformed_iff s).1 h
  obtain ⟨-, -, k3, k4⟩ := (consistent_iff s).1 hc
  unfold spell_runtime_shutdown at hs
  simp only [spell_state_cache_invalidate, delete_current_speller, SpellState.log, k4,
    Option.bind_eq_bind, Option.some_bind, Option.pure_def, Option.bind_some] at hs
  refine ⟨List.drop s.trace.length s1.trace, ?_, ?_, ?_, ?_⟩
  all_goals
    cases hg : s.global_speller with
    | none =>
      rw [hg] at hs
      cases hm : s.spell_module <;> cases hh : s.hunspell_module <;>
        simp only [hm, hh, Option.some_bind, Option.some.injEq] at hs <;> subst hs <;>
        simp
    | some g =>
      obtain ⟨g1, g2⟩ := k3 g hg
      obtain ⟨c, hc⟩ := Option.isSome_iff_exists.1 g1
      obtain ⟨a1, h1⟩ := Option.isSome_iff_exists.1 (g2 .delete_aspell_speller)
      obtain ⟨a2, h2⟩ := Option.isSome_iff_exists.1 (g2 .delete_aspell_config)
      rw [hg] at hs
      cases hsp : g.speller <;> cases hm : s.spell_module <;> cases hh : s.hunspell_module <;>
        simp only [hm, hh, hc, h1, h2, hsp, Option.some_bind, Option.some.injEq] at hs <;>
        subst hs <;> simp <;>
        (try (intro g' sp hx hy; subst hx; rw [hsp] at hy; cases hy; try simp))

/-- C30. The spell backend is one for all plugin instances and is not counted: from a
state that satisfies the invariant of the spell runtime, after `spell_plugin_open` twice
and `spell_plugin_close` once (each open in a world where `new_aspell_config` returns a
configuration object), `spell_backend` is NONE, the speller record and the library
handle are `NULL`, the speller and the library that the two opens left have been
released by the close, and `spell_check` accepts every word, although the second
instance was not closed. -/
theorem spell_plugin_close_shuts_shared_backend (kb : Keybind) (w1 w2 : SpellWorld)
    (kw1 kw2 : KeymapWorld) (host1 host2 : Option mc_editor_host_t) (s : PluginState)
    (h : s.spell.wellformed = true) (hc1 : w1.new_aspell_config = true)
    (hc2 : w2.new_aspell_config = true) :
    ∃ d1 s1 d2 s2 s3 released,
      spell_plugin_open kb w1 kw1 host1 s = some (some d1, s1) ∧
      spell_plugin_open kb w2 kw2 host2 s1 = some (some d2, s2) ∧
      spell_plugin_close (some d1) s2 = some s3 ∧
      s3.spell.spell_backend = .SPELL_BACKEND_NONE ∧
      s3.spell.global_speller = none ∧
      s3.spell.spell_module = none ∧
      s3.spell.trace = s2.spell.trace ++ released ∧
      (∀ g sp, s2.spell.global_speller = some g → g.speller = some sp →
        SpellEvent.delete_aspell_speller sp ∈ released) ∧
      (∀ m, s2.spell.spell_module = some m → SpellEvent.g_module_close m ∈ released) ∧
      (∀ (aspell_speller_check : Nat → String → Int → Int) (word : Option String)
          (word_size : Int),
        spell_check aspell_speller_check word word_size s3.spell = some true) := by
  obtain ⟨p1, t1⟩ := spell_runtime_init_wellformed w1 s.spell h
  obtain ⟨q1, e1⟩ := t1 hc1
  have wq1 := p1 q1 e1
  obtain ⟨p2, t2⟩ := spell_runtime_init_wellformed w2 q1 wq1
  obtain ⟨q2, e2⟩ := t2 hc2
  have wq2 := p2 q2 e2
  obtain ⟨q3, e3, -, b3, g3, m3, -, -⟩ := spell_runtime_shutdown_wellformed q2 wq2
  obtain ⟨released, r1, r2, -, r4⟩ := spell_runtime_shutdown_releases q2 q3 wq2 e3
  refine ⟨{ host := host1, spell_keymap := spell_keymap_load kb kw1 }, { s with spell := q1 },
    { host := host2, spell_keymap := spell_keymap_load kb kw2 }, { s with spell := q2 },
    { s with spell := q3 }, released, ?_, ?_, ?_, b3, g3, m3, r1, r2, r4, ?_⟩
  · simp [spell_plugin_open, e1, editor_builtin_plugin_open]
  · simp [spell_plugin_open, e2, editor_builtin_plugin_open]
  · simp [spell_plugin_close, editor_builtin_plugin_close, e3]
  · intro check word word_size
    show spell_check check word word_size q3 = some true
    unfold spell_check
    rw [if_neg (by rw [b3]; decide)]

/-- C30, evaluated from program start with libaspell installed: the two opens leave the
aspell backend selected with speller 5 and library handle 1, and the close of the first
instance releases both. -/
theorem spell_plugin_close_shuts_shared_backend_witness :
    PluginState.initial.spell.wellformed = true ∧
    (((spell_plugin_open Keybind.sample SpellWorld.installed KeymapWorld.sample
          (some ⟨some 7, none, none⟩) PluginState.initial).bind
        fun r => spell_plugin_open Keybind.sample SpellWorld.installed KeymapWorld.sample
          (some ⟨some 8, none, none⟩) r.2).map
      fun r => (r.2.spell.spell_backend, r.2.spell.global_speller, r.2.spell.spell_module))
      = some (.SPELL_BACKEND_ASPELL, some ⟨some [("lang", "fr")], some 5⟩, some 1) ∧
    ∃ d1 s1 d2 s2 s3 released,
      spell_plugin_open Keybind.sample SpellWorld.installed KeymapWorld.sample
        (some ⟨some 7, none, none⟩) PluginState.initial = some (some d1, s1) ∧
      spell_plugin_open Keybind.sample SpellWorld.installed KeymapWorld.sample
        (some ⟨some 8, none, none⟩) s1 = some (some d2, s2) ∧
      spell_plugin_close (some d1) s2 = some s3 ∧
      s3.spell.spell_backend = .SPELL_BACKEND_NONE ∧
      s3.spell.global_speller = none ∧
      s3.spell.spell_module = none ∧
      s3.spell.trace = s2.spell.trace ++ released ∧
      (∀ g sp, s2.spell.global_speller = some g → g.speller = some sp →
        SpellEvent.delete_aspell_speller sp ∈ released) ∧
      (∀ m, s2.spell.spell_module = some m → SpellEvent.g_module_close m ∈ released) ∧
      (∀ (aspell_speller_check : Nat → String → Int → Int) (word : Option String)
          (word_size : Int),
        spell_check aspell_speller_check word word_size s3.spell = some true) :=
  ⟨by decide, by decide,
    spell_plugin_close_shuts_shared_backend Keybind.sample SpellWorld.installed
      SpellWorld.installed KeymapWorld.sample KeymapWorld.sample (some ⟨some 7, none, none⟩)
      (some ⟨some 8, none, none⟩) PluginState.initial (by decide) rfl rfl⟩

/-! ## The language list -/

theorem first_occurrences_filter (p : String → Bool) (xs : List String) :
    first_occurrences (xs.filter p) = (first_occurrences xs).filter p := by
  induction xs with
  | nil => rfl
  | cons x xs ih =>
    by_cases hp : p x = true
    · rw [List.filter_cons_of_pos hp]
      simp only [first_occurrences]
      rw [List.filter_cons_of_pos hp, ih, List.filter_filter, List.filter_filter]
      congr 1
      apply List.filter_congr
      intro y _
      exact Bool.and_comm _ _
    · rw [List.filter_cons_of_neg hp]
      simp only [first_occurrences]
      rw [List.filter_cons_of_neg hp, ih, List.filter_filter]
      apply List.filter_congr
      intro y _
      by_cases hy : y = x
      · subst hy
        simp [hp]
      · simp [hy]

theorem first_occurrences_mem (xs : List String) (y : String) :
    y ∈ first_occurrences xs ↔ y ∈ xs := by
  induction xs with
  | nil => simp [first_occurrences]
  | cons x xs ih =>
    simp only [first_occurrences, List.mem_cons, List.mem_filter, ih, decide_eq_true_eq]
    by_cases hy : y = x
    · simp [hy]
    · simp [hy]

theorem first_occurrences_nodup (xs : List String) : (first_occurrences xs).Nodup := by
  induction xs with
  | nil => exact List.nodup_nil
  | cons x xs ih =>
    simp only [first_occurrences]
    refine List.nodup_cons.2 ⟨?_, ih.filter _⟩
    simp [List.mem_filter]

/-- The loop appends to the array, in the order of their first occurrence, the names
that are not `NULL` and not in the table `seen`. -/
theorem aspell_get_lang_list_loop_spec (entries : List (Option String))
    (seen lang_list : List String) (i : Nat) :
    (aspell_get_lang_list_loop entries seen lang_list i).2.1
      = lang_list
        ++ first_occurrences ((entries.filterMap id).filter (fun x => decide (x ∉ seen))) := by
  induction entries generalizing seen lang_list i with
  | nil => simp [aspell_get_lang_list_loop, first_occurrences]
  | cons e rest ih =>
    cases e with
    | none =>
      simp only [aspell_get_lang_list_loop, List.filterMap_cons_none, id]
      exact ih seen lang_list i
    | some name =>
      simp only [aspell_get_lang_list_loop]
      have hfm : (some name :: rest).filterMap id = name :: rest.filterMap id := rfl
      rw [hfm]
      by_cases hs : name ∈ seen
      · rw [if_pos hs, ih, List.filter_cons_of_neg (by simpa using hs)]
      · rw [if_neg hs, ih, List.filter_cons_of_pos (by simpa using hs)]
        simp only [first_occurrences, List.append_assoc, List.singleton_append]
        congr 2
        rw [← first_occurrences_filter, List.filter_filter]
        congr 1
        apply List.filter_congr
        intro y _
        by_cases hy : y = name
        · subst hy
          simp
        · simp [hy]

/-- With the pointers bound whenever the library is loaded, `aspell_get_lang_list`
returns, and the array after the call is the array before it followed by the enumerated
names, each at its first occurrence. -/
theorem aspell_get_lang_list_spec (w : SpellWorld) (d : DictInfoWorld) (list : List String)
    (s : SpellState)
    (hmod : s.spell_module.isSome = true → ∀ f, (s.mc f).isSome = true) :
    (aspell_get_lang_list w d (some list) s).map (fun r => r.2.1)
      = some (some (list ++ first_occurrences (enumerated_names w d s))) := by
  obtain ⟨-, b2, b3⟩ := spell_available_bound w s
  have fr := spell_available_frame w s
  unfold aspell_get_lang_list enumerated_names
  simp only []
  generalize spell_available w s = r at b2 b3 fr ⊢
  obtain ⟨rb, sA⟩ := r
  simp only [] at b2 b3 fr ⊢
  have fg : sA.global_speller = s.global_speller := by rw [fr]
  cases rb with
  | false =>
    simp only [Bool.not_false, if_true, Option.map_some', Bool.false_and, Bool.false_eq_true,
      if_false, first_occurrences, List.append_nil]
  | true =>
    have hmc := b3 hmod (b2.1 rfl)
    obtain ⟨a1, p1⟩ := Option.isSome_iff_exists.1 (hmc .new_aspell_config)
    obtain ⟨a2, p2⟩ := Option.isSome_iff_exists.1 (hmc .get_aspell_dict_info_list)
    obtain ⟨a3, p3⟩ := Option.isSome_iff_exists.1 (hmc .aspell_dict_info_list_elements)
    obtain ⟨a4, p4⟩ := Option.isSome_iff_exists.1 (hmc .aspell_dict_info_enumeration_next)
    obtain ⟨a5, p5⟩ := Option.isSome_iff_exists.1 (hmc .delete_aspell_dict_info_enumeration)
    obtain ⟨a6, p6⟩ := Option.isSome_iff_exists.1 (hmc .delete_aspell_config)
    rw [fg]
    cases hg : s.global_speller with
    | none =>
      cases hn : w.new_aspell_config <;> cases hd : d.get_aspell_dict_info_list <;>
        cases he : d.aspell_dict_info_list_elements <;>
        simp only [hn, hd, he, p1, p2, p3, p4, p5, p6, aspell_get_lang_list_cleanup, SpellState.log,
          aspell_get_lang_list_loop_spec, first_occurrences, Option.bind_eq_bind,
          Option.some_bind, Option.map_some', Bool.not_true, Bool.not_false, if_true,
          if_false, Bool.false_eq_true, Option.isSome_some, Option.isSome_none,
          Bool.or_false, Bool.or_true, Bool.and_true, Bool.and_false, Bool.true_and,
          List.append_nil, List.not_mem_nil, not_false_eq_true, decide_True,
          List.filter_true, Option.pure_def, Option.bind_some]
    | some g =>
      cases hc : g.config <;> cases hn : w.new_aspell_config <;>
        cases hd : d.get_aspell_dict_info_list <;>
        cases he : d.aspell_dict_info_list_elements <;>
        simp only [hc, hn, hd, he, p1, p2, p3, p4, p5, p6, aspell_get_lang_list_cleanup, SpellState.log,
          aspell_get_lang_list_loop_spec, first_occurrences, Option.bind_eq_bind,
          Option.some_bind, Option.map_some', Bool.not_true, Bool.not_false, if_true,
          if_false, Bool.false_eq_true, Option.isSome_some, Option.isSome_none,
          Bool.or_false, Bool.or_true, Bool.and_true, Bool.and_false, Bool.true_and,
          List.append_nil, List.not_mem_nil, not_false_eq_true, decide_True,
          List.filter_true, Option.pure_def, Option.bind_some]

/-- C23, evaluated. With libaspell installed and a dictionary enumeration that yields
"en", a dictionary that is itself called "NONE", and "en" again, the array that the two
callers start with the entry "NONE" comes back from `aspell_get_lang_list` as "NONE",
"en", "NONE": the repeated "en" is dropped, but "NONE" stands twice, because the table of
seen names starts empty and so does not know the entry the callers put first. The list
offered for selection is then not free of repeats. -/
theorem lang_list_repeats_NONE :
    enumerated_names SpellWorld.installed DictInfoWorld.with_NONE SpellState.initial
      = ["en", "NONE", "en"] ∧
    (aspell_get_lang_list SpellWorld.installed DictInfoWorld.with_NONE (some ["NONE"])
        SpellState.initial).map (fun r => (r.1, r.2.1))
      = some (2, some ["NONE", "en", "NONE"]) ∧
    ¬ (["NONE", "en", "NONE"] : List String).Nodup ∧
    List.count "NONE" ["NONE", "en", "NONE"] = 2 := by
  refine ⟨by decide, by decide, by decide, by decide⟩

/-- What the two callers of `aspell_get_lang_list` hand to the list box, with the
pointers bound whenever the library is loaded: the entry "NONE" they start the array
with, followed by the names the backend enumerates, each at its first occurrence; the
list is just "NONE" when libaspell is unavailable. The names appended are free of repeats
among themselves; the first entry is repeated exactly when the enumeration holds a
dictionary called "NONE". -/
theorem lang_list_for_selection (w : SpellWorld) (d : DictInfoWorld)
    (listbox_run : List String → Int) (s : SpellState)
    (hmod : s.spell_module.isSome = true → ∀ f, (s.mc f).isSome = true) :
    (aspell_get_lang_list w d (some ["NONE"]) s).map (fun r => r.2.1)
      = some (some ("NONE" :: first_occurrences (enumerated_names w d s))) ∧
    (∀ r, aspell_get_lang_list w d (some ["NONE"]) s = some r →
      spell_pick_lang_button_cb w d listbox_run true s
        = (spell_dialog_lang_list_show listbox_run
            ("NONE" :: first_occurrences (enumerated_names w d s))).map
          (fun lang => (lang, r.2.2))) ∧
    (aspell_get_lang_list w d (some ["NONE"]) (spell_config_load w s)).map (fun r => r.2.1)
      = some (some ("NONE" ::
          first_occurrences (enumerated_names w d (spell_config_load w s)))) ∧
    (∀ r, aspell_get_lang_list w d (some ["NONE"]) (spell_config_load w s) = some r →
      edit_set_spell_lang w d listbox_run s
        = (spell_dialog_lang_list_show listbox_run
            ("NONE" :: first_occurrences (enumerated_names w d (spell_config_load w s)))).bind
          (fun lang =>
            match lang with
            | some l => (spell_set_lang w (some l) r.2.2).map fun q => q.2
            | none => some r.2.2)) ∧
    (first_occurrences (enumerated_names w d s)).Nodup ∧
    (∀ x, x ∈ first_occurrences (enumerated_names w d s) ↔ x ∈ enumerated_names w d s) ∧
    (("NONE" :: first_occurrences (enumerated_names w d s)).Nodup
      ↔ "NONE" ∉ enumerated_names w d s) ∧
    ((spell_available w s).1 = false →
      "NONE" :: first_occurrences (enumerated_names w d s) = ["NONE"]) := by
  have h1 := aspell_get_lang_list_spec w d ["NONE"] s hmod
  have hmod2 : (spell_config_load w s).spell_module.isSome = true →
      ∀ f, ((spell_config_load w s).mc f).isSome = true := by
    obtain ⟨-, -, -, -, -, -, m1, m2⟩ := spell_config_load_cache w s
    rw [m1, m2]
    exact hmod
  have h2 := aspell_get_lang_list_spec w d ["NONE"] (spell_config_load w s) hmod2
  refine ⟨h1, ?_, h2, ?_, first_occurrences_nodup _, first_occurrences_mem _, ?_, ?_⟩
  · intro r hr
    rw [hr] at h1
    simp only [Option.map_some', Option.some.injEq, List.singleton_append] at h1
    simp only [spell_pick_lang_button_cb, Bool.not_true, Bool.false_eq_true, if_false, hr,
      Option.bind_eq_bind, Option.some_bind, h1]
    generalize spell_dialog_lang_list_show listbox_run
      ("NONE" :: first_occurrences (enumerated_names w d s)) = o
    cases o <;> rfl
  · intro r hr
    rw [hr] at h2
    simp only [Option.map_some', Option.some.injEq, List.singleton_append] at h2
    simp only [edit_set_spell_lang, hr, Option.bind_eq_bind, Option.some_bind, h2]
    rw [if_pos (Or.inr (by simp))]
  · rw [List.nodup_cons, first_occurrences_mem]
    exact ⟨fun h => h.1, fun h => ⟨h, first_occurrences_nodup _⟩⟩
  · intro hf
    simp [enumerated_names, hf, first_occurrences]

/-- The list for selection evaluated from program start: with libaspell installed and
the enumeration "en", "de", an entry without name, "en", "fr", it is "NONE", "en", "de",
"fr"; with libaspell not installed it is "NONE" alone. -/
theorem lang_list_for_selection_witness :
    (aspell_get_lang_list SpellWorld.installed DictInfoWorld.sample (some ["NONE"])
        SpellState.initial).map (fun r => r.2.1)
      = some (some ["NONE", "en", "de", "fr"]) ∧
    (aspell_get_lang_list SpellWorld.absent DictInfoWorld.sample (some ["NONE"])
        SpellState.initial).map (fun r => r.2.1)
      = some (some ["NONE"]) :=
  have h1 := (lang_list_for_selection SpellWorld.installed DictInfoWorld.sample
    (fun _ => 0) SpellState.initial (fun hx => absurd hx (by decide))).1
  have h2 := (lang_list_for_selection SpellWorld.absent DictInfoWorld.sample
    (fun _ => 0) SpellState.initial (fun hx => absurd hx (by decide))).1
  ⟨h1.trans (by decide), h2.trans (by decide)⟩

/-! ## White space of the keymap parser -/

/-- The white space `g_strstrip` removes is space, tab, line feed, form feed and
carriage return; a vertical tab stays, so a line that starts with one is not
recognised: its name is not one of the three action names and nothing is bound. -/
theorem g_ascii_isspace_values :
    (∀ c : Char, g_ascii_isspace c = true ↔ c.toNat ∈ [9, 10, 12, 13, 32]) ∧
    g_ascii_isspace (Char.ofNat 11) = false ∧
    g_strstrip (Char.ofNat 11 :: "SpellCheck=ctrl-p ".toList)
      = Char.ofNat 11 :: "SpellCheck=ctrl-p".toList ∧
    spell_keymap_parse_line Keybind.sample KeymapWorld.sample (some [])
        (some (Char.ofNat 11 :: "SpellCheck=ctrl-p".toList)) = some [] ∧
    spell_keymap_parse_line Keybind.sample KeymapWorld.sample (some [])
        (some (Char.ofNat 12 :: "SpellCheck=ctrl-p".toList))
      = some [{ command := 201, key := 16 }] := by
  refine ⟨fun c => ?_, by decide, by decide, by decide, by decide⟩
  simp only [g_ascii_isspace, Bool.or_eq_true, decide_eq_true_eq, List.mem_cons,
    List.mem_singleton, List.not_mem_nil, or_false]
  tauto

end Mc
